import Mathlib

/-!
# node-snmp: the session / reactor integration layer of `src/snmp_binding.cc`

A shallow embedding of the C++ binding: the request queue of `SnmpSession`
(`PerformRequestImpl`, `snmp_cb_proxy`, `snmp_success_cb`, `snmp_fail_cb`), the
registry of `SnmpSessionManager` (`addClient`, `removeClient`), the value wrapper
(`SnmpValue`, `SnmpResult`) and the argument handling of `PerformRequest`.

Conventions of the embedding.

* Pointers (`void*` session handles, persistent function handles) are natural
  numbers; `0` is `NULL`.
* `assert(c)` is the checked assertion of `<assert.h>`: when `c` is false the
  call stops there and the failed assertion is recorded in the result.
* Everything the binding obtains from net-snmp, V8 or the C++ library is an
  explicit input: the value `snmp_sess_send` returned, the error-string table,
  whether a JavaScript callback throws, which half of the `std::deque` the
  library shifts when an element is erased, and what a read of a released
  deque node finds.
-/

namespace NodeSnmp

/-! ## Constants of the net-snmp headers -/

/-- Value of `NETSNMP_CALLBACK_OP_RECEIVED_MESSAGE` (snmp_api.h). -/
def NETSNMP_CALLBACK_OP_RECEIVED_MESSAGE : Int := 1
/-- Value of `NETSNMP_CALLBACK_OP_TIMED_OUT` (snmp_api.h). -/
def NETSNMP_CALLBACK_OP_TIMED_OUT : Int := 2
/-- Value of `NETSNMP_CALLBACK_OP_SEND_FAILED` (snmp_api.h). -/
def NETSNMP_CALLBACK_OP_SEND_FAILED : Int := 3
/-- Value of `NETSNMP_CALLBACK_OP_CONNECT` (snmp_api.h). -/
def NETSNMP_CALLBACK_OP_CONNECT : Int := 4
/-- Value of `NETSNMP_CALLBACK_OP_DISCONNECT` (snmp_api.h). -/
def NETSNMP_CALLBACK_OP_DISCONNECT : Int := 5
/-- Value of `SNMP_ERR_NOERROR` (snmp.h). -/
def SNMP_ERR_NOERROR : Int := 0

/-- ASN.1 type tags of asn1.h and snmp_impl.h, as stored in the `u_char type`
of a variable. -/
def ASN_INTEGER : Nat := 0x02
def ASN_BIT_STR : Nat := 0x03
def ASN_OCTET_STR : Nat := 0x04
def ASN_NULL : Nat := 0x05
def ASN_OBJECT_ID : Nat := 0x06
def ASN_IPADDRESS : Nat := 0x40
def ASN_COUNTER : Nat := 0x41
def ASN_GAUGE : Nat := 0x42
def ASN_TIMETICKS : Nat := 0x43
def ASN_OPAQUE : Nat := 0x44
def ASN_COUNTER64 : Nat := 0x46
def ASN_UINTEGER : Nat := 0x47

/-- Size in bytes of `oid` (`u_long`) on the LP64 target. -/
def sizeof_oid : Nat := 8
/-- Size in bytes of `long` on the LP64 target. -/
def sizeof_long : Nat := 8

/-! ## The values handed to a continuation -/

/-- The members of the class `SnmpValue`: the type tag and the copied bytes. -/
structure SnmpValue where
  type_ : Nat
  data_ : List Nat
deriving DecidableEq, Repr

/-- The object built by `SnmpResult::New`: properties `oid` and `value`. -/
structure SnmpResult where
  oid : SnmpValue
  value : SnmpValue
deriving DecidableEq, Repr

/-- The V8 values the binding passes to a continuation. -/
inductive JsArg where
  | boolean (b : Bool)
  | symbol (s : String)
  | null
  | array (xs : List SnmpResult)
deriving DecidableEq, Repr

/-! ## Data model -/

/-- One variable binding of a PDU (`netsnmp_variable_list`): `name` is the
array of `name_length` sub-identifiers, `val` the `val_len` bytes at
`val.string`. -/
structure netsnmp_variable_list where
  name : List Nat
  type : Nat
  val : List Nat
deriving DecidableEq, Repr

/-- The fields of `netsnmp_pdu` the binding reads (`variables_` is the list
hanging off the member `variables`, linked through `next_variable`). -/
structure netsnmp_pdu where
  command : Int
  reqid : Int
  errstat : Int
  variables_ : List netsnmp_variable_list
deriving DecidableEq, Repr

/-- The enum `SnmpSession::req_type`. -/
inductive req_type where
  | REQ_NEXT
  | REQ_GET
  | REQ_BULK
deriving DecidableEq, Repr

/-- The record `SnmpSession::req_data` kept in the queue. -/
structure req_data where
  pdu_ : netsnmp_pdu
  type_ : req_type
  callback_ : Nat
deriving DecidableEq, Repr

/-! ## Inputs supplied by the collaborators -/

/-- The collaborators of the binding.
* `snmp_errstring` is net-snmp's error-string lookup.
* `callbackThrows f a0 a1` tells whether the JavaScript function behind the
  persistent handle `f` throws when called with `(a0, a1)`.
* `eraseShiftsFront i n` tells whether `std::deque::erase` at index `i` of a
  deque of `n` elements closes the gap by moving the elements before `i`
  towards the back (and popping the front) instead of moving the elements
  after `i` towards the front (and popping the back).
* `frontFreed q` tells what popping the front does to the storage of the first
  record when the deque holds the records `q`, at least two of them: `none`
  when the slot stays allocated (it then keeps the bytes of the popped record,
  whose destructor is trivial), `some g` when the first record occupied the
  last slot of its node, so that the library returns the node to the allocator
  (`_M_pop_front_aux` of libstdc++, whose nodes hold 21 records of 24 bytes);
  `g` is then what a later read of that address finds, which nothing in the
  program determines. Of `g` only the member `type_` is read, and `REQ_BULK`
  stands for every value other than `REQ_GET` and `REQ_NEXT`, all of which
  reach the same branch. Which case applies depends on the position of the
  first record inside its node, that is on the erases made before, which the
  list `q` does not record; a run asks about a given content once, when its
  first record leaves, unless an identical record is sent again. Popping the
  back never releases the node of the popped slot, and neither does the
  erase of the only record (libstdc++ pops the back then). -/
structure Env where
  snmp_errstring : Int → String
  callbackThrows : Nat → JsArg → JsArg → Bool
  eraseShiftsFront : Nat → Nat → Bool
  frontFreed : List req_data → Option req_data

/-- The erase policy of GNU libstdc++ (`deque::_M_erase` in deque.tcc):
the front part moves when `index < size() >> 1`. -/
def libstdcxxShiftsFront (index size : Nat) : Bool := decide (index < size / 2)

/-! ## The registry of the bridge and the session -/

/-- State of a libev `ev_io` watcher as far as the binding uses it. -/
structure ev_io where
  fd : Int
  active : Bool
  pending : Int
deriving DecidableEq, Repr

/-- An entry of the registry, `SnmpSessionManager::storage_el`. -/
structure storage_el where
  snmpHandle_ : Nat
  io_watcher_ : ev_io
deriving DecidableEq, Repr

/-- The members of `SnmpSessionManager`: the registry `storage_`, whether the
prepare and check watchers are started, and `timeout_.active_`. -/
structure SnmpSessionManager where
  storage_ : List storage_el
  prepareStarted : Bool
  checkStarted : Bool
  timeout_active_ : Bool
deriving DecidableEq, Repr

/-- The members of `SnmpSession` that the request path uses. -/
structure SnmpSession where
  queue_ : List req_data
  sessionHandle_ : Nat
deriving DecidableEq, Repr

/-! ## SnmpSessionManager -/

/-- The aggregate `(storage_el){ aSnmp }`: the watcher is zero-initialised. -/
def storage_el.ofHandle (aSnmp : Nat) : storage_el :=
  { snmpHandle_ := aSnmp, io_watcher_ := { fd := 0, active := false, pending := 0 } }

/-- The method `SnmpSessionManager::addClient`. -/
def SnmpSessionManager.addClient (m : SnmpSessionManager) (aSnmp : Nat) : SnmpSessionManager :=
  let m1 : SnmpSessionManager :=
    if m.storage_.isEmpty then { m with prepareStarted := true, checkStarted := true } else m
  { m1 with storage_ := storage_el.ofHandle aSnmp :: m1.storage_ }

/-- The loop body of `removeClient` after `std::find_if`: the first entry whose
handle equals `aSnmp` gets a NULL handle; `none` when no entry matches. -/
def flagFirst (aSnmp : Nat) : List storage_el → Option (List storage_el)
  | [] => none
  | e :: es =>
    if e.snmpHandle_ = aSnmp then some ({ e with snmpHandle_ := 0 } :: es)
    else (flagFirst aSnmp es).map (fun es1 => e :: es1)

/-- The method `SnmpSessionManager::removeClient`; `none` is the failure of
`assert(it != storage_.end())`. -/
def SnmpSessionManager.removeClient (m : SnmpSessionManager) (aSnmp : Nat) :
    Option SnmpSessionManager :=
  (flagFirst aSnmp m.storage_).map (fun st => { m with storage_ := st })

/-! ## SnmpValue and SnmpResult -/

/-- Little-endian image of an unsigned integer in `w` bytes of memory. -/
def bytesLE : Nat → Nat → List Nat
  | 0, _ => []
  | w + 1, n => n % 256 :: bytesLE w (n / 256)

/-- The unsigned integer stored little-endian in a run of bytes. -/
def ofBytesLE : List Nat → Nat
  | [] => 0
  | b :: bs => b + 256 * ofBytesLE bs

/-- The memory behind `var->name`: `name_length` consecutive `oid` cells. -/
def oidMemory (name : List Nat) : List Nat :=
  name.flatMap (bytesLE sizeof_oid)

/-- The function `SnmpValue::New(type, data, length)`: the wrapper keeps the
type tag and a copy of the first `length` bytes at `data`. -/
def SnmpValue.New (type : Nat) (data : List Nat) (length : Nat) : SnmpValue :=
  { type_ := type, data_ := data.take length }

/-- The function `SnmpResult::New(var)`. -/
def SnmpResult.New (var : netsnmp_variable_list) : SnmpResult :=
  { oid := SnmpValue.New ASN_OBJECT_ID (oidMemory var.name) (var.name.length * sizeof_oid),
    value := SnmpValue.New var.type var.val var.val.length }

/-- What `SnmpValue::GetData` hands to JavaScript. `number d` stands for
`v8::Number::New(d)` and `array ds` for the array of the numbers
`v8::Number::New(d)`, `d` in `ds`; a `double` is given by its value, which is
integral wherever the binding makes one. -/
inductive JsData where
  | int32 (z : Int)
  | uint32 (n : Nat)
  | number (n : Nat)
  | array (xs : List Nat)
  | buffer (bytes : List Nat)
  | null
deriving DecidableEq, Repr

/-- Outcome of `SnmpValue::GetData`: a value, a thrown exception, a failed
assertion, or a read beyond the end of `data_`. -/
inductive GetDataResult where
  | value (d : JsData)
  | exception (msg : String)
  | assertFailed (msg : String)
  | outOfBounds
deriving DecidableEq, Repr

/-- The number of bits by which `n` exceeds the 53 bits of the significand of a
`double`: the least `e` with `n < 2 ^ (53 + e)`, for `n < 2 ^ (53 + fuel)`. -/
def droppedBits : Nat → Nat → Nat
  | 0, _ => 0
  | fuel + 1, n => if n < 2 ^ 53 then 0 else droppedBits fuel (n / 2) + 1

/-- The conversion `double num = n` of an unsigned 64-bit integer `n`, as the
value of the resulting `double` (IEEE 754 binary64, round to nearest, ties to
even): every integer below `2 ^ 53` is a `double`; a larger one keeps its
leading 53 bits `q`, and the `e` bits `r` below them are rounded away. -/
def toDouble (n : Nat) : Nat :=
  if n < 2 ^ 53 then n
  else
    let e := droppedBits 11 n
    let q := n / 2 ^ e
    let r := n % 2 ^ e
    if 2 ^ (e - 1) < r ∨ (r = 2 ^ (e - 1) ∧ q % 2 = 1) then (q + 1) * 2 ^ e else q * 2 ^ e

/-- Conversion of an unsigned machine word to `int32_t`. -/
def toInt32 (n : Nat) : Int :=
  if n % 2 ^ 32 < 2 ^ 31 then (n % 2 ^ 32 : Nat) else ((n % 2 ^ 32 : Nat) : Int) - 2 ^ 32

/-- The loop of the `ASN_OBJECT_ID` case of `GetData`: the cells
`data.objid[0 .. end)`. -/
def readOids : Nat → List Nat → List Nat
  | 0, _ => []
  | k + 1, bytes => ofBytesLE (bytes.take sizeof_oid) :: readOids k (bytes.drop sizeof_oid)

/-- The method `SnmpValue::GetData`, for a build without
`NETSNMP_WITH_OPAQUE_SPECIAL_TYPES` (the cases under that guard convert through
floating point and are left out; their tags then reach `default`). -/
def SnmpValue.GetData (inst : SnmpValue) : GetDataResult :=
  let t := inst.type_
  if t = ASN_INTEGER then
    if sizeof_long ≤ inst.data_.length then
      .value (.int32 (toInt32 (ofBytesLE (inst.data_.take sizeof_long))))
    else .outOfBounds
  else if t = ASN_GAUGE ∨ t = ASN_COUNTER ∨ t = ASN_UINTEGER ∨ t = ASN_TIMETICKS then
    if 4 ≤ inst.data_.length then .value (.uint32 (ofBytesLE (inst.data_.take 4)))
    else .outOfBounds
  else if t = ASN_COUNTER64 then
    if 2 * sizeof_long ≤ inst.data_.length then
      let high := ofBytesLE (inst.data_.take sizeof_long)
      let low := ofBytesLE ((inst.data_.drop sizeof_long).take sizeof_long)
      .value (.number (toDouble (((high * 2 ^ 32) % 2 ^ 64) ||| low)))
    else .outOfBounds
  else if t = ASN_OBJECT_ID then
    if inst.data_.length % sizeof_oid = 0 then
      .value (.array ((readOids (inst.data_.length / sizeof_oid) inst.data_).map toDouble))
    else .assertFailed "(inst->data_.size() % sizeof(oid)) == 0"
  else if t = ASN_OCTET_STR ∨ t = ASN_BIT_STR ∨ t = ASN_OPAQUE ∨ t = ASN_IPADDRESS then
    .value (.buffer inst.data_)
  else if t = ASN_NULL then .value .null
  else .exception "internal error, unexpected variable type received from net-snmp"

/-! ## SnmpSession: the request queue -/

/-- One call of a continuation: the record passed as `magic` and the two
arguments of `callback_->Call`. -/
structure Invocation where
  magic : req_data
  arg0 : JsArg
  arg1 : JsArg
deriving DecidableEq, Repr

/-- What a completion callback did besides changing the session: the
continuations it called, the callbacks whose exception went to
`node::FatalException`, the callbacks whose exception no `TryCatch` intercepted,
and the persistent handles it disposed. -/
structure Effects where
  calls : List Invocation
  fatal : List Nat
  uncaught : List Nat
  disposed : List Nat
deriving DecidableEq, Repr

/-- No effect at all. -/
def Effects.empty : Effects := { calls := [], fatal := [], uncaught := [], disposed := [] }

/-- The method `SnmpSession::snmp_success_cb`. -/
def snmp_success_cb (env : Env) (pdu : netsnmp_pdu) (magic : req_data) : Effects :=
  let kResult := pdu.variables_.map SnmpResult.New
  let a0 := JsArg.boolean false
  let a1 := JsArg.array kResult
  { calls := [{ magic := magic, arg0 := a0, arg1 := a1 }],
    fatal := if env.callbackThrows magic.callback_ a0 a1 then [magic.callback_] else [],
    uncaught := [],
    disposed := [] }

/-- The method `SnmpSession::snmp_fail_cb`; its `TryCatch` is commented out. -/
def snmp_fail_cb (env : Env) (_pdu : netsnmp_pdu) (magic : req_data) (reason : String) :
    Effects :=
  let a0 := JsArg.symbol reason
  let a1 := JsArg.null
  { calls := [{ magic := magic, arg0 := a0, arg1 := a1 }],
    fatal := [],
    uncaught := if env.callbackThrows magic.callback_ a0 a1 then [magic.callback_] else [],
    disposed := [] }

/-- Result of `snmp_cb_proxy`: the session and its manager afterwards, the
effects, the assertion that stopped the call (if any) and the value returned. -/
structure CbResult where
  session : SnmpSession
  manager : SnmpSessionManager
  effects : Effects
  failedAssert : Option String
  ret : Option Int
deriving DecidableEq, Repr

/-- The statement `kReq.callback_.Dispose()` appended to the effects of a
callback. -/
def Effects.dispose (e : Effects) (h : Nat) : Effects :=
  { e with disposed := e.disposed ++ [h] }

/-- The failure reason chosen by the `switch (operation)` of `snmp_cb_proxy`. -/
def failureMessage (operation : Int) : String :=
  if operation = NETSNMP_CALLBACK_OP_TIMED_OUT then "timeout"
  else if operation = NETSNMP_CALLBACK_OP_SEND_FAILED then "send failed"
  else if operation = NETSNMP_CALLBACK_OP_CONNECT then "connect failed"
  else if operation = NETSNMP_CALLBACK_OP_DISCONNECT then "peer has disconnected"
  else "unknown snmp error"

/-- What the iterator `it` refers to after `queue_.erase(it)`, as read by
`switch (it->type_)`. The iterator still addresses slot `i` of the storage of
the deque `q` (the queue before the erase, `kReq` the erased record). When the
library shifted the front part, slot `i` now holds the record that preceded
`kReq`; when there was none, `kReq` was the first record and its slot was
popped: the slot keeps the bytes of `kReq` (the destructor of `req_data` is
trivial) unless the node that contains it was released, in which case the read
finds `g` as given by `Env.frontFreed`. When the library shifted the back part,
slot `i` holds the record that followed `kReq`, or still `kReq` when it was the
last: the popped last slot stays allocated. -/
def slotAfterErase (env : Env) (q : List req_data) (i : Nat) (kReq : req_data) : req_data :=
  if env.eraseShiftsFront i q.length then
    (if i = 0 then
      (if 1 < q.length then
        (match env.frontFreed q with
          | some g => g
          | none => kReq)
       else kReq)
     else q.getD (i - 1) kReq)
  else
    (if i + 1 < q.length then q.getD (i + 1) kReq else kReq)

/-- The `for` loop of `snmp_cb_proxy`: position and copy of the first record
whose `pdu_->reqid` equals `reqid`. -/
def findRequest (reqid : Int) : List req_data → Option (Nat × req_data)
  | [] => none
  | r :: rs =>
    if r.pdu_.reqid = reqid then some (0, r)
    else (findRequest reqid rs).map (fun p => (p.1 + 1, p.2))

/-- The bookkeeping of `snmp_cb_proxy` once the record at position `i` is
found: `queue_.erase(it)`, then `manager_->removeClient(sessionHandle_)` when
the queue has become empty. The manager is `none` when the assertion inside
`removeClient` fails. -/
def eraseAndDeregister (s : SnmpSession) (m : SnmpSessionManager) (i : Nat) :
    SnmpSession × Option SnmpSessionManager :=
  let s1 : SnmpSession := { s with queue_ := s.queue_.eraseIdx i }
  (s1, if s1.queue_.length = 0 then m.removeClient s1.sessionHandle_ else some m)

/-- The rest of `snmp_cb_proxy`, after the bookkeeping: classification of
`operation`, the error status of the reply, and the `switch (it->type_)`, where
`it` is the record the erased iterator refers to. After `assert(false)` in the
`REQ_BULK`/`default` case nothing more is executed. -/
def deliver (env : Env) (operation : Int) (pdu : netsnmp_pdu) (kReq it : req_data)
    (s1 : SnmpSession) (m1 : SnmpSessionManager) : CbResult :=
  if operation ≠ NETSNMP_CALLBACK_OP_RECEIVED_MESSAGE then
    { session := s1, manager := m1,
      effects := (snmp_fail_cb env pdu kReq (failureMessage operation)).dispose kReq.callback_,
      failedAssert := none, ret := some 1 }
  else if pdu.errstat ≠ SNMP_ERR_NOERROR then
    { session := s1, manager := m1,
      effects :=
        (snmp_fail_cb env pdu kReq (env.snmp_errstring pdu.errstat)).dispose kReq.callback_,
      failedAssert := none, ret := some 1 }
  else
    match it.type_ with
    | .REQ_GET =>
      { session := s1, manager := m1,
        effects := (snmp_success_cb env pdu kReq).dispose kReq.callback_,
        failedAssert := none, ret := some 1 }
    | .REQ_NEXT =>
      { session := s1, manager := m1,
        effects := (snmp_success_cb env pdu kReq).dispose kReq.callback_,
        failedAssert := none, ret := some 1 }
    | .REQ_BULK =>
      { session := s1, manager := m1, effects := Effects.empty,
        failedAssert := some "internal error: inconsistent req_data record", ret := none }

/-- The method `SnmpSession::snmp_cb_proxy`. -/
def snmp_cb_proxy (env : Env) (operation : Int) (reqid : Int) (pdu : netsnmp_pdu)
    (s : SnmpSession) (m : SnmpSessionManager) : CbResult :=
  match findRequest reqid s.queue_ with
  | none =>
    { session := s, manager := m, effects := Effects.empty,
      failedAssert := some "spurious response received", ret := none }
  | some (i, kReq) =>
    let it := slotAfterErase env s.queue_ i kReq
    match eraseAndDeregister s m i with
    | (s1, none) =>
      { session := s1, manager := m, effects := Effects.empty,
        failedAssert := some "it != storage_.end()", ret := none }
    | (s1, some m1) => deliver env operation pdu kReq it s1 m1

/-- Result of `PerformRequestImpl`: the session and its manager afterwards, the
exception thrown into V8 (if any), and the PDUs handed to `snmp_sess_send`. -/
structure SendResult where
  session : SnmpSession
  manager : SnmpSessionManager
  thrown : Option String
  sends : List (Nat × netsnmp_pdu)
deriving DecidableEq, Repr

/-- The method `SnmpSession::PerformRequestImpl`; `sent` is the value that
`snmp_sess_send(sessionHandle_, pdu)` returned. -/
def PerformRequestImpl (sent : Int) (aType : req_type) (pdu : netsnmp_pdu) (aCallback : Nat)
    (s : SnmpSession) (m : SnmpSessionManager) : SendResult :=
  if sent = 0 then
    { session := s, manager := m, thrown := some "cannot send query",
      sends := [(s.sessionHandle_, pdu)] }
  else
    let s1 : SnmpSession :=
      { s with queue_ := s.queue_ ++ [{ pdu_ := pdu, type_ := aType, callback_ := aCallback }] }
    let m1 := if s1.queue_.length = 1 then m.addClient s1.sessionHandle_ else m
    { session := s1, manager := m1, thrown := none, sends := [(s.sessionHandle_, pdu)] }

/-! ## Sequences of sends and completions on one Endpoint -/

/-- What can happen to one Endpoint: a call of `PerformRequestImpl` (with the
value `snmp_sess_send` returned) or a completion delivered by the engine to
`snmp_cb_proxy`. -/
inductive Event where
  | send (sent : Int) (aType : req_type) (pdu : netsnmp_pdu) (aCallback : Nat)
  | completion (operation : Int) (reqid : Int) (pdu : netsnmp_pdu)
deriving DecidableEq, Repr

/-- State of an Endpoint run: session, manager, the effects so far and the
assertion that stopped the process (if any). -/
structure RunState where
  session : SnmpSession
  manager : SnmpSessionManager
  effects : Effects
  failedAssert : Option String
deriving DecidableEq, Repr

/-- Concatenation of the effects of two consecutive calls. -/
def Effects.append (a b : Effects) : Effects :=
  { calls := a.calls ++ b.calls, fatal := a.fatal ++ b.fatal,
    uncaught := a.uncaught ++ b.uncaught, disposed := a.disposed ++ b.disposed }

/-- One event applied to an Endpoint. -/
def step (env : Env) (e : Event) (s : SnmpSession) (m : SnmpSessionManager) : RunState :=
  match e with
  | .send sent aType pdu aCallback =>
    let r := PerformRequestImpl sent aType pdu aCallback s m
    { session := r.session, manager := r.manager, effects := Effects.empty,
      failedAssert := none }
  | .completion operation reqid pdu =>
    let r := snmp_cb_proxy env operation reqid pdu s m
    { session := r.session, manager := r.manager, effects := r.effects,
      failedAssert := r.failedAssert }

/-- A sequence of events applied in order; a failed assertion ends the process,
so the events after it have no effect. -/
def run (env : Env) : List Event → SnmpSession → SnmpSessionManager → RunState
  | [], s, m => { session := s, manager := m, effects := Effects.empty, failedAssert := none }
  | e :: es, s, m =>
    let r := step env e s m
    match r.failedAssert with
    | some _ => r
    | none =>
      let r2 := run env es r.session r.manager
      { r2 with effects := r.effects.append r2.effects }

/-- A fresh Endpoint: an open session (non-NULL handle `h`) with nothing queued. -/
def SnmpSession.fresh (h : Nat) : SnmpSession := { queue_ := [], sessionHandle_ := h }

/-- A manager right after construction. -/
def SnmpSessionManager.fresh : SnmpSessionManager :=
  { storage_ := [], prepareStarted := false, checkStarted := false, timeout_active_ := false }

/-- Number of registry entries that carry the handle `h`. For a non-NULL `h`
these are the live (not flagged for removal) entries of the Endpoint. -/
def liveEntries (h : Nat) (m : SnmpSessionManager) : Nat :=
  m.storage_.countP (fun e => decide (e.snmpHandle_ = h))

/-- Consistency of an Endpoint with its bridge: the session is open (non-NULL
handle) and the registry holds one entry for the handle when requests are
pending and none otherwise. -/
def EndpointInv (s : SnmpSession) (m : SnmpSessionManager) : Prop :=
  s.sessionHandle_ ≠ 0 ∧
    liveEntries s.sessionHandle_ m = (if s.queue_.isEmpty then 0 else 1)

instance (s : SnmpSession) (m : SnmpSessionManager) : Decidable (EndpointInv s m) := by
  unfold EndpointInv
  infer_instance

/-! ## Concrete inputs used for evaluation -/

/-- An environment for concrete evaluations: two entries of the net-snmp
error-string table, callbacks that never throw, the libstdc++ erase policy, and
a queue whose first record never sits in the last slot of its node (as on an
Endpoint that has completed fewer than twenty requests from the front). -/
def exampleEnv : Env :=
  { snmp_errstring := fun e =>
      if e = 2 then "(noSuchName) There is no such variable name in this MIB."
      else "Unknown Error",
    callbackThrows := fun _ _ _ => false,
    eraseShiftsFront := libstdcxxShiftsFront,
    frontFreed := fun _ => none }

/-- A PDU with request id `id`, no error and no variable. -/
def examplePdu (id : Int) : netsnmp_pdu :=
  { command := 0, reqid := id, errstat := 0, variables_ := [] }

/-- The registry of a bridge that holds exactly the Endpoint with handle `h`. -/
def exampleManager (h : Nat) : SnmpSessionManager :=
  SnmpSessionManager.fresh.addClient h

/-- A pending request of kind `t` with request id `id` and continuation `cb`. -/
def exampleReq (t : req_type) (id : Int) (cb : Nat) : req_data :=
  { pdu_ := examplePdu id, type_ := t, callback_ := cb }

/-! ## Vocabulary for statements about event sequences -/

/-- Request ids of the queries the engine accepted (`snmp_sess_send` returned
non-zero), in the order of the sends. -/
def acceptedIds : List Event → List Int
  | [] => []
  | .send sent _ pdu _ :: es =>
    if sent = 0 then acceptedIds es else pdu.reqid :: acceptedIds es
  | .completion _ _ _ :: es => acceptedIds es

/-- The records that the accepted sends of a sequence append to the queue
(`snmp_sess_send` returned non-zero), in the order of the sends. -/
def sentRecords : List Event → List req_data
  | [] => []
  | .send sent aType pdu aCallback :: es =>
    if sent = 0 then sentRecords es
    else { pdu_ := pdu, type_ := aType, callback_ := aCallback } :: sentRecords es
  | .completion _ _ _ :: es => sentRecords es

/-- Request ids of the records in the queue, in queue order. -/
def queueIds (s : SnmpSession) : List Int :=
  s.queue_.map (fun r => r.pdu_.reqid)

/-- The calls made on behalf of the request with id `id`. -/
def callsFor (id : Int) (e : Effects) : List Invocation :=
  e.calls.filter (fun c => decide (c.magic.pdu_.reqid = id))

/-! ## The entry point PerformRequest -/

/-- JavaScript values as `PerformRequest` inspects them. `number z` is a
number with the integral value `z`; `otherNumber` is any other number
(fractional, NaN, infinite, negative zero). -/
inductive V8Value where
  | undefined
  | null
  | boolean (b : Bool)
  | number (z : Int)
  | otherNumber
  | string (s : String)
  | function (id : Nat)
  | array (elems : List V8Value)
  | object

/-- The test `IsArray()`. -/
def V8Value.IsArray : V8Value → Bool
  | .array _ => true
  | _ => false

/-- The test `IsUint32()` together with `ToUint32()->Value()`: the value when
the test succeeds. -/
def V8Value.asUint32 : V8Value → Option Nat
  | .number z => if 0 ≤ z ∧ z < 2 ^ 32 then some z.toNat else none
  | _ => none

/-- What net-snmp and libev answer during one `PerformRequest`.
* `pdu_create t` is the PDU `snmp_pdu_create` returns (`none` for NULL).
* `add_null_var_ok pdu name` tells whether `snmp_add_null_var` succeeds.
* `sess_send h pdu` is the value `snmp_sess_send` returns.
* `clone_handle` is the handle `snmp_sess_open` returns for the cloned session.
* `ev_multiplicity` is the build option `EV_MULTIPLICITY`.
* `ev_run s m` is the outcome of running the private loop on the cloned
  session `s` and the private manager `m`. -/
structure RequestEnv where
  pdu_create : req_type → Option netsnmp_pdu
  add_null_var_ok : netsnmp_pdu → List Nat → Bool
  sess_send : Nat → netsnmp_pdu → Int
  clone_handle : Nat
  ev_multiplicity : Bool
  ev_run : SnmpSession → SnmpSessionManager → RunState

/-- The member loop of `addNullVarFromV8Array`: the sub-identifiers, or `none`
at the first member that fails `IsUint32()`. -/
def readMembers : List V8Value → Option (List Nat)
  | [] => some []
  | v :: vs =>
    match v.asUint32 with
    | none => none
    | some n => (readMembers vs).map (fun ns => n :: ns)

/-- The helper `addNullVarFromV8Array`: the PDU with one more variable, or
the exception thrown. -/
def addNullVarFromV8Array (renv : RequestEnv) (pdu : netsnmp_pdu) (var : V8Value) :
    Except String netsnmp_pdu :=
  match var with
  | .array a =>
    if a.length = 0 then .error "invalid argument - empty oid"
    else
      match readMembers a with
      | none => .error "invalid oid - non-integer member"
      | some tmp =>
        if renv.add_null_var_ok pdu tmp then
          .ok { pdu with
                variables_ := pdu.variables_ ++ [{ name := tmp, type := ASN_NULL, val := [] }] }
        else .error "cannot add query to pdu"
  | _ => .error "invalid argument - not an array"

/-- The loop over the groups of an array of arrays: it stops at the first
exception caught. -/
def addGroups (renv : RequestEnv) (pdu : netsnmp_pdu) : List V8Value → Except String netsnmp_pdu
  | [] => .ok pdu
  | g :: gs =>
    match addNullVarFromV8Array renv pdu g with
    | .error e => .error e
    | .ok pdu1 => addGroups renv pdu1 gs

/-- The block of `PerformRequest` that builds the PDU from `kOidArg`. -/
def buildQuery (renv : RequestEnv) (aType : req_type) (kOidArg : List V8Value) :
    Except String netsnmp_pdu :=
  if kOidArg.length = 0 then .error "invalid argument - empty oid"
  else
    match renv.pdu_create aType with
    | none => .error "cannot allocate pdu"
    | some pdu =>
      match kOidArg.head? with
      | some (.array _) => addGroups renv pdu kOidArg
      | _ => addNullVarFromV8Array renv pdu (.array kOidArg)

/-- Outcome of `PerformRequest`: the exception thrown into V8 (if any), the
session `inst` and the default manager afterwards, the PDUs handed to
`snmp_sess_send`, the effects of the callbacks run by a synchronous call, the
failure that ended the process (if any), and for a synchronous call the cloned
session and the private manager as they were when they were deleted. -/
structure PerformResult where
  thrown : Option String
  inst : SnmpSession
  manager : SnmpSessionManager
  sends : List (Nat × netsnmp_pdu)
  effects : Effects
  aborted : Option String
  clone : Option (SnmpSession × SnmpSessionManager)

/-- An early `return ThrowException(msg)`: nothing has been touched. -/
def PerformResult.throw (msg : String) (inst : SnmpSession) (m : SnmpSessionManager) :
    PerformResult :=
  { thrown := some msg, inst := inst, manager := m, sends := [], effects := Effects.empty,
    aborted := none, clone := none }

/-- The synchronous branch of `PerformRequest`: a private manager, a clone of
the session, one `PerformRequestImpl` on the clone, the private loop, and the
two `delete`s (the destructor of the manager asserts an empty registry). -/
def performSync (renv : RequestEnv) (aType : req_type) (pdu : netsnmp_pdu) (cb : Nat)
    (inst : SnmpSession) (m : SnmpSessionManager) : PerformResult :=
  if renv.clone_handle = 0 then
    { thrown := none, inst := inst, manager := m, sends := [], effects := Effects.empty,
      aborted := some "Clone: SnmpSession::New returned NULL", clone := none }
  else
    let cloned := SnmpSession.fresh renv.clone_handle
    let r := PerformRequestImpl (renv.sess_send cloned.sessionHandle_ pdu) aType pdu cb cloned
      SnmpSessionManager.fresh
    let l := renv.ev_run r.session r.manager
    { thrown := r.thrown, inst := inst, manager := m, sends := r.sends, effects := l.effects,
      aborted :=
        match l.failedAssert with
        | some a => some a
        | none => if l.manager.storage_.isEmpty then none else some "storage_.empty()",
      clone := some (l.session, l.manager) }

/-- The branch of `PerformRequest` taken once the arguments have the right
types: build the PDU, then dispatch on the sync flag. -/
def performChecked (renv : RequestEnv) (aType : req_type) (kOidArg : List V8Value) (cb : Nat)
    (sync : Bool) (inst : SnmpSession) (m : SnmpSessionManager) : PerformResult :=
  match buildQuery renv aType kOidArg with
  | .error e => PerformResult.throw e inst m
  | .ok pdu =>
    if sync then
      if renv.ev_multiplicity then performSync renv aType pdu cb inst m
      else
        PerformResult.throw
          "synchronous interface is unavailable due to binding module configuration" inst m
    else
      let r := PerformRequestImpl (renv.sess_send inst.sessionHandle_ pdu) aType pdu cb inst m
      { thrown := r.thrown, inst := r.session, manager := r.manager, sends := r.sends,
        effects := Effects.empty, aborted := none, clone := none }

/-- The static method `SnmpSession::PerformRequest(aType, args)` on the
session `inst` whose `manager_` is `m`. -/
def PerformRequest (renv : RequestEnv) (aType : req_type) (args : List V8Value)
    (inst : SnmpSession) (m : SnmpSessionManager) : PerformResult :=
  match args with
  | a0 :: a1 :: a2 :: _ =>
    match a0 with
    | .array kOidArg =>
      match a1 with
      | .function cb =>
        match a2 with
        | .boolean sync => performChecked renv aType kOidArg cb sync inst m
        | _ => PerformResult.throw "invalid argument - sync flag must be boolean" inst m
      | _ => PerformResult.throw "invalid arguments - callback is not a function" inst m
    | _ => PerformResult.throw "invalid arguments - only string OID is supported" inst m
  | _ => PerformResult.throw "missing arguments" inst m

/-- An OID argument as the binding accepts it: following the two shapes the
binding distinguishes by the first member, a flat array is well formed when it
is non-empty and all members are unsigned 32-bit integers, an array of groups
when every group is a non-empty array of unsigned 32-bit integers. This is the
classification of the specification (malformed is its negation). -/
def malformedOid (oidArg : List V8Value) : Prop :=
  oidArg = [] ∨
  ((∀ first ∈ oidArg.head?, first.IsArray = false) ∧ ∃ v ∈ oidArg, v.asUint32 = none) ∨
  ((∃ first ∈ oidArg.head?, first.IsArray = true) ∧
    ∃ g ∈ oidArg, g.IsArray = false ∨ g = .array [] ∨
      ∃ members, g = .array members ∧ ∃ v ∈ members, v.asUint32 = none)

/-- Example answers of the collaborators: PDUs are always allocated with id 5,
variables always added, sends always accepted, the private loop does nothing. -/
def exampleRequestEnv : RequestEnv :=
  { pdu_create := fun _ => some (examplePdu 5),
    add_null_var_ok := fun _ _ => true,
    sess_send := fun _ pdu => pdu.reqid,
    clone_handle := 9,
    ev_multiplicity := true,
    ev_run := fun s m =>
      { session := s, manager := m, effects := Effects.empty, failedAssert := none } }

/-- The variable `1.3.6.1.2.1.1.1.0` with the INTEGER value 42 (a `long` in
memory). -/
def exampleVar : netsnmp_variable_list :=
  { name := [1, 3, 6, 1, 2, 1, 1, 1, 0], type := ASN_INTEGER, val := bytesLE sizeof_long 42 }

/-- A reply to request `id` that carries `exampleVar` and the error status
`errstat`. -/
def exampleReply (id errstat : Int) : netsnmp_pdu :=
  { command := 0, reqid := id, errstat := errstat, variables_ := [exampleVar] }

/-- A run on one Endpoint: a GET with id 5 and a GETNEXT with id 6 are sent,
request 6 times out, then the reply to request 5 arrives. -/
def exampleTrace : List Event :=
  [.send 5 .REQ_GET (examplePdu 5) 100,
   .send 6 .REQ_NEXT (examplePdu 6) 101,
   .completion NETSNMP_CALLBACK_OP_TIMED_OUT 6 (examplePdu 6),
   .completion NETSNMP_CALLBACK_OP_RECEIVED_MESSAGE 5 (exampleReply 5 0)]

/-- An environment like `exampleEnv` in which every JavaScript callback throws. -/
def throwingEnv : Env :=
  { exampleEnv with callbackThrows := fun _ _ _ => true }

/-- An environment like `exampleEnv` for an Endpoint whose first pending
record sits in the last slot of its deque node, where the node released by
`pop_front` reads back as a record of a kind other than GET and GETNEXT. -/
def releasedNodeEnv : Env :=
  { exampleEnv with
    frontFreed := fun _ => some { pdu_ := examplePdu 0, type_ := .REQ_BULK, callback_ := 0 } }

/-! ## The reactor side of SnmpSessionManager -/

/-- The C type `struct timeval`. -/
structure timeval where
  tv_sec : Int
  tv_usec : Int
deriving DecidableEq, Repr

/-- The delay `tv_sec + tv_usec / 1000000` that `prepare_cb_impl` computes from
the aggregated timeout, in exact arithmetic (the code computes it in `double`). -/
def timeval.toSeconds (t : timeval) : ℚ := t.tv_sec + t.tv_usec / 1000000

/-- What one call `snmp_sess_select_info(handle, &nfds, &readSet, &timeout,
&block)` leaves behind, given `nfds = 0` and an empty `readSet` on entry: the
return value, `nfds`, the descriptors set in `readSet`, `timeout` and `block`. -/
structure SelectInfo where
  retval : Int
  nfds : Int
  readSet : List Int
  timeout : timeval
  block : Bool
deriving DecidableEq, Repr

/-- The two public mutators of `SnmpSessionManager`; `storage_` is private, so
code that runs inside an engine handler reaches the registry only through
them. -/
inductive ClientOp where
  | addClient (aSnmp : Nat)
  | removeClient (aSnmp : Nat)
deriving DecidableEq, Repr

/-- What one engine handler call (`snmp_sess_read` or `snmp_sess_timeout`) did:
the calls it made on the manager, in order, the state of everything outside the
manager afterwards, the effects of the continuations it ran, and the assertion
that stopped it (if any). -/
structure HandlerResult (σ : Type) where
  ops : List ClientOp
  state : σ
  effects : Effects
  failedAssert : Option String

/-- The protocol engine as the manager uses it. `σ` is the state outside the
manager (sessions, JavaScript); the handlers may read the manager.
`snmp_sess_read` reads the descriptor set it is given and leaves it as it
is. -/
structure Engine (σ : Type) where
  snmp_sess_select_info : Nat → timeval → Bool → SelectInfo
  snmp_sess_read : Nat → List Int → σ → SnmpSessionManager → HandlerResult σ
  snmp_sess_timeout : Nat → σ → SnmpSessionManager → HandlerResult σ

/-- One call on the manager; `none` is the failed assertion of `removeClient`. -/
def ClientOp.apply (op : ClientOp) (m : SnmpSessionManager) : Option SnmpSessionManager :=
  match op with
  | .addClient aSnmp => some (m.addClient aSnmp)
  | .removeClient aSnmp => m.removeClient aSnmp

/-- A sequence of calls on the manager, in order. -/
def applyOps : List ClientOp → SnmpSessionManager → Option SnmpSessionManager
  | [], m => some m
  | op :: ops, m =>
    match op.apply m with
    | none => none
    | some m1 => applyOps ops m1

/-- For each `removeClient` of a sequence of calls, the number of registry
entries that lie behind the entry it flags (this number identifies the entry:
`addClient` only pushes to the front). -/
def flagTargets : List ClientOp → SnmpSessionManager → List Nat
  | [], _ => []
  | .addClient aSnmp :: ops, m => flagTargets ops (m.addClient aSnmp)
  | .removeClient aSnmp :: ops, m =>
    match m.storage_.findIdx? (fun e => decide (e.snmpHandle_ = aSnmp)), m.removeClient aSnmp with
    | some i, some m1 => (m.storage_.length - 1 - i) :: flagTargets ops m1
    | _, _ => []

/-- The libev event bit `EV_READ`, which the check pass calls `READ`. -/
def EV_READ : Int := 1

/-- The macro `FD_SET(fd, &set)` on a descriptor set kept as a list. -/
def FD_SET (fd : Int) (set : List Int) : List Int :=
  if fd ∈ set then set else set ++ [fd]

/-- The libev call `ev_io_set(w, fd, EV_READ)` followed by `ev_io_start(w)`. -/
def ev_io.setAndStart (w : ev_io) (fd : Int) : ev_io :=
  { w with fd := fd, active := true }

/-- The libev call `ev_clear_pending(w)`: the watcher afterwards; the value
returned is the old `pending`. -/
def ev_io.clearPending (w : ev_io) : ev_io :=
  { w with pending := 0 }

/-- The libev call `ev_io_stop(w)`: pending events are dropped and the watcher
is inactive. -/
def ev_io.stop (w : ev_io) : ev_io :=
  { w with pending := 0, active := false }

/-- Result of `prepare_cb_impl`: the manager afterwards, the delay with which
the shared timer was initialised and started (if it was), and the assertion
that stopped the call (if any). -/
structure PrepareResult where
  manager : SnmpSessionManager
  timer : Option ℚ
  failedAssert : Option String
deriving DecidableEq, Repr

/-- State of the loop of `prepare_cb_impl`: the entries as the loop leaves
them, the running `timeout` and `block`, and the assertion that stopped it. -/
structure PrepareLoop where
  storage : List storage_el
  timeout : timeval
  block : Bool
  failedAssert : Option String
deriving DecidableEq, Repr

/-- The loop of `prepare_cb_impl` over the registry, with the running
`timeout` and `block`. -/
def prepareLoop (select_info : Nat → timeval → Bool → SelectInfo) :
    List storage_el → timeval → Bool → PrepareLoop
  | [], t, b => { storage := [], timeout := t, block := b, failedAssert := none }
  | e :: es, t, b =>
    if e.snmpHandle_ = 0 then
      let r := prepareLoop select_info es t b
      { r with storage := e :: r.storage }
    else
      let i := select_info e.snmpHandle_ t b
      if i.retval ≠ 1 then
        { storage := e :: es, timeout := i.timeout, block := i.block,
          failedAssert := some "retval == 1" }
      else if i.nfds - 1 ∉ i.readSet then
        { storage := e :: es, timeout := i.timeout, block := i.block,
          failedAssert := some "FD_ISSET((nfds - 1), &readSet)" }
      else if ∃ fd ∈ i.readSet, fd ≠ i.nfds - 1 then
        { storage := e :: es, timeout := i.timeout, block := i.block,
          failedAssert := some "!memcmp(&readSet, zero, sizeof(fd_set))" }
      else
        let r := prepareLoop select_info es i.timeout i.block
        { r with
          storage := { e with io_watcher_ := e.io_watcher_.setAndStart (i.nfds - 1) } :: r.storage }

/-- The method `SnmpSessionManager::prepare_cb_impl`; `t0` is the content of
the uninitialised `timeout` variable. -/
def prepare_cb_impl (select_info : Nat → timeval → Bool → SelectInfo) (t0 : timeval)
    (m : SnmpSessionManager) : PrepareResult :=
  if m.storage_.isEmpty then
    { manager := m, timer := none, failedAssert := some "!this->storage_.empty()" }
  else
    let r := prepareLoop select_info m.storage_ t0 true
    match r.failedAssert with
    | some a => { manager := { m with storage_ := r.storage }, timer := none, failedAssert := some a }
    | none =>
      if r.block = false then
        { manager := { m with storage_ := r.storage, timeout_active_ := true },
          timer := some r.timeout.toSeconds, failedAssert := none }
      else
        { manager := { m with storage_ := r.storage }, timer := none, failedAssert := none }

/-- The static callback `SnmpSessionManager::prepare_cb`. -/
def prepare_cb (select_info : Nat → timeval → Bool → SelectInfo) (t0 : timeval)
    (m : SnmpSessionManager) : PrepareResult :=
  if m.storage_.isEmpty then
    { manager := m, timer := none, failedAssert := some "!data->selfPtr_->storage_.empty()" }
  else prepare_cb_impl select_info t0 m

/-- The handler call the check pass makes for a live entry: `snmp_sess_read`
with the read set it passes, or `snmp_sess_timeout`. -/
inductive HandlerCall where
  | read (handle : Nat) (readSet : List Int)
  | timeout (handle : Nat)
deriving DecidableEq, Repr

/-- Record of one iteration of the loop of `check_cb_impl`.
* `position` is the index the entry had in the registry when the pass began.
* `behind` is the number of registry entries that lie behind the entry.
* `found` is the entry as the loop found it.
* `call` is the handler call made for it (`none` when it was found flagged).
* `ops` are the calls the handler made on the manager, `flagged` their
  `flagTargets`.
* `stopped` tells whether `ev_io_stop` was called on its watcher.
* `erased` is the entry at the moment of `storage_.erase(it)` (`none` when the
  entry stayed in the registry). -/
structure Visit where
  position : Nat
  behind : Nat
  found : storage_el
  call : Option HandlerCall
  ops : List ClientOp
  flagged : List Nat
  stopped : Bool
  erased : Option storage_el
deriving DecidableEq, Repr

/-- Result of `check_cb_impl`: the manager and the outside state afterwards,
the effects of the continuations run by the handlers, the iterations of the
loop in order, and the assertion that stopped the pass (if any). -/
structure CheckResult (σ : Type) where
  manager : SnmpSessionManager
  state : σ
  effects : Effects
  visits : List Visit
  failedAssert : Option String

/-- The test `(revents & READ) == READ` on the pending events of a watcher. -/
def ev_io.readable (w : ev_io) : Bool :=
  Int.land w.pending EV_READ == EV_READ

/-- The handler call the check pass makes for the live entry `e`, given the
local read set so far: `FD_SET` and `snmp_sess_read` when the watcher has a
pending read event, `snmp_sess_timeout` otherwise. -/
def handlerCallFor (e : storage_el) (readSet : List Int) : HandlerCall :=
  if e.io_watcher_.readable then .read e.snmpHandle_ (FD_SET e.io_watcher_.fd readSet)
  else .timeout e.snmpHandle_

/-- The local read set after the iteration for the live entry `e`. -/
def readSetAfter (e : storage_el) (readSet : List Int) : List Int :=
  if e.io_watcher_.readable then FD_SET e.io_watcher_.fd readSet else readSet

/-- The engine handler behind a handler call. -/
def Engine.call {σ : Type} (eng : Engine σ) (c : HandlerCall) (w : σ)
    (m : SnmpSessionManager) : HandlerResult σ :=
  match c with
  | .read handle readSet => eng.snmp_sess_read handle readSet w m
  | .timeout handle => eng.snmp_sess_timeout handle w m

/-- State after one iteration of the loop of `check_cb_impl`. -/
structure VisitResult (σ : Type) where
  manager : SnmpSessionManager
  state : σ
  effects : Effects
  visit : Option Visit
  readSet : List Int
  failedAssert : Option String

/-- One iteration of the loop of `check_cb_impl`, for the entry `it` that has
`k` registry entries behind it; `n` is the length of the registry when the pass
began. The iterator is identified by the number of entries behind it because
handlers push new entries to the front only. The two `iterator out of range`
results are not reachable from `check_cb_impl` (lemma `checkLoop_visits`). -/
def visitEntry {σ : Type} (eng : Engine σ) (n k : Nat) (readSet : List Int) (w : σ)
    (m : SnmpSessionManager) : VisitResult σ :=
  let i := m.storage_.length - (k + 1)
  match m.storage_[i]? with
  | none =>
    { manager := m, state := w, effects := Effects.empty, visit := none, readSet := readSet,
      failedAssert := some "iterator out of range" }
  | some e =>
    if e.snmpHandle_ = 0 then
      { manager := { m with storage_ := m.storage_.eraseIdx i }, state := w,
        effects := Effects.empty,
        visit := some { position := n - (k + 1), behind := k, found := e, call := none,
                        ops := [], flagged := [], stopped := false, erased := some e },
        readSet := readSet, failedAssert := none }
    else
      let m0 : SnmpSessionManager :=
        { m with
          storage_ := m.storage_.set i { e with io_watcher_ := e.io_watcher_.clearPending } }
      let call := handlerCallFor e readSet
      let readSet1 := readSetAfter e readSet
      let h := eng.call call w m0
      let visit : Visit :=
        { position := n - (k + 1), behind := k, found := e, call := some call, ops := h.ops,
          flagged := flagTargets h.ops m0, stopped := false, erased := none }
      match applyOps h.ops m0 with
      | none =>
        { manager := m0, state := h.state, effects := h.effects, visit := some visit,
          readSet := readSet1, failedAssert := some "it != storage_.end()" }
      | some m1 =>
        match h.failedAssert with
        | some a =>
          { manager := m1, state := h.state, effects := h.effects, visit := some visit,
            readSet := readSet1, failedAssert := some a }
        | none =>
          let j := m1.storage_.length - (k + 1)
          match m1.storage_[j]? with
          | none =>
            { manager := m1, state := h.state, effects := h.effects, visit := some visit,
              readSet := readSet1, failedAssert := some "iterator out of range" }
          | some e1 =>
            let e2 : storage_el := { e1 with io_watcher_ := e1.io_watcher_.stop }
            if e2.snmpHandle_ = 0 then
              { manager := { m1 with storage_ := m1.storage_.eraseIdx j }, state := h.state,
                effects := h.effects,
                visit := some { visit with stopped := true, erased := some e2 },
                readSet := readSet1, failedAssert := none }
            else
              { manager := { m1 with storage_ := m1.storage_.set j e2 }, state := h.state,
                effects := h.effects, visit := some { visit with stopped := true },
                readSet := readSet1, failedAssert := none }

/-- The loop of `check_cb_impl` from the entry that has `k - 1` entries behind
it to the end of the registry. The local `fd_set readSet` is cleared once
before the loop and never inside it. -/
def checkLoop {σ : Type} (eng : Engine σ) (n : Nat) :
    Nat → List Int → σ → SnmpSessionManager → CheckResult σ
  | 0, _, w, m =>
    { manager := m, state := w, effects := Effects.empty, visits := [], failedAssert := none }
  | k + 1, readSet, w, m =>
    let v := visitEntry eng n k readSet w m
    match v.failedAssert with
    | some a =>
      { manager := v.manager, state := v.state, effects := v.effects,
        visits := v.visit.toList, failedAssert := some a }
    | none =>
      let r := checkLoop eng n k v.readSet v.state v.manager
      { r with effects := v.effects.append r.effects, visits := v.visit.toList ++ r.visits }

/-- The method `SnmpSessionManager::check_cb_impl`. -/
def check_cb_impl {σ : Type} (eng : Engine σ) (w : σ) (m : SnmpSessionManager) :
    CheckResult σ :=
  let m0 : SnmpSessionManager := if m.timeout_active_ then { m with timeout_active_ := false } else m
  let r := checkLoop eng m0.storage_.length m0.storage_.length [] w m0
  match r.failedAssert with
  | some _ => r
  | none =>
    if r.manager.storage_.isEmpty then
      { r with manager := { r.manager with prepareStarted := false, checkStarted := false } }
    else r

/-- The static callback `SnmpSessionManager::check_cb`. -/
def check_cb {σ : Type} (eng : Engine σ) (w : σ) (m : SnmpSessionManager) : CheckResult σ :=
  if m.storage_.isEmpty then
    { manager := m, state := w, effects := Effects.empty, visits := [],
      failedAssert := some "!data->selfPtr_->storage_.empty()" }
  else check_cb_impl eng w m

/-- The destructor `~SnmpSessionManager`: the assertion it checks, as the
failure it raises (`none` when the registry is empty). -/
def SnmpSessionManager.destroy (m : SnmpSessionManager) : Option String :=
  if m.storage_.isEmpty then none else some "storage_.empty()"

/-- The deadlines the live (non-flagged) entries of a registry report, in
registry order; `deadline h` is the nearest deadline of the session with handle
`h` (`none` when it waits for nothing). -/
def liveDeadlines (deadline : Nat → Option timeval) (st : List storage_el) : List timeval :=
  (st.filter (fun e => decide (e.snmpHandle_ ≠ 0))).filterMap (fun e => deadline e.snmpHandle_)

/-- The assumption on `snmp_sess_select_info`: it reports one descriptor
(`fdOf h`) with return value 1; for a session with the nearest deadline `d` it
lowers the running timeout to `d` when `block` is still set or `d` is earlier,
and clears `block`; for a session without deadline it leaves both alone. -/
def SelectInfoSpec (select_info : Nat → timeval → Bool → SelectInfo)
    (deadline : Nat → Option timeval) (fdOf : Nat → Int) : Prop :=
  ∀ (h : Nat) (t : timeval) (b : Bool),
    select_info h t b =
      { retval := 1, nfds := fdOf h + 1, readSet := [fdOf h],
        timeout :=
          match deadline h with
          | none => t
          | some d => if b = true ∨ d.toSeconds < t.toSeconds then d else t,
        block :=
          match deadline h with
          | none => b
          | some _ => false }

/-- The session handle a handler call is made for. -/
def HandlerCall.handle : HandlerCall → Nat
  | .read handle _ => handle
  | .timeout handle => handle

/-! ## Concrete inputs for the reactor side -/

/-- Example deadlines: session 7 waits 2.5 s, session 8 waits 1.25 s, every
other session waits for nothing. -/
def exampleDeadline (h : Nat) : Option timeval :=
  if h = 7 then some { tv_sec := 2, tv_usec := 500000 }
  else if h = 8 then some { tv_sec := 1, tv_usec := 250000 }
  else none

/-- Example descriptors: session `h` uses descriptor `h + 10`. -/
def exampleFd (h : Nat) : Int := h + 10

/-- A `snmp_sess_select_info` that follows `SelectInfoSpec` for
`exampleDeadline` and `exampleFd`. -/
def exampleSelectInfo (h : Nat) (t : timeval) (b : Bool) : SelectInfo :=
  { retval := 1, nfds := exampleFd h + 1, readSet := [exampleFd h],
    timeout :=
      match exampleDeadline h with
      | none => t
      | some d => if b = true ∨ d.toSeconds < t.toSeconds then d else t,
    block :=
      match exampleDeadline h with
      | none => b
      | some _ => false }

/-- An engine whose read handler deregisters the session it is called for and
registers the session with the handle 100 higher, and whose timeout handler
does nothing. -/
def exampleEngine : Engine Unit :=
  { snmp_sess_select_info := exampleSelectInfo,
    snmp_sess_read := fun h _ w _ =>
      { ops := [.removeClient h, .addClient (h + 100)], state := w, effects := Effects.empty,
        failedAssert := none },
    snmp_sess_timeout := fun _ w _ =>
      { ops := [], state := w, effects := Effects.empty, failedAssert := none } }

/-- A registry entry with handle `h` whose started watcher on descriptor `fd`
has the pending events `revents`. -/
def exampleEntry (h : Nat) (fd revents : Int) : storage_el :=
  { snmpHandle_ := h, io_watcher_ := { fd := fd, active := true, pending := revents } }

/-- A bridge between the pre-poll and the post-poll phase: sessions 7 and 8
are readable, the entry between them is flagged, session 9 is not readable;
hooks armed, timer active. -/
def exampleBridge : SnmpSessionManager :=
  { storage_ := [exampleEntry 7 17 1, exampleEntry 0 15 0, exampleEntry 8 18 1,
                 exampleEntry 9 19 0],
    prepareStarted := true, checkStarted := true, timeout_active_ := true }

/-- The prepare and check watchers of a bridge are started exactly when its
registry, counting flagged entries, is non-empty. -/
def HooksInv (m : SnmpSessionManager) : Prop :=
  (m.prepareStarted = true ↔ m.storage_ ≠ []) ∧ (m.checkStarted = true ↔ m.storage_ ≠ [])

instance (m : SnmpSessionManager) : Decidable (HooksInv m) := by
  unfold HooksInv
  infer_instance

/-- The entry `y` is the entry `x`, or `x` flagged for removal (its handle set
to NULL by `removeClient`, its watcher untouched). -/
def FlagRel (x y : storage_el) : Prop := y = x ∨ y = { x with snmpHandle_ := 0 }

instance (x y : storage_el) : Decidable (FlagRel x y) := by
  unfold FlagRel
  infer_instance

/-- The handles a sequence of calls on the manager registers with `addClient`,
in the order of the calls. -/
def addHandles : List ClientOp → List Nat
  | [] => []
  | .addClient aSnmp :: ops => aSnmp :: addHandles ops
  | .removeClient _ :: ops => addHandles ops

/-- The entries a sequence of calls pushes to the front of the registry, in
registry order (the entry pushed last comes first). -/
def addedEntries (ops : List ClientOp) : List storage_el :=
  (addHandles ops).reverse.map storage_el.ofHandle

/-- The entries pushed to the front of the registry by the handlers of a list
of iterations, in registry order. -/
def addedDuring (vs : List Visit) : List storage_el :=
  addedEntries (vs.flatMap (fun v => v.ops))

/-- The entry `y` is what the iteration `v` left in the registry: the entry it
found with the watcher stopped, possibly flagged afterwards. -/
def KeptRel (v : Visit) (y : storage_el) : Prop :=
  FlagRel { v.found with io_watcher_ := v.found.io_watcher_.stop } y

/-- An engine whose read handler for session 7 deregisters session 9 (an entry
the pass has not reached yet), registers session 107 and deregisters session 7
itself; its read handler for every other session `h` registers the session
`h + 100`; its timeout handler does nothing. -/
def exampleMeddler : Engine Unit :=
  { snmp_sess_select_info := exampleSelectInfo,
    snmp_sess_read := fun h _ w _ =>
      { ops := if h = 7 then [.removeClient 9, .addClient 107, .removeClient 7]
               else [.addClient (h + 100)],
        state := w, effects := Effects.empty, failedAssert := none },
    snmp_sess_timeout := fun _ w _ =>
      { ops := [], state := w, effects := Effects.empty, failedAssert := none } }

/-! ## The private event loop of a synchronous request -/

/-- A completion as net-snmp hands it to the session callback `snmp_cb_proxy`:
the operation, the request id and the PDU. -/
structure Completion where
  operation : Int
  reqid : Int
  pdu : netsnmp_pdu
deriving DecidableEq, Repr

/-- The collaborators of the private loop `ev_run(our_loop)` of a synchronous
request, libev and net-snmp.
* `env` are the collaborators of `snmp_cb_proxy`.
* `snmp_sess_select_info` is the net-snmp function of that name.
* `timeout0` is the content of the uninitialised `timeout` variable of
  `prepare_cb_impl`.
* `ready tick` are the descriptors the poll of iteration `tick` finds readable
  (none when the poll returns because the timer expired).
* `onRead tick handle readSet s` are the completions that
  `snmp_sess_read(handle, &readSet)` delivers to the callback of the session
  in iteration `tick`, in order; `onTimeout tick handle s` those that
  `snmp_sess_timeout(handle)` delivers. -/
structure LoopEnv where
  env : Env
  snmp_sess_select_info : Nat → timeval → Bool → SelectInfo
  timeout0 : timeval
  ready : Nat → List Int
  onRead : Nat → Nat → List Int → SnmpSession → List Completion
  onTimeout : Nat → Nat → SnmpSession → List Completion

/-- The calls `snmp_cb_proxy` makes on the manager of the session for a
completion with the id `reqid`: `removeClient(sessionHandle_)` when the record
is found and the queue is empty after its removal (lemma
`completionOps_sound` compares them with `snmp_cb_proxy`). -/
def completionOps (reqid : Int) (s : SnmpSession) : List ClientOp :=
  match findRequest reqid s.queue_ with
  | none => []
  | some (i, _) =>
    if (s.queue_.eraseIdx i).length = 0 then [.removeClient s.sessionHandle_] else []

/-- The completions of one engine handler call delivered to `snmp_cb_proxy` of
the session `s`, one after the other; `m` is the manager as the handler finds
it. A failed assertion ends the delivery. -/
def deliverCompletions (env : Env) :
    List Completion → SnmpSession → SnmpSessionManager → HandlerResult SnmpSession
  | [], s, _ => { ops := [], state := s, effects := Effects.empty, failedAssert := none }
  | c :: cs, s, m =>
    let r := snmp_cb_proxy env c.operation c.reqid c.pdu s m
    match r.failedAssert with
    | some a =>
      { ops := completionOps c.reqid s, state := r.session, effects := r.effects,
        failedAssert := some a }
    | none =>
      let h := deliverCompletions env cs r.session r.manager
      { ops := completionOps c.reqid s ++ h.ops, state := h.state,
        effects := r.effects.append h.effects, failedAssert := h.failedAssert }

/-- The protocol engine of iteration `tick` of the private loop, as it acts on
the one session of that loop: a handler call for the handle of the session
delivers the completions the engine has for it, a call for another handle
delivers nothing. -/
def sessionEngine (L : LoopEnv) (tick : Nat) : Engine SnmpSession :=
  { snmp_sess_select_info := L.snmp_sess_select_info,
    snmp_sess_read := fun handle readSet s m =>
      if handle = s.sessionHandle_ then
        deliverCompletions L.env (L.onRead tick handle readSet s) s m
      else { ops := [], state := s, effects := Effects.empty, failedAssert := none },
    snmp_sess_timeout := fun handle s m =>
      if handle = s.sessionHandle_ then
        deliverCompletions L.env (L.onTimeout tick handle s) s m
      else { ops := [], state := s, effects := Effects.empty, failedAssert := none } }

/-- The poll of one loop iteration: every started watcher whose descriptor is
in `ready` gets a pending read event. -/
def pollEvents (ready : List Int) (m : SnmpSessionManager) : SnmpSessionManager :=
  { m with
    storage_ := m.storage_.map (fun e =>
      if e.io_watcher_.active = true ∧ e.io_watcher_.fd ∈ ready then
        { e with io_watcher_ := { e.io_watcher_ with pending := EV_READ } }
      else e) }

/-- The libev call `ev_run(our_loop)` on the private loop, whose watchers are
those of the private manager `m`; `s` is the cloned session. One iteration
runs the prepare hook, polls, and runs the check hook, which handles the
pending events of the descriptor watchers and the timer itself, so that no
other callback is invoked. The loop returns when no hook is started (the
descriptor watchers and the timer are started in the prepare hook and stopped
in the check hook of the same iteration). At most `fuel` iterations are run,
the first of them being iteration `tick`; the result is the state reached, and
the loop has returned when the hooks of the manager in the result are
stopped. -/
def ev_run (L : LoopEnv) : Nat → Nat → SnmpSession → SnmpSessionManager → RunState
  | 0, _, s, m => { session := s, manager := m, effects := Effects.empty, failedAssert := none }
  | fuel + 1, tick, s, m =>
    if m.prepareStarted = false ∧ m.checkStarted = false then
      { session := s, manager := m, effects := Effects.empty, failedAssert := none }
    else
      let p : PrepareResult :=
        if m.prepareStarted then prepare_cb L.snmp_sess_select_info L.timeout0 m
        else { manager := m, timer := none, failedAssert := none }
      match p.failedAssert with
      | some a =>
        { session := s, manager := p.manager, effects := Effects.empty, failedAssert := some a }
      | none =>
        let m1 := pollEvents (L.ready tick) p.manager
        let c : CheckResult SnmpSession :=
          if m1.checkStarted then check_cb (sessionEngine L tick) s m1
          else { manager := m1, state := s, effects := Effects.empty, visits := [],
                 failedAssert := none }
        match c.failedAssert with
        | some a =>
          { session := c.state, manager := c.manager, effects := c.effects,
            failedAssert := some a }
        | none =>
          let r := ev_run L fuel (tick + 1) c.state c.manager
          { r with effects := c.effects.append r.effects }

/-- A private loop for the session with handle 9 (descriptor 19): iteration 0
finds nothing readable and the engine has nothing to deliver; iteration 1
finds descriptor 19 readable and the engine delivers the reply to request 5
(had the descriptor not been readable, the request would have timed out). -/
def exampleLoop : LoopEnv :=
  { env := exampleEnv,
    snmp_sess_select_info := exampleSelectInfo,
    timeout0 := { tv_sec := 0, tv_usec := 0 },
    ready := fun tick => if tick = 1 then [19] else [],
    onRead := fun tick _ _ _ =>
      if tick = 1 then
        [{ operation := NETSNMP_CALLBACK_OP_RECEIVED_MESSAGE, reqid := 5,
           pdu := exampleReply 5 0 }]
      else [],
    onTimeout := fun tick _ _ =>
      if tick = 1 then
        [{ operation := NETSNMP_CALLBACK_OP_TIMED_OUT, reqid := 5, pdu := examplePdu 5 }]
      else [] }

/-- The collaborators of `exampleRequestEnv` with the private loop
`exampleLoop`, run for at most `fuel` iterations. -/
def exampleSyncEnv (fuel : Nat) : RequestEnv :=
  { exampleRequestEnv with ev_run := ev_run exampleLoop fuel 0 }

/-- The local read set of the check pass after the iterations `vs`, when it
was `rs` before them: an iteration for a live entry whose watcher had a pending
read event adds the descriptor of that watcher, other iterations add nothing,
and nothing is ever removed. -/
def readSetOf (rs : List Int) (vs : List Visit) : List Int :=
  vs.foldl (fun s v => if v.found.snmpHandle_ = 0 then s else readSetAfter v.found s) rs

/-- The engine resolves the only request `rec` of the session with handle `h`
in iteration `j` of the private loop: in the iterations before `j` the handler
called for the session delivers nothing, and in iteration `j` it delivers one
completion, which carries the id of `rec`, whichever of the two handlers is
called. -/
def ResolvesAt (L : LoopEnv) (h : Nat) (rec : req_data) (j : Nat) : Prop :=
  (∀ t, t < j → ∀ rs, L.onRead t h rs { queue_ := [rec], sessionHandle_ := h } = [] ∧
    L.onTimeout t h { queue_ := [rec], sessionHandle_ := h } = []) ∧
  (∀ rs, ∃ c, L.onRead j h rs { queue_ := [rec], sessionHandle_ := h } = [c] ∧
    c.reqid = rec.pdu_.reqid) ∧
  (∃ c, L.onTimeout j h { queue_ := [rec], sessionHandle_ := h } = [c] ∧
    c.reqid = rec.pdu_.reqid)

/-! ## Lemmas on the lookup loop and the registry -/

theorem findRequest_eq_none {reqid : Int} {q : List req_data} :
    findRequest reqid q = none ↔ ∀ x ∈ q, x.pdu_.reqid ≠ reqid := by
  induction q with
  | nil => simp [findRequest]
  | cons r rs ih =>
    by_cases h : r.pdu_.reqid = reqid
    · simp [findRequest, h]
    · simp [findRequest, h, ih]

theorem findRequest_some {reqid : Int} {q : List req_data} {i : Nat} {k : req_data}
    (h : findRequest reqid q = some (i, k)) :
    q[i]? = some k ∧ k.pdu_.reqid = reqid ∧ ∀ x ∈ q.take i, x.pdu_.reqid ≠ reqid := by
  induction q generalizing i with
  | nil => simp [findRequest] at h
  | cons r rs ih =>
    by_cases hr : r.pdu_.reqid = reqid
    · simp [findRequest, hr] at h
      obtain ⟨rfl, rfl⟩ := h
      simp [hr]
    · simp [findRequest, hr] at h
      obtain ⟨a, h1, rfl⟩ := h
      obtain ⟨h2, h3, h4⟩ := ih h1
      refine ⟨by simpa using h2, h3, ?_⟩
      intro x hx
      simp [List.take_succ_cons] at hx
      rcases hx with rfl | hx
      · exact hr
      · exact h4 x hx

theorem findRequest_isSome {reqid : Int} {q : List req_data}
    (h : ∃ x ∈ q, x.pdu_.reqid = reqid) : ∃ i k, findRequest reqid q = some (i, k) := by
  cases hf : findRequest reqid q with
  | none =>
    obtain ⟨x, hx, hx2⟩ := h
    exact absurd hx2 (findRequest_eq_none.mp hf x hx)
  | some p => exact ⟨p.1, p.2, rfl⟩

theorem liveEntries_addClient (m : SnmpSessionManager) (h : Nat) :
    liveEntries h (m.addClient h) = liveEntries h m + 1 := by
  unfold liveEntries SnmpSessionManager.addClient
  by_cases he : m.storage_.isEmpty <;> simp [he, storage_el.ofHandle]

theorem flagFirst_of_pos (h : Nat) (hh : h ≠ 0) (st : List storage_el)
    (hpos : 0 < st.countP (fun e => decide (e.snmpHandle_ = h))) :
    ∃ st1, flagFirst h st = some st1 ∧
      st1.countP (fun e => decide (e.snmpHandle_ = h)) + 1
        = st.countP (fun e => decide (e.snmpHandle_ = h)) := by
  induction st with
  | nil => simp at hpos
  | cons e es ih =>
    by_cases he : e.snmpHandle_ = h
    · refine ⟨{ e with snmpHandle_ := 0 } :: es, by simp [flagFirst, he], ?_⟩
      simp [List.countP_cons, he, Ne.symm hh]
    · have hpos1 : 0 < es.countP (fun e => decide (e.snmpHandle_ = h)) := by
        simpa [List.countP_cons, he] using hpos
      obtain ⟨st1, h1, h2⟩ := ih hpos1
      refine ⟨e :: st1, by simp [flagFirst, he, h1], ?_⟩
      simp [List.countP_cons, he, h2]

theorem removeClient_of_live (m : SnmpSessionManager) (h : Nat) (hh : h ≠ 0)
    (hpos : 0 < liveEntries h m) :
    ∃ m1, m.removeClient h = some m1 ∧ liveEntries h m1 + 1 = liveEntries h m := by
  obtain ⟨st1, h1, h2⟩ := flagFirst_of_pos h hh m.storage_ hpos
  exact ⟨{ m with storage_ := st1 }, by simp [SnmpSessionManager.removeClient, h1], h2⟩

theorem findRequest_lt {reqid : Int} {q : List req_data} {i : Nat} {k : req_data}
    (h : findRequest reqid q = some (i, k)) : i < q.length := by
  have h1 := (findRequest_some h).1
  by_contra hc
  rw [List.getElem?_eq_none (by omega)] at h1
  cases h1

theorem eraseAndDeregister_inv {s : SnmpSession} {m : SnmpSessionManager} {i : Nat}
    (hinv : EndpointInv s m) (hi : i < s.queue_.length) :
    ∃ m1, eraseAndDeregister s m i = ({ s with queue_ := s.queue_.eraseIdx i }, some m1) ∧
      EndpointInv { s with queue_ := s.queue_.eraseIdx i } m1 ∧
      (s.queue_.length ≠ 1 → m1 = m) ∧
      (s.queue_.length = 1 → m.removeClient s.sessionHandle_ = some m1) := by
  obtain ⟨hh, hl⟩ := hinv
  have hne : s.queue_.isEmpty = false := by
    cases hq : s.queue_ with
    | nil => simp [hq] at hi
    | cons a as => rfl
  rw [hne] at hl
  have hlen : (s.queue_.eraseIdx i).length = s.queue_.length - 1 := by
    rw [List.length_eraseIdx]; simp [hi]
  by_cases h1 : s.queue_.length = 1
  · obtain ⟨m1, hm1, hm2⟩ := removeClient_of_live m s.sessionHandle_ hh (by simp [hl])
    refine ⟨m1, ?_, ⟨hh, ?_⟩, fun hc => absurd h1 hc, fun _ => hm1⟩
    · simp [eraseAndDeregister, hlen, h1, hm1]
    · have he : (s.queue_.eraseIdx i) = [] := List.length_eq_zero.mp (by omega)
      simp only [Bool.false_eq_true, if_false] at hl
      simp only [he, List.isEmpty_nil, if_true]
      omega
  · refine ⟨m, ?_, ⟨hh, ?_⟩, fun _ => rfl, fun hc => absurd hc h1⟩
    · have : s.queue_.length - 1 ≠ 0 := by omega
      simp [eraseAndDeregister, hlen, this]
    · have hne2 : (s.queue_.eraseIdx i).isEmpty = false := by
        cases hq : s.queue_.eraseIdx i with
        | nil => rw [hq] at hlen; simp at hlen; omega
        | cons a as => rfl
      simp only [Bool.false_eq_true, if_false] at hl
      simp only [hne2, Bool.false_eq_true, if_false]
      exact hl

/-- Under the Endpoint invariant, a completion whose id is found is delivered. -/
theorem snmp_cb_proxy_found (env : Env) (operation reqid : Int) (pdu : netsnmp_pdu)
    {s : SnmpSession} {m : SnmpSessionManager} {i : Nat} {kReq : req_data}
    (hinv : EndpointInv s m) (hf : findRequest reqid s.queue_ = some (i, kReq)) :
    ∃ m1, snmp_cb_proxy env operation reqid pdu s m =
        deliver env operation pdu kReq
          (slotAfterErase env s.queue_ i kReq)
          { s with queue_ := s.queue_.eraseIdx i } m1 ∧
      EndpointInv { s with queue_ := s.queue_.eraseIdx i } m1 ∧
      (s.queue_.length ≠ 1 → m1 = m) ∧
      (s.queue_.length = 1 → m.removeClient s.sessionHandle_ = some m1) := by
  obtain ⟨m1, h1, h2, h3, h4⟩ := eraseAndDeregister_inv hinv (findRequest_lt hf)
  refine ⟨m1, ?_, h2, h3, h4⟩
  simp only [snmp_cb_proxy, hf, h1]

theorem findRequest_mem {reqid : Int} {q : List req_data} {i : Nat} {k : req_data}
    (h : findRequest reqid q = some (i, k)) : k ∈ q :=
  List.mem_iff_getElem?.mpr ⟨i, (findRequest_some h).1⟩

theorem deliver_not_received (env : Env) {operation : Int} (pdu : netsnmp_pdu)
    (kReq it : req_data) (s1 : SnmpSession) (m1 : SnmpSessionManager)
    (hop : operation ≠ NETSNMP_CALLBACK_OP_RECEIVED_MESSAGE) :
    deliver env operation pdu kReq it s1 m1 =
      { session := s1, manager := m1,
        effects := (snmp_fail_cb env pdu kReq (failureMessage operation)).dispose kReq.callback_,
        failedAssert := none, ret := some 1 } := by
  simp [deliver, hop]

theorem deliver_error_status (env : Env) (pdu : netsnmp_pdu)
    (kReq it : req_data) (s1 : SnmpSession) (m1 : SnmpSessionManager)
    (herr : pdu.errstat ≠ SNMP_ERR_NOERROR) :
    deliver env NETSNMP_CALLBACK_OP_RECEIVED_MESSAGE pdu kReq it s1 m1 =
      { session := s1, manager := m1,
        effects :=
          (snmp_fail_cb env pdu kReq (env.snmp_errstring pdu.errstat)).dispose kReq.callback_,
        failedAssert := none, ret := some 1 } := by
  simp [deliver, herr]

theorem deliver_success (env : Env) (pdu : netsnmp_pdu)
    (kReq it : req_data) (s1 : SnmpSession) (m1 : SnmpSessionManager)
    (herr : pdu.errstat = SNMP_ERR_NOERROR) (hit : it.type_ ≠ .REQ_BULK) :
    deliver env NETSNMP_CALLBACK_OP_RECEIVED_MESSAGE pdu kReq it s1 m1 =
      { session := s1, manager := m1,
        effects := (snmp_success_cb env pdu kReq).dispose kReq.callback_,
        failedAssert := none, ret := some 1 } := by
  cases ht : it.type_ <;> simp_all [deliver]

theorem deliver_bulk (env : Env) (pdu : netsnmp_pdu)
    (kReq it : req_data) (s1 : SnmpSession) (m1 : SnmpSessionManager)
    (herr : pdu.errstat = SNMP_ERR_NOERROR) (hit : it.type_ = .REQ_BULK) :
    deliver env NETSNMP_CALLBACK_OP_RECEIVED_MESSAGE pdu kReq it s1 m1 =
      { session := s1, manager := m1, effects := Effects.empty,
        failedAssert := some "internal error: inconsistent req_data record", ret := none } := by
  simp [deliver, herr, hit]

/-! ## Lemmas on the value wrapper -/

theorem length_bytesLE (w n : Nat) : (bytesLE w n).length = w := by
  induction w generalizing n with
  | zero => rfl
  | succ w ih => simp [bytesLE, ih]

theorem ofBytesLE_bytesLE (w n : Nat) : ofBytesLE (bytesLE w n) = n % 256 ^ w := by
  induction w generalizing n with
  | zero => simp [bytesLE, ofBytesLE, Nat.mod_one]
  | succ w ih =>
    simp only [bytesLE, ofBytesLE, ih]
    rw [pow_succ, Nat.mul_comm (256 ^ w) 256, Nat.mod_mul]

theorem length_oidMemory (name : List Nat) : (oidMemory name).length = name.length * sizeof_oid := by
  induction name with
  | nil => rfl
  | cons a as ih =>
    simp only [oidMemory, List.flatMap_cons, List.length_append, length_bytesLE,
      List.length_cons] at ih ⊢
    rw [ih]; ring

theorem readOids_oidMemory (name : List Nat) (h : ∀ x ∈ name, x < 2 ^ 64) :
    readOids name.length (oidMemory name) = name := by
  induction name with
  | nil => rfl
  | cons a as ih =>
    have ha : a < 2 ^ 64 := h a (by simp)
    have hlen : (bytesLE sizeof_oid a).length = sizeof_oid := length_bytesLE _ _
    simp only [oidMemory, List.flatMap_cons, List.length_cons, readOids]
    rw [List.take_left' hlen, List.drop_left' hlen, ofBytesLE_bytesLE]
    have ih2 := ih (fun x hx => h x (by simp [hx]))
    simp only [oidMemory] at ih2
    rw [ih2]
    congr 1
    simp only [sizeof_oid]
    omega

theorem toDouble_of_lt {n : Nat} (h : n < 2 ^ 53) : toDouble n = n := by
  unfold toDouble
  rw [if_pos h]

/-- Above `2 ^ 53` the conversion rounds: to the even neighbour at a tie, and
the largest 64-bit integer becomes `2 ^ 64`. -/
theorem toDouble_rounds :
    toDouble (2 ^ 53 + 1) = 2 ^ 53 ∧ toDouble (2 ^ 53 + 2) = 2 ^ 53 + 2 ∧
    toDouble (2 ^ 53 + 3) = 2 ^ 53 + 4 ∧ toDouble (2 ^ 64 - 1) = 2 ^ 64 := by
  refine ⟨?_, ?_, ?_, ?_⟩ <;> decide

theorem map_toDouble_of_lt {l : List Nat} (h : ∀ x ∈ l, x < 2 ^ 53) : l.map toDouble = l := by
  induction l with
  | nil => rfl
  | cons a as ih =>
    rw [List.map_cons, toDouble_of_lt (h a (by simp)), ih (fun x hx => h x (by simp [hx]))]

theorem GetData_oid (var : netsnmp_variable_list) (h : ∀ x ∈ var.name, x < 2 ^ 64) :
    (SnmpResult.New var).oid.GetData = .value (.array (var.name.map toDouble)) := by
  have hlen := length_oidMemory var.name
  have htake : (oidMemory var.name).take (var.name.length * sizeof_oid) = oidMemory var.name :=
    List.take_of_length_le (by omega)
  simp only [SnmpResult.New, SnmpValue.New, htake, SnmpValue.GetData]
  have e1 : ASN_OBJECT_ID ≠ ASN_INTEGER := by decide
  have e2 : ¬ (ASN_OBJECT_ID = ASN_GAUGE ∨ ASN_OBJECT_ID = ASN_COUNTER ∨
      ASN_OBJECT_ID = ASN_UINTEGER ∨ ASN_OBJECT_ID = ASN_TIMETICKS) := by decide
  have e3 : ASN_OBJECT_ID ≠ ASN_COUNTER64 := by decide
  rw [if_neg e1, if_neg e2, if_neg e3, if_pos trivial, hlen]
  have hmod : var.name.length * sizeof_oid % sizeof_oid = 0 := Nat.mul_mod_left _ _
  have hdiv : var.name.length * sizeof_oid / sizeof_oid = var.name.length :=
    Nat.mul_div_cancel _ (by decide)
  rw [if_pos hmod, hdiv, readOids_oidMemory _ h]

/-- A reply variable whose sub-identifiers are below `2 ^ 53` decodes to
exactly these sub-identifiers. -/
theorem GetData_oid_exact (var : netsnmp_variable_list) (h : ∀ x ∈ var.name, x < 2 ^ 53) :
    (SnmpResult.New var).oid.GetData = .value (.array var.name) := by
  rw [GetData_oid var (fun x hx => lt_trans (h x hx) (by norm_num)), map_toDouble_of_lt h]

theorem value_New (var : netsnmp_variable_list) :
    (SnmpResult.New var).value = { type_ := var.type, data_ := var.val } := by
  simp [SnmpResult.New, SnmpValue.New]

/-! ## Lemmas on a single record and the erased iterator -/

theorem findRequest_single (k : req_data) : findRequest k.pdu_.reqid [k] = some (0, k) := by
  simp [findRequest]

theorem slotAfterErase_single (env : Env) (k : req_data) : slotAfterErase env [k] 0 k = k := by
  simp [slotAfterErase]

/-- The erased iterator reads a record of the queue, except when the node of
the popped first slot was released. -/
theorem slotAfterErase_mem (env : Env) (q : List req_data) (i : Nat) (k : req_data)
    (hk : k ∈ q)
    (hfree : env.eraseShiftsFront i q.length = true → i = 0 → 1 < q.length →
      env.frontFreed q = none) :
    slotAfterErase env q i k ∈ q := by
  unfold slotAfterErase
  have hget : ∀ j, q.getD j k ∈ q := by
    intro j
    rw [List.getD_eq_getElem?_getD]
    cases hj : q[j]? with
    | none => simpa using hk
    | some x => simpa using List.mem_iff_getElem?.mpr ⟨j, hj⟩
  by_cases hb : env.eraseShiftsFront i q.length = true
  · rw [if_pos hb]
    by_cases hi : i = 0
    · rw [if_pos hi]
      by_cases hl : 1 < q.length
      · rw [if_pos hl, hfree hb hi hl]
        exact hk
      · rw [if_neg hl]
        exact hk
    · rw [if_neg hi]
      exact hget _
  · rw [if_neg hb]
    by_cases hi : i + 1 < q.length
    · rw [if_pos hi]
      exact hget _
    · rw [if_neg hi]
      exact hk

/-- When the last record is erased by popping the back, the erased iterator
still reads that record. -/
theorem slotAfterErase_last (env : Env) (q : List req_data) (i : Nat) (k : req_data)
    (hb : env.eraseShiftsFront i q.length = false) (hi : i + 1 = q.length) :
    slotAfterErase env q i k = k := by
  unfold slotAfterErase
  rw [hb, if_neg (by simp), if_neg (by omega)]

/-- The library of GNU pops the back when the last record is erased. -/
theorem libstdcxxShiftsFront_last (i n : Nat) (hi : i + 1 = n) :
    libstdcxxShiftsFront i n = false := by
  unfold libstdcxxShiftsFront
  rw [decide_eq_false_iff_not]
  omega

theorem findRequest_append_last (front : List req_data) (k : req_data)
    (hids : ∀ x ∈ front, x.pdu_.reqid ≠ k.pdu_.reqid) :
    findRequest k.pdu_.reqid (front ++ [k]) = some (front.length, k) := by
  induction front with
  | nil => simp [findRequest]
  | cons r rs ih =>
    have hr : r.pdu_.reqid ≠ k.pdu_.reqid := hids r (by simp)
    have ih2 := ih (fun x hx => hids x (by simp [hx]))
    simp [findRequest, hr, ih2]

theorem eraseIdx_append_last {α : Type} (front : List α) (k : α) :
    (front ++ [k]).eraseIdx front.length = front := by
  induction front with
  | nil => rfl
  | cons r rs ih => simp [ih]

/-! ## Lemmas on runs and the Endpoint invariant -/

theorem deliver_session (env : Env) (operation : Int) (pdu : netsnmp_pdu) (kReq it : req_data)
    (s1 : SnmpSession) (m1 : SnmpSessionManager) :
    (deliver env operation pdu kReq it s1 m1).session = s1 ∧
    (deliver env operation pdu kReq it s1 m1).manager = m1 := by
  unfold deliver
  split_ifs
  · exact ⟨rfl, rfl⟩
  · exact ⟨rfl, rfl⟩
  · split <;> exact ⟨rfl, rfl⟩

theorem run_nil (env : Env) (s : SnmpSession) (m : SnmpSessionManager) :
    run env [] s m =
      { session := s, manager := m, effects := Effects.empty, failedAssert := none } := rfl

theorem run_cons_ok (env : Env) (e : Event) (es : List Event) (s : SnmpSession)
    (m : SnmpSessionManager) (h : (step env e s m).failedAssert = none) :
    run env (e :: es) s m =
      { run env es (step env e s m).session (step env e s m).manager with
        effects := (step env e s m).effects.append
          (run env es (step env e s m).session (step env e s m).manager).effects } := by
  simp only [run, h]

theorem run_cons_fail (env : Env) (e : Event) (es : List Event) (s : SnmpSession)
    (m : SnmpSessionManager) (a : String) (h : (step env e s m).failedAssert = some a) :
    run env (e :: es) s m = step env e s m := by
  simp only [run, h]

theorem PerformRequestImpl_inv (sent : Int) (aType : req_type) (pdu : netsnmp_pdu)
    (aCallback : Nat) {s : SnmpSession} {m : SnmpSessionManager} (hinv : EndpointInv s m) :
    EndpointInv (PerformRequestImpl sent aType pdu aCallback s m).session
      (PerformRequestImpl sent aType pdu aCallback s m).manager := by
  obtain ⟨hh, hl⟩ := hinv
  by_cases h0 : sent = 0
  · simp only [PerformRequestImpl, h0, if_true]
    exact ⟨hh, hl⟩
  · simp only [PerformRequestImpl, h0, if_false]
    refine ⟨hh, ?_⟩
    cases hq : s.queue_ with
    | nil =>
      rw [hq] at hl
      simp only [List.isEmpty_nil, if_true] at hl
      simp [liveEntries_addClient, hl]
    | cons a as =>
      rw [hq] at hl
      simp only [List.isEmpty_cons, Bool.false_eq_true, if_false] at hl
      simp [hl]

theorem snmp_cb_proxy_inv (env : Env) (operation reqid : Int) (pdu : netsnmp_pdu)
    {s : SnmpSession} {m : SnmpSessionManager} (hinv : EndpointInv s m) :
    EndpointInv (snmp_cb_proxy env operation reqid pdu s m).session
      (snmp_cb_proxy env operation reqid pdu s m).manager := by
  cases hf : findRequest reqid s.queue_ with
  | none =>
    simp only [snmp_cb_proxy, hf]
    exact hinv
  | some p =>
    obtain ⟨i, k⟩ := p
    obtain ⟨m1, h1, h2, -, -⟩ := snmp_cb_proxy_found env operation reqid pdu hinv hf
    rw [h1, (deliver_session _ _ _ _ _ _ _).1, (deliver_session _ _ _ _ _ _ _).2]
    exact h2

theorem step_inv (env : Env) (e : Event) {s : SnmpSession} {m : SnmpSessionManager}
    (hinv : EndpointInv s m) :
    EndpointInv (step env e s m).session (step env e s m).manager := by
  cases e with
  | send sent aType pdu aCallback => exact PerformRequestImpl_inv sent aType pdu aCallback hinv
  | completion operation reqid pdu => exact snmp_cb_proxy_inv env operation reqid pdu hinv

theorem run_inv (env : Env) (evs : List Event) {s : SnmpSession} {m : SnmpSessionManager}
    (hinv : EndpointInv s m) :
    EndpointInv (run env evs s m).session (run env evs s m).manager := by
  induction evs generalizing s m with
  | nil => exact hinv
  | cons e es ih =>
    cases hfa : (step env e s m).failedAssert with
    | none =>
      rw [run_cons_ok env e es s m hfa]
      exact ih (step_inv env e hinv)
    | some a =>
      rw [run_cons_fail env e es s m a hfa]
      exact step_inv env e hinv

theorem step_handle (env : Env) (e : Event) (s : SnmpSession) (m : SnmpSessionManager) :
    (step env e s m).session.sessionHandle_ = s.sessionHandle_ := by
  cases e with
  | send sent aType pdu aCallback =>
    simp only [step, PerformRequestImpl]
    split_ifs <;> rfl
  | completion operation reqid pdu =>
    simp only [step, snmp_cb_proxy]
    cases findRequest reqid s.queue_ with
    | none => rfl
    | some p =>
      obtain ⟨i, k⟩ := p
      simp only [eraseAndDeregister]
      split
      · rename_i s1 heq
        simp only [Prod.mk.injEq] at heq
        rw [← heq.1]
      · rename_i s1 m1 heq
        simp only [Prod.mk.injEq] at heq
        rw [(deliver_session _ _ _ _ _ _ _).1, ← heq.1]

theorem run_handle (env : Env) (evs : List Event) (s : SnmpSession) (m : SnmpSessionManager) :
    (run env evs s m).session.sessionHandle_ = s.sessionHandle_ := by
  induction evs generalizing s m with
  | nil => rfl
  | cons e es ih =>
    cases hfa : (step env e s m).failedAssert with
    | none =>
      rw [run_cons_ok env e es s m hfa]
      exact (ih _ _).trans (step_handle env e s m)
    | some a =>
      rw [run_cons_fail env e es s m a hfa]
      exact step_handle env e s m

theorem step_received_ok (env : Env) (reqid : Int) (pdu : netsnmp_pdu)
    {s : SnmpSession} {m : SnmpSessionManager} {i : Nat} {kReq : req_data}
    (hinv : EndpointInv s m) (hf : findRequest reqid s.queue_ = some (i, kReq))
    (herr : pdu.errstat = SNMP_ERR_NOERROR)
    (hslot : (slotAfterErase env s.queue_ i kReq).type_ ≠ .REQ_BULK) :
    ∃ m1, step env (.completion NETSNMP_CALLBACK_OP_RECEIVED_MESSAGE reqid pdu) s m =
        { session := { s with queue_ := s.queue_.eraseIdx i }, manager := m1,
          effects := (snmp_success_cb env pdu kReq).dispose kReq.callback_,
          failedAssert := none } ∧
      EndpointInv { s with queue_ := s.queue_.eraseIdx i } m1 ∧
      (s.queue_.length ≠ 1 → m1 = m) ∧
      (s.queue_.length = 1 → m.removeClient s.sessionHandle_ = some m1) := by
  obtain ⟨m1, h1, h2, h3, h4⟩ :=
    snmp_cb_proxy_found env NETSNMP_CALLBACK_OP_RECEIVED_MESSAGE reqid pdu hinv hf
  refine ⟨m1, ?_, h2, h3, h4⟩
  simp only [step, h1, deliver_success env pdu _ _ _ _ herr hslot]

/-! ## Lemmas on effects and request ids -/

theorem Effects.empty_append (e : Effects) : Effects.empty.append e = e := by
  cases e; simp [Effects.append, Effects.empty]

theorem Effects.append_empty (e : Effects) : e.append Effects.empty = e := by
  cases e; simp [Effects.append, Effects.empty]

theorem Effects.append_assoc (a b c : Effects) : (a.append b).append c = a.append (b.append c) := by
  simp [Effects.append, List.append_assoc]

theorem Effects.calls_append (a b : Effects) : (a.append b).calls = a.calls ++ b.calls := rfl

theorem run_append_ok (env : Env) (pre post : List Event) (s : SnmpSession)
    (m : SnmpSessionManager) (h : (run env pre s m).failedAssert = none) :
    run env (pre ++ post) s m =
      { run env post (run env pre s m).session (run env pre s m).manager with
        effects := (run env pre s m).effects.append
          (run env post (run env pre s m).session (run env pre s m).manager).effects } := by
  induction pre generalizing s m with
  | nil =>
    simp only [List.nil_append, run_nil, Effects.empty_append]
  | cons e es ih =>
    cases hfa : (step env e s m).failedAssert with
    | none =>
      rw [run_cons_ok env e es s m hfa] at h ⊢
      rw [List.cons_append, run_cons_ok env e (es ++ post) s m hfa]
      simp only at h
      rw [ih _ _ h]
      simp only [Effects.append_assoc]
    | some a =>
      rw [run_cons_fail env e es s m a hfa] at h
      rw [hfa] at h
      cases h

/-- What a completion does to the queue and which calls it makes, without any
assumption on the state. -/
theorem snmp_cb_proxy_cases (env : Env) (operation reqid : Int) (pdu : netsnmp_pdu)
    (s : SnmpSession) (m : SnmpSessionManager) :
    (findRequest reqid s.queue_ = none ∧
      (snmp_cb_proxy env operation reqid pdu s m).session = s ∧
      (snmp_cb_proxy env operation reqid pdu s m).effects.calls = []) ∨
    (∃ i kReq, findRequest reqid s.queue_ = some (i, kReq) ∧
      (snmp_cb_proxy env operation reqid pdu s m).session.queue_ = s.queue_.eraseIdx i ∧
      ((snmp_cb_proxy env operation reqid pdu s m).effects.calls = [] ∨
        ∃ a0 a1, (snmp_cb_proxy env operation reqid pdu s m).effects.calls
          = [{ magic := kReq, arg0 := a0, arg1 := a1 }])) := by
  cases hf : findRequest reqid s.queue_ with
  | none =>
    left
    simp [snmp_cb_proxy, hf, Effects.empty]
  | some p =>
    obtain ⟨i, k⟩ := p
    right
    refine ⟨i, k, rfl, ?_⟩
    simp only [snmp_cb_proxy, hf, eraseAndDeregister]
    split
    · rename_i s1 heq
      simp only [Prod.mk.injEq] at heq
      rw [← heq.1]
      exact ⟨rfl, Or.inl rfl⟩
    · rename_i s1 m1 heq
      simp only [Prod.mk.injEq] at heq
      rw [(deliver_session _ _ _ _ _ _ _).1, ← heq.1]
      refine ⟨rfl, ?_⟩
      unfold deliver
      split_ifs
      · exact Or.inr ⟨_, _, rfl⟩
      · exact Or.inr ⟨_, _, rfl⟩
      · split
        · exact Or.inr ⟨_, _, rfl⟩
        · exact Or.inr ⟨_, _, rfl⟩
        · exact Or.inl rfl

theorem findRequest_erase_ids {reqid : Int} {q : List req_data} {i : Nat} {k : req_data}
    (hf : findRequest reqid q = some (i, k)) :
    (q.map (fun r => r.pdu_.reqid)).Perm
      (reqid :: (q.eraseIdx i).map (fun r => r.pdu_.reqid)) := by
  induction q generalizing i with
  | nil => simp [findRequest] at hf
  | cons r rs ih =>
    by_cases hr : r.pdu_.reqid = reqid
    · simp [findRequest, hr] at hf
      obtain ⟨rfl, rfl⟩ := hf
      simp [hr]
    · simp [findRequest, hr] at hf
      obtain ⟨a, h1, rfl⟩ := hf
      simp only [List.map_cons, List.eraseIdx_cons_succ]
      exact ((ih h1).cons _).trans (List.Perm.swap _ _ _)

/-- Under the Endpoint invariant, a completion whose id is pending and for
which the kind read through the erased iterator is not GETBULK makes exactly
one call, a success or a failure. -/
theorem snmp_cb_proxy_one_call (env : Env) (operation reqid : Int) (pdu : netsnmp_pdu)
    {s : SnmpSession} {m : SnmpSessionManager} {i : Nat} {kReq : req_data}
    (hinv : EndpointInv s m) (hf : findRequest reqid s.queue_ = some (i, kReq))
    (hslot : (slotAfterErase env s.queue_ i kReq).type_ ≠ .REQ_BULK) :
    ∃ a0 a1, (snmp_cb_proxy env operation reqid pdu s m).effects.calls
        = [{ magic := kReq, arg0 := a0, arg1 := a1 }] ∧
      ((a0 = .boolean false ∧ ∃ rs, a1 = .array rs) ∨ (∃ reason, a0 = .symbol reason ∧ a1 = .null)) ∧
      (snmp_cb_proxy env operation reqid pdu s m).failedAssert = none ∧
      (snmp_cb_proxy env operation reqid pdu s m).session.queue_ = s.queue_.eraseIdx i := by
  obtain ⟨m1, h1, -, -, -⟩ := snmp_cb_proxy_found env operation reqid pdu hinv hf
  rw [h1]
  by_cases hop : operation = NETSNMP_CALLBACK_OP_RECEIVED_MESSAGE
  · subst hop
    by_cases herr : pdu.errstat = SNMP_ERR_NOERROR
    · rw [deliver_success env pdu _ _ _ _ herr hslot]
      exact ⟨_, _, rfl, Or.inl ⟨rfl, _, rfl⟩, rfl, rfl⟩
    · rw [deliver_error_status env pdu _ _ _ _ herr]
      exact ⟨_, _, rfl, Or.inr ⟨_, rfl, rfl⟩, rfl, rfl⟩
  · rw [deliver_not_received env pdu _ _ _ _ hop]
    exact ⟨_, _, rfl, Or.inr ⟨_, rfl, rfl⟩, rfl, rfl⟩

theorem length_callsFor (id : Int) (e : Effects) :
    (callsFor id e).length = (e.calls.map (fun c => c.magic.pdu_.reqid)).count id := by
  unfold callsFor
  induction e.calls with
  | nil => rfl
  | cons c cs ih =>
    by_cases hc : c.magic.pdu_.reqid = id
    · simp [List.filter_cons, hc, ih]
    · simp [List.filter_cons, hc, ih, List.count_cons]

theorem sentRecords_ids (evs : List Event) :
    (sentRecords evs).map (fun r => r.pdu_.reqid) = acceptedIds evs := by
  induction evs with
  | nil => rfl
  | cons e es ih =>
    cases e with
    | send sent aType pdu aCallback =>
      by_cases h0 : sent = 0
      · simp [sentRecords, acceptedIds, h0, ih]
      · simp [sentRecords, acceptedIds, h0, ih]
    | completion operation reqid pdu => simpa [sentRecords, acceptedIds] using ih

theorem findRequest_erase_perm {reqid : Int} {q : List req_data} {i : Nat} {k : req_data}
    (hf : findRequest reqid q = some (i, k)) : q.Perm (k :: q.eraseIdx i) := by
  induction q generalizing i with
  | nil => simp [findRequest] at hf
  | cons r rs ih =>
    by_cases hr : r.pdu_.reqid = reqid
    · simp [findRequest, hr] at hf
      obtain ⟨rfl, rfl⟩ := hf
      simp
    · simp [findRequest, hr] at hf
      obtain ⟨a, h1, rfl⟩ := hf
      simp only [List.eraseIdx_cons_succ]
      exact ((ih h1).cons _).trans (List.Perm.swap _ _ _)

/-- One event never makes more calls for a key than it takes records with that
key out of the queue. -/
theorem step_count {α : Type} [DecidableEq α] (f : req_data → α) (a : α) (env : Env)
    (e : Event) (s : SnmpSession) (m : SnmpSessionManager) :
    ((step env e s m).effects.calls.map (fun c => f c.magic)).count a
        + ((step env e s m).session.queue_.map f).count a
      ≤ ((sentRecords [e]).map f).count a + (s.queue_.map f).count a := by
  cases e with
  | send sent aType pdu aCallback =>
    by_cases h0 : sent = 0
    · simp [step, PerformRequestImpl, h0, sentRecords, Effects.empty]
    · simp only [step, PerformRequestImpl, h0, if_false, sentRecords, Effects.empty,
        List.map_nil, List.count_nil, List.map_append, List.count_append, List.map_cons]
      omega
  | completion operation reqid pdu =>
    rcases snmp_cb_proxy_cases env operation reqid pdu s m with ⟨-, h2, h3⟩ | ⟨i, k, hf, h2, h3⟩
    · have hs : (step env (.completion operation reqid pdu) s m).session = s := h2
      have hc : (step env (.completion operation reqid pdu) s m).effects.calls = [] := h3
      rw [hs, hc]
      simp
    · have hs : (step env (.completion operation reqid pdu) s m).session.queue_
          = s.queue_.eraseIdx i := h2
      have hp := ((findRequest_erase_perm hf).map f).count_eq a
      rw [hs, hp, List.map_cons, List.count_cons]
      rcases h3 with h3 | ⟨a0, a1, h3⟩
      · have hc : (step env (.completion operation reqid pdu) s m).effects.calls = [] := h3
        rw [hc]
        simp only [List.map_nil, List.count_nil]
        omega
      · have hc : (step env (.completion operation reqid pdu) s m).effects.calls
            = [{ magic := k, arg0 := a0, arg1 := a1 }] := h3
        rw [hc]
        simp only [sentRecords, List.map_cons, List.map_nil, List.count_cons, List.count_nil]
        omega

theorem sentRecords_cons (e : Event) (es : List Event) :
    sentRecords (e :: es) = sentRecords [e] ++ sentRecords es := by
  cases e with
  | send sent aType pdu aCallback =>
    by_cases h0 : sent = 0 <;> simp [sentRecords, h0]
  | completion operation reqid pdu => simp [sentRecords]

/-- Over a run, the calls made for a key and the records with that key still
queued never exceed the records with that key that were queued at the start or
appended by an accepted send. -/
theorem run_count {α : Type} [DecidableEq α] (f : req_data → α) (a : α) (env : Env)
    (evs : List Event) (s : SnmpSession) (m : SnmpSessionManager) :
    ((run env evs s m).effects.calls.map (fun c => f c.magic)).count a
        + ((run env evs s m).session.queue_.map f).count a
      ≤ ((sentRecords evs).map f).count a + (s.queue_.map f).count a := by
  induction evs generalizing s m with
  | nil => simp [run_nil, Effects.empty, sentRecords]
  | cons e es ih =>
    have h1 := step_count f a env e s m
    rw [sentRecords_cons, List.map_append, List.count_append]
    cases hfa : (step env e s m).failedAssert with
    | some x =>
      rw [run_cons_fail env e es s m x hfa]
      omega
    | none =>
      rw [run_cons_ok env e es s m hfa]
      have h2 := ih (step env e s m).session (step env e s m).manager
      simp only [Effects.calls_append, List.map_append, List.count_append]
      omega

theorem run_single (env : Env) (e : Event) (s : SnmpSession) (m : SnmpSessionManager) :
    run env [e] s m = step env e s m := by
  cases hfa : (step env e s m).failedAssert with
  | none =>
    rw [run_cons_ok env e [] s m hfa, run_nil]
    generalize step env e s m = r at hfa ⊢
    cases r
    simp only at hfa
    simp [hfa, Effects.append_empty]
  | some x => exact run_cons_fail env e [] s m x hfa

theorem run_snoc (env : Env) (evs : List Event) (e : Event) (s : SnmpSession)
    (m : SnmpSessionManager) (h : (run env evs s m).failedAssert = none) :
    run env (evs ++ [e]) s m =
      { step env e (run env evs s m).session (run env evs s m).manager with
        effects := (run env evs s m).effects.append
          (step env e (run env evs s m).session (run env evs s m).manager).effects } := by
  rw [run_append_ok env evs [e] s m h, run_single]

theorem run_append_fail (env : Env) (pre post : List Event) (s : SnmpSession)
    (m : SnmpSessionManager) (h : (run env pre s m).failedAssert ≠ none) :
    run env (pre ++ post) s m = run env pre s m := by
  induction pre generalizing s m with
  | nil => simp [run_nil] at h
  | cons e es ih =>
    cases hfa : (step env e s m).failedAssert with
    | none =>
      rw [run_cons_ok env e es s m hfa] at h ⊢
      rw [List.cons_append, run_cons_ok env e (es ++ post) s m hfa]
      simp only at h
      rw [ih _ _ h]
    | some a =>
      rw [List.cons_append, run_cons_fail env e es s m a hfa,
        run_cons_fail env e (es ++ post) s m a hfa]

/-! ## Lemmas on PerformRequest -/

theorem readMembers_eq_none {l : List V8Value} (h : ∃ v ∈ l, v.asUint32 = none) :
    readMembers l = none := by
  induction l with
  | nil => simp at h
  | cons a as ih =>
    cases ha : a.asUint32 with
    | none => simp [readMembers, ha]
    | some n =>
      obtain ⟨v, hv, hv2⟩ := h
      simp only [List.mem_cons] at hv
      rcases hv with rfl | hv
      · rw [ha] at hv2; cases hv2
      · simp [readMembers, ha, ih ⟨v, hv, hv2⟩]

theorem addNullVar_flat_error (renv : RequestEnv) (pdu : netsnmp_pdu) {l : List V8Value}
    (h : ∃ v ∈ l, v.asUint32 = none) :
    ∃ e, addNullVarFromV8Array renv pdu (.array l) = .error e := by
  by_cases hl : l.length = 0
  · exact ⟨"invalid argument - empty oid", by simp [addNullVarFromV8Array, hl]⟩
  · exact ⟨"invalid oid - non-integer member",
      by simp [addNullVarFromV8Array, hl, readMembers_eq_none h]⟩

theorem addNullVar_bad_group (renv : RequestEnv) (pdu : netsnmp_pdu) {g : V8Value}
    (h : g.IsArray = false ∨ g = .array [] ∨
      ∃ members, g = .array members ∧ ∃ v ∈ members, v.asUint32 = none) :
    ∃ e, addNullVarFromV8Array renv pdu g = .error e := by
  rcases h with h | rfl | ⟨members, rfl, h⟩
  · cases g <;> first | exact ⟨_, rfl⟩ | simp [V8Value.IsArray] at h
  · exact ⟨"invalid argument - empty oid", by simp [addNullVarFromV8Array]⟩
  · exact addNullVar_flat_error renv pdu h

theorem addGroups_error (renv : RequestEnv) (pdu : netsnmp_pdu) {gs : List V8Value}
    (h : ∃ g ∈ gs, g.IsArray = false ∨ g = .array [] ∨
      ∃ members, g = .array members ∧ ∃ v ∈ members, v.asUint32 = none) :
    ∃ e, addGroups renv pdu gs = .error e := by
  induction gs generalizing pdu with
  | nil => simp at h
  | cons a as ih =>
    cases ha : addNullVarFromV8Array renv pdu a with
    | error e => exact ⟨e, by simp [addGroups, ha]⟩
    | ok pdu1 =>
      obtain ⟨g, hg, hbad⟩ := h
      simp only [List.mem_cons] at hg
      rcases hg with rfl | hg
      · obtain ⟨e, he⟩ := addNullVar_bad_group renv pdu hbad
        rw [ha] at he; cases he
      · obtain ⟨e, he⟩ := ih pdu1 ⟨g, hg, hbad⟩
        exact ⟨e, by simp [addGroups, ha, he]⟩

theorem buildQuery_malformed (renv : RequestEnv) (aType : req_type) {oidArg : List V8Value}
    (h : malformedOid oidArg) : ∃ e, buildQuery renv aType oidArg = .error e := by
  by_cases hl : oidArg.length = 0
  · exact ⟨"invalid argument - empty oid", by simp [buildQuery, hl]⟩
  · cases hp : renv.pdu_create aType with
    | none => exact ⟨"cannot allocate pdu", by simp [buildQuery, hl, hp]⟩
    | some pdu =>
      rcases h with rfl | ⟨hflat, hv⟩ | ⟨⟨first, hfirst, harr⟩, hg⟩
      · simp at hl
      · obtain ⟨e, he⟩ := addNullVar_flat_error renv pdu hv
        refine ⟨e, ?_⟩
        simp only [buildQuery, hl, if_false, hp]
        cases hh : oidArg.head? with
        | none => simpa using he
        | some first =>
          have := hflat first (by simp [hh])
          cases first <;> first | simpa using he | simp [V8Value.IsArray] at this
      · obtain ⟨e, he⟩ := addGroups_error renv pdu hg
        refine ⟨e, ?_⟩
        simp only [buildQuery, hl, if_false, hp]
        have hh : oidArg.head? = some first := by simpa using hfirst
        rw [hh]
        cases first <;> first | simpa using he | simp [V8Value.IsArray] at harr

/-! ## The claims -/

/-- C1, counterexample to the claim as stated: one accepted send of kind
GETBULK with id 5 leaves its record pending; the RECEIVED completion that
carries id 5 removes the record, invokes no continuation at all and stops at
the assertion on the request kind. -/
theorem getbulk_completion_invokes_nothing :
    (run exampleEnv [.send 5 .REQ_BULK (examplePdu 5) 100] (SnmpSession.fresh 7)
        SnmpSessionManager.fresh).session.queue_ = [exampleReq .REQ_BULK 5 100] ∧
    (run exampleEnv [.send 5 .REQ_BULK (examplePdu 5) 100,
        .completion NETSNMP_CALLBACK_OP_RECEIVED_MESSAGE 5 (examplePdu 5)]
        (SnmpSession.fresh 7) SnmpSessionManager.fresh).effects.calls = [] ∧
    (run exampleEnv [.send 5 .REQ_BULK (examplePdu 5) 100,
        .completion NETSNMP_CALLBACK_OP_RECEIVED_MESSAGE 5 (examplePdu 5)]
        (SnmpSession.fresh 7) SnmpSessionManager.fresh).session.queue_ = [] ∧
    (run exampleEnv [.send 5 .REQ_BULK (examplePdu 5) 100,
        .completion NETSNMP_CALLBACK_OP_RECEIVED_MESSAGE 5 (examplePdu 5)]
        (SnmpSession.fresh 7) SnmpSessionManager.fresh).failedAssert
      = some "internal error: inconsistent req_data record" := by
  refine ⟨rfl, rfl, rfl, rfl⟩

/-- C1, amended: on a consistent Endpoint (a fresh one is), for every sequence
of sends and completions: (1) for every record, and for every request id, the
calls of the continuation plus the copies still queued never exceed the
accepted sends (plus the copies queued at the start), so no pending request is
called more often than it was sent; (2) a completion that carries the id of a
queued record removes the first such record, so one record fewer with that id
is queued, and it calls the continuation of that record exactly once, with
`false` and the decoded reply when the operation is RECEIVED and the error
status zero, with a reason and `null` otherwise, except when the operation is
RECEIVED, the error status is zero and the kind that `snmp_cb_proxy` inspects
is GETBULK: then it calls nothing and the assertion on the kind fails; (3) the
kind inspected is that of the record itself when the record is the only one, or
the last one and the library pops the back; (4) when the id was queued once, a
further completion with that id calls nothing and, if reached, fails the
assertion `spurious response received`. -/
theorem continuation_invoked_once (env : Env) (evs : List Event) (s : SnmpSession)
    (m : SnmpSessionManager) (hinv : EndpointInv s m) :
    (∀ r : req_data,
      ((run env evs s m).effects.calls.map (fun c => c.magic)).count r
          + (run env evs s m).session.queue_.count r
        ≤ (sentRecords evs).count r + s.queue_.count r) ∧
    (∀ id : Int,
      (callsFor id (run env evs s m).effects).length
          + (queueIds (run env evs s m).session).count id
        ≤ (acceptedIds evs).count id + (queueIds s).count id) ∧
    (∀ (operation reqid : Int) (pdu : netsnmp_pdu) (i : Nat) (kReq : req_data),
      (run env evs s m).failedAssert = none →
      findRequest reqid (run env evs s m).session.queue_ = some (i, kReq) →
      (run env (evs ++ [.completion operation reqid pdu]) s m).session.queue_
          = (run env evs s m).session.queue_.eraseIdx i ∧
      (queueIds (run env (evs ++ [.completion operation reqid pdu]) s m).session).count reqid + 1
          = (queueIds (run env evs s m).session).count reqid ∧
      (¬ (operation = NETSNMP_CALLBACK_OP_RECEIVED_MESSAGE ∧ pdu.errstat = SNMP_ERR_NOERROR ∧
            (slotAfterErase env (run env evs s m).session.queue_ i kReq).type_ = .REQ_BULK) →
        (run env (evs ++ [.completion operation reqid pdu]) s m).failedAssert = none ∧
        ∃ a0 a1,
          (run env (evs ++ [.completion operation reqid pdu]) s m).effects.calls
            = (run env evs s m).effects.calls ++ [{ magic := kReq, arg0 := a0, arg1 := a1 }] ∧
          ((operation = NETSNMP_CALLBACK_OP_RECEIVED_MESSAGE ∧ pdu.errstat = SNMP_ERR_NOERROR) →
            a0 = .boolean false ∧ a1 = .array (pdu.variables_.map SnmpResult.New)) ∧
          (¬ (operation = NETSNMP_CALLBACK_OP_RECEIVED_MESSAGE ∧
                pdu.errstat = SNMP_ERR_NOERROR) →
            (∃ reason, a0 = .symbol reason) ∧ a1 = .null)) ∧
      ((operation = NETSNMP_CALLBACK_OP_RECEIVED_MESSAGE ∧ pdu.errstat = SNMP_ERR_NOERROR ∧
            (slotAfterErase env (run env evs s m).session.queue_ i kReq).type_ = .REQ_BULK) →
        (run env (evs ++ [.completion operation reqid pdu]) s m).effects.calls
            = (run env evs s m).effects.calls ∧
        (run env (evs ++ [.completion operation reqid pdu]) s m).failedAssert
            = some "internal error: inconsistent req_data record") ∧
      (i + 1 = (run env evs s m).session.queue_.length →
        ((run env evs s m).session.queue_.length = 1 ∨
          env.eraseShiftsFront i (run env evs s m).session.queue_.length = false) →
        slotAfterErase env (run env evs s m).session.queue_ i kReq = kReq) ∧
      ((queueIds (run env evs s m).session).count reqid = 1 →
        ∀ (operation2 : Int) (pdu2 : netsnmp_pdu),
          (run env (evs ++ [.completion operation reqid pdu, .completion operation2 reqid pdu2])
              s m).effects.calls
            = (run env (evs ++ [.completion operation reqid pdu]) s m).effects.calls ∧
          ((run env (evs ++ [.completion operation reqid pdu]) s m).failedAssert = none →
            (run env (evs ++ [.completion operation reqid pdu,
                .completion operation2 reqid pdu2]) s m).failedAssert
              = some "spurious response received"))) := by
  refine ⟨?_, ?_, ?_⟩
  · intro r
    have h := run_count (fun x => x) r env evs s m
    simpa using h
  · intro id
    have h := run_count (fun x => x.pdu_.reqid) id env evs s m
    rw [sentRecords_ids] at h
    rw [length_callsFor]
    exact h
  · intro operation reqid pdu i kReq hok hf
    have hinv2 := run_inv env evs hinv
    obtain ⟨m1, h1, -, -, -⟩ := snmp_cb_proxy_found env operation reqid pdu hinv2 hf
    have hsn := run_snoc env evs (.completion operation reqid pdu) s m hok
    have hst : step env (.completion operation reqid pdu) (run env evs s m).session
        (run env evs s m).manager
        = { session := (snmp_cb_proxy env operation reqid pdu (run env evs s m).session
              (run env evs s m).manager).session,
            manager := (snmp_cb_proxy env operation reqid pdu (run env evs s m).session
              (run env evs s m).manager).manager,
            effects := (snmp_cb_proxy env operation reqid pdu (run env evs s m).session
              (run env evs s m).manager).effects,
            failedAssert := (snmp_cb_proxy env operation reqid pdu (run env evs s m).session
              (run env evs s m).manager).failedAssert } := rfl
    rw [hst] at hsn
    have hq : (run env (evs ++ [.completion operation reqid pdu]) s m).session.queue_
        = (run env evs s m).session.queue_.eraseIdx i := by
      rw [hsn, h1]
      simp only [(deliver_session _ _ _ _ _ _ _).1]
    have hcnt : (queueIds (run env (evs ++ [.completion operation reqid pdu]) s m).session).count
        reqid + 1 = (queueIds (run env evs s m).session).count reqid := by
      unfold queueIds
      rw [hq, (findRequest_erase_ids hf).count_eq reqid, List.count_cons_self]
    refine ⟨hq, hcnt, ?_, ?_, ?_, ?_⟩
    · intro hno
      by_cases hop : operation = NETSNMP_CALLBACK_OP_RECEIVED_MESSAGE
      · subst hop
        by_cases herr : pdu.errstat = SNMP_ERR_NOERROR
        · have hslot : (slotAfterErase env (run env evs s m).session.queue_ i kReq).type_
              ≠ .REQ_BULK := fun hb => hno ⟨rfl, herr, hb⟩
          rw [deliver_success env pdu _ _ _ _ herr hslot] at h1
          rw [hsn, h1]
          refine ⟨rfl, _, _, rfl, fun _ => ⟨rfl, rfl⟩, fun hn => absurd ⟨rfl, herr⟩ hn⟩
        · rw [deliver_error_status env pdu _ _ _ _ herr] at h1
          rw [hsn, h1]
          exact ⟨rfl, _, _, rfl, fun hn => absurd hn.2 herr, fun _ => ⟨⟨_, rfl⟩, rfl⟩⟩
      · rw [deliver_not_received env pdu _ _ _ _ hop] at h1
        rw [hsn, h1]
        exact ⟨rfl, _, _, rfl, fun hn => absurd hn.1 hop, fun _ => ⟨⟨_, rfl⟩, rfl⟩⟩
    · rintro ⟨hop, herr, hb⟩
      subst hop
      rw [deliver_bulk env pdu _ _ _ _ herr hb] at h1
      rw [hsn, h1]
      exact ⟨by simp [Effects.calls_append, Effects.empty], rfl⟩
    · intro hi hback
      rcases hback with h1len | hb
      · have hi0 : i = 0 := by omega
        subst hi0
        cases hqq : (run env evs s m).session.queue_ with
        | nil => rw [hqq] at h1len; simp at h1len
        | cons x xs =>
          rw [hqq] at h1len hf
          have hxs : xs = [] := by
            cases xs with
            | nil => rfl
            | cons y ys => simp at h1len
          subst hxs
          have hk : x = kReq := by
            have := (findRequest_some hf).1
            simpa using this
          rw [hk]
          exact slotAfterErase_single env kReq
      · exact slotAfterErase_last env _ i kReq hb hi
    · intro hone operation2 pdu2
      have hnone : ∀ x ∈ (run env (evs ++ [.completion operation reqid pdu]) s m).session.queue_,
          x.pdu_.reqid ≠ reqid := by
        intro x hx hxid
        have hz : (queueIds (run env (evs ++ [.completion operation reqid pdu]) s m).session).count
            reqid = 0 := by omega
        rw [List.count_eq_zero] at hz
        exact hz (List.mem_map.mpr ⟨x, hx, hxid⟩)
      have happ : evs ++ [.completion operation reqid pdu, .completion operation2 reqid pdu2]
          = (evs ++ [.completion operation reqid pdu]) ++ [.completion operation2 reqid pdu2] := by
        simp
      rw [happ]
      cases hfa : (run env (evs ++ [.completion operation reqid pdu]) s m).failedAssert with
      | some x =>
        rw [run_append_fail env _ _ s m (by rw [hfa]; simp), hfa]
        exact ⟨rfl, fun hx => by simp at hx⟩
      | none =>
        rw [run_snoc env _ _ s m hfa]
        simp only [step, snmp_cb_proxy, findRequest_eq_none.mpr hnone]
        exact ⟨by simp [Effects.calls_append, Effects.empty], fun _ => trivial⟩

/-- Witness for C1 on `exampleTrace`: a fresh Endpoint is consistent, request 5
is sent once and called at most once, and the timeout for the queued request 6
adds exactly one call, to the continuation of that request. -/
theorem continuation_invoked_once_witness :
    EndpointInv (SnmpSession.fresh 7) SnmpSessionManager.fresh ∧
    (callsFor 5 (run exampleEnv exampleTrace (SnmpSession.fresh 7)
          SnmpSessionManager.fresh).effects).length
        + (queueIds (run exampleEnv exampleTrace (SnmpSession.fresh 7)
          SnmpSessionManager.fresh).session).count 5
      ≤ (acceptedIds exampleTrace).count 5 + (queueIds (SnmpSession.fresh 7)).count 5 ∧
    (acceptedIds exampleTrace).count 5 + (queueIds (SnmpSession.fresh 7)).count 5 = 1 ∧
    ∃ a0 a1,
      (run exampleEnv
          ([.send 5 .REQ_GET (examplePdu 5) 100, .send 6 .REQ_NEXT (examplePdu 6) 101]
            ++ [.completion NETSNMP_CALLBACK_OP_TIMED_OUT 6 (examplePdu 6)])
          (SnmpSession.fresh 7) SnmpSessionManager.fresh).effects.calls
        = (run exampleEnv
            [.send 5 .REQ_GET (examplePdu 5) 100, .send 6 .REQ_NEXT (examplePdu 6) 101]
            (SnmpSession.fresh 7) SnmpSessionManager.fresh).effects.calls
          ++ [{ magic := exampleReq .REQ_NEXT 6 101, arg0 := a0, arg1 := a1 }] := by
  refine ⟨by decide,
    (continuation_invoked_once exampleEnv exampleTrace (SnmpSession.fresh 7)
      SnmpSessionManager.fresh (by decide)).2.1 5, by decide, ?_⟩
  obtain ⟨-, a0, a1, h3, -⟩ :=
    ((continuation_invoked_once exampleEnv
      [.send 5 .REQ_GET (examplePdu 5) 100, .send 6 .REQ_NEXT (examplePdu 6) 101]
      (SnmpSession.fresh 7) SnmpSessionManager.fresh (by decide)).2.2
      NETSNMP_CALLBACK_OP_TIMED_OUT 6 (examplePdu 6) 1 (exampleReq .REQ_NEXT 6 101) rfl rfl).2.2.1
      (by decide)
  exact ⟨a0, a1, h3⟩

/-- C2: starting from a consistent Endpoint (in particular a fresh one), after
every prefix of every sequence of sends and completions the registry of the
bridge holds an entry for the session handle exactly when the queue is
non-empty, never more than one, and the handle is the same non-NULL handle. -/
theorem registered_iff_pending (env : Env) (evs : List Event) (s : SnmpSession)
    (m : SnmpSessionManager) (hinv : EndpointInv s m) (k : Nat) :
    (0 < liveEntries s.sessionHandle_ (run env (evs.take k) s m).manager ↔
      (run env (evs.take k) s m).session.queue_ ≠ []) ∧
    liveEntries s.sessionHandle_ (run env (evs.take k) s m).manager ≤ 1 ∧
    (run env (evs.take k) s m).session.sessionHandle_ = s.sessionHandle_ ∧
    s.sessionHandle_ ≠ 0 := by
  have hr := run_inv env (evs.take k) hinv
  have hh := run_handle env (evs.take k) s m
  obtain ⟨h0, hl⟩ := hr
  rw [hh] at hl h0
  refine ⟨?_, ?_, hh, h0⟩
  · rw [hl]
    cases hq : (run env (evs.take k) s m).session.queue_ <;> simp
  · rw [hl]
    split_ifs <;> omega

/-- Witness for C2: a fresh Endpoint is consistent, and after the first three
events of `exampleTrace` the registry agrees with the queue. -/
theorem registered_iff_pending_witness :
    EndpointInv (SnmpSession.fresh 7) SnmpSessionManager.fresh ∧
    ((0 < liveEntries 7 (run exampleEnv (exampleTrace.take 3) (SnmpSession.fresh 7)
          SnmpSessionManager.fresh).manager ↔
        (run exampleEnv (exampleTrace.take 3) (SnmpSession.fresh 7)
          SnmpSessionManager.fresh).session.queue_ ≠ []) ∧
      liveEntries 7 (run exampleEnv (exampleTrace.take 3) (SnmpSession.fresh 7)
          SnmpSessionManager.fresh).manager ≤ 1) :=
  ⟨by decide,
    (registered_iff_pending exampleEnv exampleTrace (SnmpSession.fresh 7)
      SnmpSessionManager.fresh (by decide) 3).1,
    (registered_iff_pending exampleEnv exampleTrace (SnmpSession.fresh 7)
      SnmpSessionManager.fresh (by decide) 3).2.1⟩

/-- C3, the code against the claim: two GET requests A and B with distinct ids
are queued and both replies arrive with error status zero. In the order B, A
both continuations are called once with the variables of their replies and the
queue ends empty, whatever the library does. In the order A, B the same holds
unless the erase of A released the node of its slot and the read of the
released slot yields a kind other than GET and GETNEXT; in that case the
completion for A calls nothing, the assertion on the kind fails and B stays
queued. -/
theorem completion_order_released_node (env : Env) (recA recB : req_data) (h : Nat)
    (m : SnmpSessionManager) (replyA replyB : netsnmp_pdu)
    (hA : recA.type_ = .REQ_GET) (hB : recB.type_ = .REQ_GET)
    (hne : recA.pdu_.reqid ≠ recB.pdu_.reqid)
    (hinv : EndpointInv { queue_ := [recA, recB], sessionHandle_ := h } m)
    (heA : replyA.errstat = SNMP_ERR_NOERROR) (heB : replyB.errstat = SNMP_ERR_NOERROR) :
    ((run env [.completion NETSNMP_CALLBACK_OP_RECEIVED_MESSAGE recB.pdu_.reqid replyB,
              .completion NETSNMP_CALLBACK_OP_RECEIVED_MESSAGE recA.pdu_.reqid replyA]
        { queue_ := [recA, recB], sessionHandle_ := h } m).effects.calls
      = [{ magic := recB, arg0 := .boolean false,
           arg1 := .array (replyB.variables_.map SnmpResult.New) },
         { magic := recA, arg0 := .boolean false,
           arg1 := .array (replyA.variables_.map SnmpResult.New) }] ∧
     (run env [.completion NETSNMP_CALLBACK_OP_RECEIVED_MESSAGE recB.pdu_.reqid replyB,
              .completion NETSNMP_CALLBACK_OP_RECEIVED_MESSAGE recA.pdu_.reqid replyA]
        { queue_ := [recA, recB], sessionHandle_ := h } m).session.queue_ = [] ∧
     (run env [.completion NETSNMP_CALLBACK_OP_RECEIVED_MESSAGE recB.pdu_.reqid replyB,
              .completion NETSNMP_CALLBACK_OP_RECEIVED_MESSAGE recA.pdu_.reqid replyA]
        { queue_ := [recA, recB], sessionHandle_ := h } m).failedAssert = none) ∧
    ((env.eraseShiftsFront 0 2 = true → ∀ g, env.frontFreed [recA, recB] = some g →
        g.type_ ≠ .REQ_BULK) →
      (run env [.completion NETSNMP_CALLBACK_OP_RECEIVED_MESSAGE recA.pdu_.reqid replyA,
                .completion NETSNMP_CALLBACK_OP_RECEIVED_MESSAGE recB.pdu_.reqid replyB]
          { queue_ := [recA, recB], sessionHandle_ := h } m).effects.calls
        = [{ magic := recA, arg0 := .boolean false,
             arg1 := .array (replyA.variables_.map SnmpResult.New) },
           { magic := recB, arg0 := .boolean false,
             arg1 := .array (replyB.variables_.map SnmpResult.New) }] ∧
      (run env [.completion NETSNMP_CALLBACK_OP_RECEIVED_MESSAGE recA.pdu_.reqid replyA,
                .completion NETSNMP_CALLBACK_OP_RECEIVED_MESSAGE recB.pdu_.reqid replyB]
          { queue_ := [recA, recB], sessionHandle_ := h } m).session.queue_ = [] ∧
      (run env [.completion NETSNMP_CALLBACK_OP_RECEIVED_MESSAGE recA.pdu_.reqid replyA,
                .completion NETSNMP_CALLBACK_OP_RECEIVED_MESSAGE recB.pdu_.reqid replyB]
          { queue_ := [recA, recB], sessionHandle_ := h } m).failedAssert = none ∧
      (run env [.completion NETSNMP_CALLBACK_OP_RECEIVED_MESSAGE recA.pdu_.reqid replyA,
                .completion NETSNMP_CALLBACK_OP_RECEIVED_MESSAGE recB.pdu_.reqid replyB]
          { queue_ := [recA, recB], sessionHandle_ := h } m).manager
        = (run env [.completion NETSNMP_CALLBACK_OP_RECEIVED_MESSAGE recB.pdu_.reqid replyB,
                .completion NETSNMP_CALLBACK_OP_RECEIVED_MESSAGE recA.pdu_.reqid replyA]
          { queue_ := [recA, recB], sessionHandle_ := h } m).manager) ∧
    (env.eraseShiftsFront 0 2 = true → ∀ g, env.frontFreed [recA, recB] = some g →
      g.type_ = .REQ_BULK →
      (run env [.completion NETSNMP_CALLBACK_OP_RECEIVED_MESSAGE recA.pdu_.reqid replyA,
                .completion NETSNMP_CALLBACK_OP_RECEIVED_MESSAGE recB.pdu_.reqid replyB]
          { queue_ := [recA, recB], sessionHandle_ := h } m).effects.calls = [] ∧
      (run env [.completion NETSNMP_CALLBACK_OP_RECEIVED_MESSAGE recA.pdu_.reqid replyA,
                .completion NETSNMP_CALLBACK_OP_RECEIVED_MESSAGE recB.pdu_.reqid replyB]
          { queue_ := [recA, recB], sessionHandle_ := h } m).session.queue_ = [recB] ∧
      (run env [.completion NETSNMP_CALLBACK_OP_RECEIVED_MESSAGE recA.pdu_.reqid replyA,
                .completion NETSNMP_CALLBACK_OP_RECEIVED_MESSAGE recB.pdu_.reqid replyB]
          { queue_ := [recA, recB], sessionHandle_ := h } m).failedAssert
        = some "internal error: inconsistent req_data record") := by
  have hall2 : ∀ x ∈ ({ queue_ := [recA, recB], sessionHandle_ := h } : SnmpSession).queue_,
      x.type_ ≠ .REQ_BULK := by
    intro x hx
    simp only [List.mem_cons, List.mem_singleton, List.not_mem_nil, or_false] at hx
    rcases hx with rfl | rfl
    · simp [hA]
    · simp [hB]
  have hslotA1 : (slotAfterErase env [recA] 0 recA).type_ ≠ .REQ_BULK := by
    rw [slotAfterErase_single]; simp [hA]
  have hslotB1 : (slotAfterErase env [recB] 0 recB).type_ ≠ .REQ_BULK := by
    rw [slotAfterErase_single]; simp [hB]
  have hfB : findRequest recB.pdu_.reqid
      ({ queue_ := [recA, recB], sessionHandle_ := h } : SnmpSession).queue_ = some (1, recB) := by
    simp [findRequest, hne]
  have hfA : findRequest recA.pdu_.reqid
      ({ queue_ := [recA, recB], sessionHandle_ := h } : SnmpSession).queue_ = some (0, recA) := by
    simp [findRequest]
  -- order B, A
  have hslotB : (slotAfterErase env
      ({ queue_ := [recA, recB], sessionHandle_ := h } : SnmpSession).queue_ 1 recB).type_
      ≠ .REQ_BULK :=
    hall2 _ (slotAfterErase_mem env _ 1 recB (findRequest_mem hfB) (fun _ h0 => absurd h0 (by simp)))
  obtain ⟨mB, hsB, hinvB, hmB, -⟩ :=
    step_received_ok env recB.pdu_.reqid replyB hinv hfB heB hslotB
  have hmB2 : mB = m := hmB (by simp)
  rw [hmB2] at hsB hinvB
  simp only [List.eraseIdx_cons_succ, List.eraseIdx_cons_zero] at hsB hinvB
  obtain ⟨mBA, hsBA, -, -, hmBA⟩ :=
    step_received_ok env recA.pdu_.reqid replyA hinvB (findRequest_single recA) heA hslotA1
  simp only [List.eraseIdx_cons_zero] at hsBA
  have hrunBA := run_cons_ok env
    (.completion NETSNMP_CALLBACK_OP_RECEIVED_MESSAGE recB.pdu_.reqid replyB)
    [.completion NETSNMP_CALLBACK_OP_RECEIVED_MESSAGE recA.pdu_.reqid replyA]
    { queue_ := [recA, recB], sessionHandle_ := h } m (by rw [hsB])
  rw [hsB] at hrunBA
  simp only at hrunBA
  rw [run_cons_ok env _ [] _ _ (by rw [hsBA]), hsBA, run_nil] at hrunBA
  refine ⟨?_, ?_, ?_⟩
  · rw [hrunBA]
    exact ⟨rfl, rfl, rfl⟩
  · intro hgood
    have hslotA : (slotAfterErase env
        ({ queue_ := [recA, recB], sessionHandle_ := h } : SnmpSession).queue_ 0 recA).type_
        ≠ .REQ_BULK := by
      cases hg : env.frontFreed [recA, recB] with
      | none =>
        exact hall2 _ (slotAfterErase_mem env _ 0 recA (findRequest_mem hfA) (fun _ _ _ => hg))
      | some g =>
        by_cases hb : env.eraseShiftsFront 0 2 = true
        · have : slotAfterErase env [recA, recB] 0 recA = g := by
            simp [slotAfterErase, hb, hg]
          show (slotAfterErase env [recA, recB] 0 recA).type_ ≠ .REQ_BULK
          rw [this]
          exact hgood hb g hg
        · exact hall2 _ (slotAfterErase_mem env _ 0 recA (findRequest_mem hfA)
            (fun h1 => absurd h1 hb))
    obtain ⟨mA, hsA, hinvA, hmA, -⟩ :=
      step_received_ok env recA.pdu_.reqid replyA hinv hfA heA hslotA
    have hmA2 : mA = m := hmA (by simp)
    rw [hmA2] at hsA hinvA
    simp only [List.eraseIdx_cons_zero] at hsA hinvA
    obtain ⟨mAB, hsAB, -, -, hmAB⟩ :=
      step_received_ok env recB.pdu_.reqid replyB hinvA (findRequest_single recB) heB hslotB1
    simp only [List.eraseIdx_cons_zero] at hsAB
    have hsame : mBA = mAB := by
      have e1 := hmBA rfl
      have e2 := hmAB rfl
      simp only at e1 e2
      rw [e1] at e2
      exact Option.some.inj e2
    have hrunAB := run_cons_ok env
      (.completion NETSNMP_CALLBACK_OP_RECEIVED_MESSAGE recA.pdu_.reqid replyA)
      [.completion NETSNMP_CALLBACK_OP_RECEIVED_MESSAGE recB.pdu_.reqid replyB]
      { queue_ := [recA, recB], sessionHandle_ := h } m (by rw [hsA])
    rw [hsA] at hrunAB
    simp only at hrunAB
    rw [run_cons_ok env _ [] _ _ (by rw [hsAB]), hsAB, run_nil] at hrunAB
    rw [hrunAB, hrunBA, hsame]
    exact ⟨rfl, rfl, rfl, rfl⟩
  · intro hb g hg hgb
    have hslot : slotAfterErase env
        ({ queue_ := [recA, recB], sessionHandle_ := h } : SnmpSession).queue_ 0 recA = g := by
      simp [slotAfterErase, hb, hg]
    obtain ⟨m1, h1, -, -, -⟩ :=
      snmp_cb_proxy_found env NETSNMP_CALLBACK_OP_RECEIVED_MESSAGE recA.pdu_.reqid replyA hinv hfA
    rw [hslot, deliver_bulk env replyA _ _ _ _ heA hgb] at h1
    have hst : step env (.completion NETSNMP_CALLBACK_OP_RECEIVED_MESSAGE recA.pdu_.reqid replyA)
        { queue_ := [recA, recB], sessionHandle_ := h } m
        = { session := { queue_ := [recB], sessionHandle_ := h }, manager := m1,
            effects := Effects.empty,
            failedAssert := some "internal error: inconsistent req_data record" } := by
      simp only [step, h1, List.eraseIdx_cons_zero]
    rw [run_cons_fail env _ _ _ _ "internal error: inconsistent req_data record" (by rw [hst]),
      hst]
    exact ⟨rfl, rfl, rfl⟩

/-- Witness for C3 at the failing input: the GET requests 5 and 6 on an Endpoint
whose first record sits in the last slot of its node. Delivering the reply to
5 first calls nothing and fails the assertion; delivering the reply to 6 first
calls both continuations. -/
theorem completion_order_released_node_witness :
    EndpointInv
      { queue_ := [exampleReq .REQ_GET 5 100, exampleReq .REQ_GET 6 101], sessionHandle_ := 7 }
      (exampleManager 7) ∧
    releasedNodeEnv.eraseShiftsFront 0 2 = true ∧
    (run releasedNodeEnv
        [.completion NETSNMP_CALLBACK_OP_RECEIVED_MESSAGE 5 (exampleReply 5 0),
         .completion NETSNMP_CALLBACK_OP_RECEIVED_MESSAGE 6 (exampleReply 6 0)]
        { queue_ := [exampleReq .REQ_GET 5 100, exampleReq .REQ_GET 6 101], sessionHandle_ := 7 }
        (exampleManager 7)).effects.calls = [] ∧
    (run releasedNodeEnv
        [.completion NETSNMP_CALLBACK_OP_RECEIVED_MESSAGE 5 (exampleReply 5 0),
         .completion NETSNMP_CALLBACK_OP_RECEIVED_MESSAGE 6 (exampleReply 6 0)]
        { queue_ := [exampleReq .REQ_GET 5 100, exampleReq .REQ_GET 6 101], sessionHandle_ := 7 }
        (exampleManager 7)).failedAssert
      = some "internal error: inconsistent req_data record" ∧
    (run releasedNodeEnv
        [.completion NETSNMP_CALLBACK_OP_RECEIVED_MESSAGE 6 (exampleReply 6 0),
         .completion NETSNMP_CALLBACK_OP_RECEIVED_MESSAGE 5 (exampleReply 5 0)]
        { queue_ := [exampleReq .REQ_GET 5 100, exampleReq .REQ_GET 6 101], sessionHandle_ := 7 }
        (exampleManager 7)).effects.calls
      = [{ magic := exampleReq .REQ_GET 6 101, arg0 := .boolean false,
           arg1 := .array ((exampleReply 6 0).variables_.map SnmpResult.New) },
         { magic := exampleReq .REQ_GET 5 100, arg0 := .boolean false,
           arg1 := .array ((exampleReply 5 0).variables_.map SnmpResult.New) }] :=
  ⟨by decide, rfl,
    ((completion_order_released_node releasedNodeEnv (exampleReq .REQ_GET 5 100)
      (exampleReq .REQ_GET 6 101) 7 (exampleManager 7) (exampleReply 5 0) (exampleReply 6 0)
      rfl rfl (by decide) (by decide) rfl rfl).2.2 rfl _ rfl rfl).1,
    ((completion_order_released_node releasedNodeEnv (exampleReq .REQ_GET 5 100)
      (exampleReq .REQ_GET 6 101) 7 (exampleManager 7) (exampleReply 5 0) (exampleReply 6 0)
      rfl rfl (by decide) (by decide) rfl rfl).2.2 rfl _ rfl rfl).2.2,
    (completion_order_released_node releasedNodeEnv (exampleReq .REQ_GET 5 100)
      (exampleReq .REQ_GET 6 101) 7 (exampleManager 7) (exampleReply 5 0) (exampleReply 6 0)
      rfl rfl (by decide) (by decide) rfl rfl).1.1⟩

/-- C4: a completion whose id matches a pending request and whose operation is
not RECEIVED invokes the continuation of that request once with a reason and
`null`; the reason is fixed by the operation code as listed, and the result does
not depend on the PDU passed along. -/
theorem snmp_cb_proxy_failure_reason (env : Env) (operation reqid : Int) (pdu : netsnmp_pdu)
    (s : SnmpSession) (m : SnmpSessionManager)
    (hinv : EndpointInv s m)
    (hpending : ∃ x ∈ s.queue_, x.pdu_.reqid = reqid)
    (hop : operation ≠ NETSNMP_CALLBACK_OP_RECEIVED_MESSAGE) :
    ∃ kReq reason, kReq ∈ s.queue_ ∧ kReq.pdu_.reqid = reqid ∧
      (snmp_cb_proxy env operation reqid pdu s m).effects.calls
        = [{ magic := kReq, arg0 := .symbol reason, arg1 := .null }] ∧
      (snmp_cb_proxy env operation reqid pdu s m).failedAssert = none ∧
      (operation = NETSNMP_CALLBACK_OP_TIMED_OUT → reason = "timeout") ∧
      (operation = NETSNMP_CALLBACK_OP_SEND_FAILED → reason = "send failed") ∧
      (operation = NETSNMP_CALLBACK_OP_CONNECT → reason = "connect failed") ∧
      (operation = NETSNMP_CALLBACK_OP_DISCONNECT → reason = "peer has disconnected") ∧
      (operation ≠ NETSNMP_CALLBACK_OP_TIMED_OUT →
        operation ≠ NETSNMP_CALLBACK_OP_SEND_FAILED →
        operation ≠ NETSNMP_CALLBACK_OP_CONNECT →
        operation ≠ NETSNMP_CALLBACK_OP_DISCONNECT → reason = "unknown snmp error") ∧
      ∀ pdu2 : netsnmp_pdu,
        snmp_cb_proxy env operation reqid pdu2 s m = snmp_cb_proxy env operation reqid pdu s m := by
  obtain ⟨i, kReq, hf⟩ := findRequest_isSome hpending
  obtain ⟨m1, h1, -, -, -⟩ := snmp_cb_proxy_found env operation reqid pdu hinv hf
  refine ⟨kReq, failureMessage operation, findRequest_mem hf, (findRequest_some hf).2.1, ?_, ?_,
    ?_, ?_, ?_, ?_, ?_, ?_⟩
  · rw [h1, deliver_not_received env pdu _ _ _ _ hop]; rfl
  · rw [h1, deliver_not_received env pdu _ _ _ _ hop]
  · rintro rfl; rfl
  · rintro rfl; rfl
  · rintro rfl; rfl
  · rintro rfl; rfl
  · intro a b c d; simp [failureMessage, a, b, c, d]
  · intro pdu2
    simp only [snmp_cb_proxy, hf]
    cases eraseAndDeregister s m i with
    | mk s1 om =>
      cases om with
      | none => rfl
      | some m1 =>
        simp only [deliver_not_received env _ _ _ _ _ hop]
        rfl

/-- Witness for C4: a timeout for the only pending request, with id 5. -/
theorem snmp_cb_proxy_failure_reason_witness :
    EndpointInv { queue_ := [exampleReq .REQ_GET 5 100], sessionHandle_ := 7 }
      (exampleManager 7) ∧
    ∃ kReq reason,
      (snmp_cb_proxy exampleEnv NETSNMP_CALLBACK_OP_TIMED_OUT 5 (examplePdu 5)
          { queue_ := [exampleReq .REQ_GET 5 100], sessionHandle_ := 7 }
          (exampleManager 7)).effects.calls
        = [{ magic := kReq, arg0 := .symbol reason, arg1 := .null }] ∧
      reason = "timeout" := by
  obtain ⟨k, reason, -, -, h3, -, h5, -⟩ :=
    snmp_cb_proxy_failure_reason exampleEnv NETSNMP_CALLBACK_OP_TIMED_OUT 5 (examplePdu 5)
      { queue_ := [exampleReq .REQ_GET 5 100], sessionHandle_ := 7 } (exampleManager 7)
      (by decide) ⟨exampleReq .REQ_GET 5 100, by decide, rfl⟩ (by decide)
  exact ⟨by decide, k, reason, h3, h5 rfl⟩

/-- C5: for a GET or GETNEXT request that is alone in the queue, a RECEIVED
completion for its id with error status zero invokes the continuation with
`false` and an array that has one element per reply variable, in order, whose
`oid` decodes to the sub-identifiers of the variable and whose `value` wraps
its type and bytes; for the single INTEGER variable 1.3.6.1.2.1.1.1.0 = 42 the
decoded array is the one pair of that OID and 42. The sub-identifiers are
taken below `2 ^ 53`, the range in which the conversion to `double` made by
`GetData` is exact; it contains every sub-identifier net-snmp accepts (at most
`2 ^ 32 - 1`). -/
theorem snmp_cb_proxy_success_single (env : Env) (kReq : req_data) (h : Nat)
    (m : SnmpSessionManager) (pdu : netsnmp_pdu)
    (hkind : kReq.type_ = .REQ_GET ∨ kReq.type_ = .REQ_NEXT)
    (hinv : EndpointInv { queue_ := [kReq], sessionHandle_ := h } m)
    (herr : pdu.errstat = SNMP_ERR_NOERROR)
    (hoid : ∀ v ∈ pdu.variables_, ∀ x ∈ v.name, x < 2 ^ 53) :
    ∃ results : List SnmpResult,
      (snmp_cb_proxy env NETSNMP_CALLBACK_OP_RECEIVED_MESSAGE kReq.pdu_.reqid pdu
          { queue_ := [kReq], sessionHandle_ := h } m).effects.calls
        = [{ magic := kReq, arg0 := .boolean false, arg1 := .array results }] ∧
      (snmp_cb_proxy env NETSNMP_CALLBACK_OP_RECEIVED_MESSAGE kReq.pdu_.reqid pdu
          { queue_ := [kReq], sessionHandle_ := h } m).failedAssert = none ∧
      results.length = pdu.variables_.length ∧
      results.map (fun r => (r.oid.GetData, r.value))
        = pdu.variables_.map
            (fun v => (GetDataResult.value (.array v.name),
              ({ type_ := v.type, data_ := v.val } : SnmpValue))) ∧
      (pdu.variables_ =
          [{ name := [1, 3, 6, 1, 2, 1, 1, 1, 0], type := ASN_INTEGER,
             val := bytesLE sizeof_long 42 }] →
        results.map (fun r => (r.oid.GetData, r.value.GetData))
          = [(.value (.array [1, 3, 6, 1, 2, 1, 1, 1, 0]), .value (.int32 42))]) := by
  obtain ⟨m1, h1, -, -, -⟩ :=
    snmp_cb_proxy_found env NETSNMP_CALLBACK_OP_RECEIVED_MESSAGE kReq.pdu_.reqid pdu hinv
      (findRequest_single kReq)
  have hslot : (slotAfterErase env [kReq] 0 kReq).type_ ≠ .REQ_BULK := by
    rw [slotAfterErase_single]
    rcases hkind with hk | hk <;> simp [hk]
  rw [deliver_success env pdu _ _ _ _ herr hslot] at h1
  refine ⟨pdu.variables_.map SnmpResult.New, ?_, ?_, by simp, ?_, ?_⟩
  · rw [h1]; rfl
  · rw [h1]
  · rw [List.map_map]
    apply List.map_congr_left
    intro v hv
    simp only [Function.comp, GetData_oid_exact v (hoid v hv), value_New]
  · intro hv
    rw [hv]
    rfl

/-- Witness for C5: the reply `exampleReply 5 0` to the only pending GET. -/
theorem snmp_cb_proxy_success_single_witness :
    EndpointInv { queue_ := [exampleReq .REQ_GET 5 100], sessionHandle_ := 7 }
      (exampleManager 7) ∧
    ∃ results : List SnmpResult,
      (snmp_cb_proxy exampleEnv NETSNMP_CALLBACK_OP_RECEIVED_MESSAGE 5 (exampleReply 5 0)
          { queue_ := [exampleReq .REQ_GET 5 100], sessionHandle_ := 7 }
          (exampleManager 7)).effects.calls
        = [{ magic := exampleReq .REQ_GET 5 100, arg0 := .boolean false,
             arg1 := .array results }] ∧
      results.map (fun r => (r.oid.GetData, r.value.GetData))
        = [(.value (.array [1, 3, 6, 1, 2, 1, 1, 1, 0]), .value (.int32 42))] := by
  obtain ⟨results, h1, -, -, -, h5⟩ :=
    snmp_cb_proxy_success_single exampleEnv (exampleReq .REQ_GET 5 100) 7 (exampleManager 7)
      (exampleReply 5 0) (Or.inl rfl) (by decide) rfl (by decide)
  exact ⟨by decide, results, h1, h5 rfl⟩

/-- C6, counterexample to the claim as stated: for a pending GETBULK request
with id 5, alone in the queue, the RECEIVED completion with error status zero
invokes no continuation and fails the assertion on the request kind; so it is
not delivered as a success without assertion failure. -/
theorem getbulk_not_delivered :
    (snmp_cb_proxy exampleEnv NETSNMP_CALLBACK_OP_RECEIVED_MESSAGE 5 (examplePdu 5)
        { queue_ := [{ pdu_ := examplePdu 5, type_ := .REQ_BULK, callback_ := 100 }],
          sessionHandle_ := 7 } (exampleManager 7)).effects.calls = [] ∧
    (snmp_cb_proxy exampleEnv NETSNMP_CALLBACK_OP_RECEIVED_MESSAGE 5 (examplePdu 5)
        { queue_ := [{ pdu_ := examplePdu 5, type_ := .REQ_BULK, callback_ := 100 }],
          sessionHandle_ := 7 } (exampleManager 7)).failedAssert
      = some "internal error: inconsistent req_data record" := by
  constructor <;> rfl

/-- C6, amended: GETBULK is not delivered. For a pending request of kind GETBULK
that is the last record of the queue (no earlier record carries its id), and
either the only record or popped at the back by the library, a RECEIVED
completion for its id with error status zero removes the record, deregisters
the Endpoint when the queue became empty and leaves the registry alone
otherwise, invokes no continuation and fails the assertion `internal error:
inconsistent req_data record`. The library of GNU pops the back for the last
record. -/
theorem snmp_cb_proxy_getbulk_last (env : Env) (front : List req_data) (kReq : req_data)
    (h : Nat) (m : SnmpSessionManager) (pdu : netsnmp_pdu)
    (hkind : kReq.type_ = .REQ_BULK)
    (hids : ∀ x ∈ front, x.pdu_.reqid ≠ kReq.pdu_.reqid)
    (hback : front = [] ∨ env.eraseShiftsFront front.length (front.length + 1) = false)
    (hinv : EndpointInv { queue_ := front ++ [kReq], sessionHandle_ := h } m)
    (herr : pdu.errstat = SNMP_ERR_NOERROR) :
    (snmp_cb_proxy env NETSNMP_CALLBACK_OP_RECEIVED_MESSAGE kReq.pdu_.reqid pdu
        { queue_ := front ++ [kReq], sessionHandle_ := h } m).failedAssert
      = some "internal error: inconsistent req_data record" ∧
    (snmp_cb_proxy env NETSNMP_CALLBACK_OP_RECEIVED_MESSAGE kReq.pdu_.reqid pdu
        { queue_ := front ++ [kReq], sessionHandle_ := h } m).effects.calls = [] ∧
    (snmp_cb_proxy env NETSNMP_CALLBACK_OP_RECEIVED_MESSAGE kReq.pdu_.reqid pdu
        { queue_ := front ++ [kReq], sessionHandle_ := h } m).session.queue_ = front ∧
    (front = [] →
      m.removeClient h = some (snmp_cb_proxy env NETSNMP_CALLBACK_OP_RECEIVED_MESSAGE
        kReq.pdu_.reqid pdu { queue_ := front ++ [kReq], sessionHandle_ := h } m).manager) ∧
    (front ≠ [] →
      (snmp_cb_proxy env NETSNMP_CALLBACK_OP_RECEIVED_MESSAGE
        kReq.pdu_.reqid pdu { queue_ := front ++ [kReq], sessionHandle_ := h } m).manager = m) ∧
    libstdcxxShiftsFront front.length (front.length + 1) = false := by
  have hf : findRequest kReq.pdu_.reqid
      ({ queue_ := front ++ [kReq], sessionHandle_ := h } : SnmpSession).queue_
      = some (front.length, kReq) := findRequest_append_last front kReq hids
  obtain ⟨m1, h1, -, h3, h4⟩ :=
    snmp_cb_proxy_found env NETSNMP_CALLBACK_OP_RECEIVED_MESSAGE kReq.pdu_.reqid pdu hinv hf
  have hslot : (slotAfterErase env
      ({ queue_ := front ++ [kReq], sessionHandle_ := h } : SnmpSession).queue_
      front.length kReq).type_ = .REQ_BULK := by
    rcases hback with hnil | hb
    · subst hnil
      show (slotAfterErase env [kReq] 0 kReq).type_ = .REQ_BULK
      rw [slotAfterErase_single]; exact hkind
    · rw [slotAfterErase_last env _ _ kReq (by simpa using hb) (by simp)]
      exact hkind
  rw [deliver_bulk env pdu _ _ _ _ herr hslot] at h1
  rw [h1]
  refine ⟨rfl, rfl, eraseIdx_append_last front kReq, ?_, ?_, libstdcxxShiftsFront_last _ _ rfl⟩
  · intro hnil
    exact h4 (by simp [hnil])
  · intro hne
    exact h3 (by
      simp only [List.length_append, List.length_singleton]
      have : front.length ≠ 0 := fun h0 => hne (List.length_eq_zero.mp h0)
      omega)

/-- Witness for C6 (amended): the GETBULK request 6 is queued behind the GET
request 5 and the library of GNU erases it by popping the back. -/
theorem snmp_cb_proxy_getbulk_last_witness :
    EndpointInv { queue_ := [exampleReq .REQ_GET 5 100] ++ [exampleReq .REQ_BULK 6 101],
                  sessionHandle_ := 7 } (exampleManager 7) ∧
    exampleEnv.eraseShiftsFront 1 2 = false ∧
    (snmp_cb_proxy exampleEnv NETSNMP_CALLBACK_OP_RECEIVED_MESSAGE 6 (exampleReply 6 0)
        { queue_ := [exampleReq .REQ_GET 5 100] ++ [exampleReq .REQ_BULK 6 101],
          sessionHandle_ := 7 } (exampleManager 7)).failedAssert
      = some "internal error: inconsistent req_data record" ∧
    (snmp_cb_proxy exampleEnv NETSNMP_CALLBACK_OP_RECEIVED_MESSAGE 6 (exampleReply 6 0)
        { queue_ := [exampleReq .REQ_GET 5 100] ++ [exampleReq .REQ_BULK 6 101],
          sessionHandle_ := 7 } (exampleManager 7)).effects.calls = [] :=
  ⟨by decide, rfl,
    (snmp_cb_proxy_getbulk_last exampleEnv [exampleReq .REQ_GET 5 100]
      (exampleReq .REQ_BULK 6 101) 7 (exampleManager 7) (exampleReply 6 0) rfl (by decide)
      (Or.inr rfl) (by decide) rfl).1,
    (snmp_cb_proxy_getbulk_last exampleEnv [exampleReq .REQ_GET 5 100]
      (exampleReq .REQ_BULK 6 101) 7 (exampleManager 7) (exampleReply 6 0) rfl (by decide)
      (Or.inr rfl) (by decide) rfl).2.1⟩

/-- C7: a RECEIVED completion whose id matches a pending request and whose
reply has a non-zero error status invokes the continuation of that request
once with the engine's error string for that status and `null`; nothing goes
to the success path, and the result does not depend on the reply variables. -/
theorem snmp_cb_proxy_error_status (env : Env) (reqid : Int) (pdu : netsnmp_pdu)
    (s : SnmpSession) (m : SnmpSessionManager)
    (hinv : EndpointInv s m)
    (hpending : ∃ x ∈ s.queue_, x.pdu_.reqid = reqid)
    (herr : pdu.errstat ≠ SNMP_ERR_NOERROR) :
    ∃ kReq, kReq ∈ s.queue_ ∧ kReq.pdu_.reqid = reqid ∧
      (snmp_cb_proxy env NETSNMP_CALLBACK_OP_RECEIVED_MESSAGE reqid pdu s m).effects.calls
        = [{ magic := kReq, arg0 := .symbol (env.snmp_errstring pdu.errstat), arg1 := .null }] ∧
      (snmp_cb_proxy env NETSNMP_CALLBACK_OP_RECEIVED_MESSAGE reqid pdu s m).effects.fatal = [] ∧
      (snmp_cb_proxy env NETSNMP_CALLBACK_OP_RECEIVED_MESSAGE reqid pdu s m).failedAssert = none ∧
      ∀ vars : List netsnmp_variable_list,
        snmp_cb_proxy env NETSNMP_CALLBACK_OP_RECEIVED_MESSAGE reqid
            { pdu with variables_ := vars } s m
          = snmp_cb_proxy env NETSNMP_CALLBACK_OP_RECEIVED_MESSAGE reqid pdu s m := by
  obtain ⟨i, kReq, hf⟩ := findRequest_isSome hpending
  obtain ⟨m1, h1, -, -, -⟩ :=
    snmp_cb_proxy_found env NETSNMP_CALLBACK_OP_RECEIVED_MESSAGE reqid pdu hinv hf
  refine ⟨kReq, findRequest_mem hf, (findRequest_some hf).2.1, ?_, ?_, ?_, ?_⟩
  · rw [h1, deliver_error_status env pdu _ _ _ _ herr]; rfl
  · rw [h1, deliver_error_status env pdu _ _ _ _ herr]; rfl
  · rw [h1, deliver_error_status env pdu _ _ _ _ herr]
  · intro vars
    have herr2 : ({ pdu with variables_ := vars } : netsnmp_pdu).errstat ≠ SNMP_ERR_NOERROR := herr
    simp only [snmp_cb_proxy, hf]
    cases eraseAndDeregister s m i with
    | mk s1 om =>
      cases om with
      | none => rfl
      | some m1 =>
        simp only [deliver_error_status env _ _ _ _ _ herr,
          deliver_error_status env _ _ _ _ _ herr2]
        rfl

/-- Witness for C7: the reply to the only pending request reports error
status 2. -/
theorem snmp_cb_proxy_error_status_witness :
    EndpointInv { queue_ := [exampleReq .REQ_GET 5 100], sessionHandle_ := 7 }
      (exampleManager 7) ∧
    ∃ kReq,
      (snmp_cb_proxy exampleEnv NETSNMP_CALLBACK_OP_RECEIVED_MESSAGE 5 (exampleReply 5 2)
          { queue_ := [exampleReq .REQ_GET 5 100], sessionHandle_ := 7 }
          (exampleManager 7)).effects.calls
        = [{ magic := kReq,
             arg0 := .symbol "(noSuchName) There is no such variable name in this MIB.",
             arg1 := .null }] := by
  obtain ⟨k, -, -, h3, -⟩ :=
    snmp_cb_proxy_error_status exampleEnv 5 (exampleReply 5 2)
      { queue_ := [exampleReq .REQ_GET 5 100], sessionHandle_ := 7 } (exampleManager 7)
      (by decide) ⟨exampleReq .REQ_GET 5 100, by decide, rfl⟩ (by decide)
  exact ⟨by decide, k, h3⟩

/-- C8: a completion whose id equals the id of no queued record (in particular
any completion on an empty queue) fails the assertion `spurious response
received`, invokes nothing and leaves session and registry as they were;
when some record has the id, that assertion is not the one that fails. -/
theorem snmp_cb_proxy_spurious (env : Env) (operation reqid : Int) (pdu : netsnmp_pdu)
    (s : SnmpSession) (m : SnmpSessionManager) :
    ((∀ x ∈ s.queue_, x.pdu_.reqid ≠ reqid) →
      snmp_cb_proxy env operation reqid pdu s m =
        { session := s, manager := m, effects := Effects.empty,
          failedAssert := some "spurious response received", ret := none }) ∧
    (s.queue_ = [] →
      snmp_cb_proxy env operation reqid pdu s m =
        { session := s, manager := m, effects := Effects.empty,
          failedAssert := some "spurious response received", ret := none }) ∧
    ((∃ x ∈ s.queue_, x.pdu_.reqid = reqid) →
      (snmp_cb_proxy env operation reqid pdu s m).failedAssert
        ≠ some "spurious response received") := by
  have key : (∀ x ∈ s.queue_, x.pdu_.reqid ≠ reqid) →
      snmp_cb_proxy env operation reqid pdu s m =
        { session := s, manager := m, effects := Effects.empty,
          failedAssert := some "spurious response received", ret := none } := by
    intro h
    simp only [snmp_cb_proxy, findRequest_eq_none.mpr h]
  refine ⟨key, ?_, ?_⟩
  · intro hq
    apply key
    simp [hq]
  · intro hpending
    obtain ⟨i, kReq, hf⟩ := findRequest_isSome hpending
    simp only [snmp_cb_proxy, hf]
    cases eraseAndDeregister s m i with
    | mk s1 om =>
      cases om with
      | none => simp
      | some m1 =>
        simp only [deliver]
        split_ifs
        · simp
        · simp
        · split <;> simp

/-- Witness for C8: a completion for id 6 while only request 5 is pending, and
a completion for the pending id 5. -/
theorem snmp_cb_proxy_spurious_witness :
    snmp_cb_proxy exampleEnv NETSNMP_CALLBACK_OP_TIMED_OUT 6 (examplePdu 6)
        { queue_ := [exampleReq .REQ_GET 5 100], sessionHandle_ := 7 } (exampleManager 7)
      = { session := { queue_ := [exampleReq .REQ_GET 5 100], sessionHandle_ := 7 },
          manager := exampleManager 7, effects := Effects.empty,
          failedAssert := some "spurious response received", ret := none } ∧
    (snmp_cb_proxy exampleEnv NETSNMP_CALLBACK_OP_TIMED_OUT 5 (examplePdu 5)
        { queue_ := [exampleReq .REQ_GET 5 100], sessionHandle_ := 7 }
        (exampleManager 7)).failedAssert ≠ some "spurious response received" :=
  ⟨(snmp_cb_proxy_spurious exampleEnv NETSNMP_CALLBACK_OP_TIMED_OUT 6 (examplePdu 6)
      { queue_ := [exampleReq .REQ_GET 5 100], sessionHandle_ := 7 } (exampleManager 7)).1
      (by decide),
    (snmp_cb_proxy_spurious exampleEnv NETSNMP_CALLBACK_OP_TIMED_OUT 5 (examplePdu 5)
      { queue_ := [exampleReq .REQ_GET 5 100], sessionHandle_ := 7 } (exampleManager 7)).2.2
      ⟨exampleReq .REQ_GET 5 100, by decide, rfl⟩⟩

/-- C9: `PerformRequestImpl` enqueues exactly when the engine accepts the
query. A send result of 0 throws `cannot send query` and changes neither the
queue nor the registry; a non-zero result appends one record with the PDU (and
so its id), the kind and the continuation, and registers the handle with the
bridge exactly when the queue was empty before. -/
theorem PerformRequestImpl_enqueue (sent : Int) (aType : req_type) (pdu : netsnmp_pdu)
    (aCallback : Nat) (s : SnmpSession) (m : SnmpSessionManager) :
    (sent = 0 →
      (PerformRequestImpl sent aType pdu aCallback s m).thrown = some "cannot send query" ∧
      (PerformRequestImpl sent aType pdu aCallback s m).session = s ∧
      (PerformRequestImpl sent aType pdu aCallback s m).manager = m) ∧
    (sent ≠ 0 →
      (PerformRequestImpl sent aType pdu aCallback s m).thrown = none ∧
      (PerformRequestImpl sent aType pdu aCallback s m).session.queue_ =
        s.queue_ ++ [{ pdu_ := pdu, type_ := aType, callback_ := aCallback }] ∧
      (PerformRequestImpl sent aType pdu aCallback s m).session.sessionHandle_ =
        s.sessionHandle_ ∧
      (s.queue_ = [] →
        (PerformRequestImpl sent aType pdu aCallback s m).manager
            = m.addClient s.sessionHandle_ ∧
        (PerformRequestImpl sent aType pdu aCallback s m).manager.storage_
            = storage_el.ofHandle s.sessionHandle_ :: m.storage_) ∧
      (s.queue_ ≠ [] → (PerformRequestImpl sent aType pdu aCallback s m).manager = m)) ∧
    ((PerformRequestImpl sent aType pdu aCallback s m).session.queue_ ≠ s.queue_ ↔ sent ≠ 0) := by
  refine ⟨?_, ?_, ?_⟩
  · intro h
    simp [PerformRequestImpl, h]
  · intro h
    refine ⟨by simp [PerformRequestImpl, h], by simp [PerformRequestImpl, h],
      by simp [PerformRequestImpl, h], ?_, ?_⟩
    · intro hq
      constructor
      · simp [PerformRequestImpl, h, hq]
      · simp only [PerformRequestImpl, h, hq, if_false]
        by_cases he : m.storage_.isEmpty <;> simp [SnmpSessionManager.addClient, he]
    · intro hq
      have : s.queue_.length ≠ 0 := by
        intro hc; exact hq (List.length_eq_zero.mp hc)
      simp [PerformRequestImpl, h, this]
  · by_cases h : sent = 0
    · simp [PerformRequestImpl, h]
    · simp [PerformRequestImpl, h]

/-- Witness for C9: a rejected query and an accepted first query on a fresh
Endpoint. -/
theorem PerformRequestImpl_enqueue_witness :
    (PerformRequestImpl 0 .REQ_GET (examplePdu 5) 100 (SnmpSession.fresh 7)
        SnmpSessionManager.fresh).thrown = some "cannot send query" ∧
    (PerformRequestImpl 5 .REQ_GET (examplePdu 5) 100 (SnmpSession.fresh 7)
        SnmpSessionManager.fresh).session.queue_
      = (SnmpSession.fresh 7).queue_ ++ [exampleReq .REQ_GET 5 100] ∧
    (PerformRequestImpl 5 .REQ_GET (examplePdu 5) 100 (SnmpSession.fresh 7)
        SnmpSessionManager.fresh).manager.storage_
      = storage_el.ofHandle 7 :: SnmpSessionManager.fresh.storage_ :=
  ⟨((PerformRequestImpl_enqueue 0 .REQ_GET (examplePdu 5) 100 (SnmpSession.fresh 7)
      SnmpSessionManager.fresh).1 rfl).1,
    ((PerformRequestImpl_enqueue 5 .REQ_GET (examplePdu 5) 100 (SnmpSession.fresh 7)
      SnmpSessionManager.fresh).2.1 (by decide)).2.1,
    (((PerformRequestImpl_enqueue 5 .REQ_GET (examplePdu 5) 100 (SnmpSession.fresh 7)
      SnmpSessionManager.fresh).2.1 (by decide)).2.2.2.1 rfl).2⟩

/-- C10: when the OID argument is malformed, `PerformRequest` throws, hands no
PDU to `snmp_sess_send`, leaves the queue of the session and the registry of
its bridge untouched and creates no clone, whatever the other arguments are;
in particular for a callback and either value of the sync flag. -/
theorem PerformRequest_rejects_malformed_oid (renv : RequestEnv) (aType : req_type)
    (oidArg : List V8Value) (rest : List V8Value) (inst : SnmpSession)
    (m : SnmpSessionManager) (hbad : malformedOid oidArg) :
    (PerformRequest renv aType (.array oidArg :: rest) inst m).thrown ≠ none ∧
    (PerformRequest renv aType (.array oidArg :: rest) inst m).sends = [] ∧
    (PerformRequest renv aType (.array oidArg :: rest) inst m).inst = inst ∧
    (PerformRequest renv aType (.array oidArg :: rest) inst m).manager = m ∧
    (PerformRequest renv aType (.array oidArg :: rest) inst m).clone = none ∧
    (∀ cb : Nat, ∀ sync : Bool,
      ∃ e, PerformRequest renv aType [.array oidArg, .function cb, .boolean sync] inst m
        = PerformResult.throw e inst m) := by
  obtain ⟨e, he⟩ := buildQuery_malformed renv aType hbad
  have hchecked : ∀ cb sync, performChecked renv aType oidArg cb sync inst m
      = PerformResult.throw e inst m := by
    intro cb sync
    simp only [performChecked, he]
  have key : ∃ e2, PerformRequest renv aType (.array oidArg :: rest) inst m
      = PerformResult.throw e2 inst m := by
    match rest with
    | [] => exact ⟨_, rfl⟩
    | [_] => exact ⟨_, rfl⟩
    | a1 :: a2 :: _ =>
      cases a1 <;> first
        | exact ⟨_, rfl⟩
        | (cases a2 <;> first
            | exact ⟨_, rfl⟩
            | exact ⟨e, by simp only [PerformRequest, hchecked]⟩)
  obtain ⟨e2, h2⟩ := key
  rw [h2]
  refine ⟨by simp [PerformResult.throw], rfl, rfl, rfl, rfl, ?_⟩
  intro cb sync
  exact ⟨e, by simp only [PerformRequest, hchecked]⟩

/-- Witness for C10: the flat OID argument `[1, "x"]` in a synchronous call. -/
theorem PerformRequest_rejects_malformed_oid_witness :
    malformedOid [.number 1, .string "x"] ∧
    (PerformRequest exampleRequestEnv .REQ_GET
        (.array [.number 1, .string "x"] :: [.function 100, .boolean true])
        (SnmpSession.fresh 7) SnmpSessionManager.fresh).thrown ≠ none ∧
    (PerformRequest exampleRequestEnv .REQ_GET
        (.array [.number 1, .string "x"] :: [.function 100, .boolean true])
        (SnmpSession.fresh 7) SnmpSessionManager.fresh).sends = [] :=
  have hbad : malformedOid [.number 1, .string "x"] :=
    Or.inr (Or.inl ⟨by simp [V8Value.IsArray], .string "x", by simp, rfl⟩)
  ⟨hbad,
    (PerformRequest_rejects_malformed_oid exampleRequestEnv .REQ_GET
      [.number 1, .string "x"] [.function 100, .boolean true] (SnmpSession.fresh 7)
      SnmpSessionManager.fresh hbad).1,
    (PerformRequest_rejects_malformed_oid exampleRequestEnv .REQ_GET
      [.number 1, .string "x"] [.function 100, .boolean true] (SnmpSession.fresh 7)
      SnmpSessionManager.fresh hbad).2.1⟩

/-! ## Lemmas on the reactor side of the manager -/

theorem prepareLoop_handles (sel : Nat → timeval → Bool → SelectInfo) (es : List storage_el)
    (t : timeval) (b : Bool) :
    (prepareLoop sel es t b).storage.map (fun e => e.snmpHandle_)
      = es.map (fun e => e.snmpHandle_) := by
  induction es generalizing t b with
  | nil => rfl
  | cons e es ih =>
    simp only [prepareLoop]
    split_ifs <;> simp [ih]

theorem prepareLoop_cons_live {sel : Nat → timeval → Bool → SelectInfo}
    {deadline : Nat → Option timeval} {fdOf : Nat → Int}
    (hsel : SelectInfoSpec sel deadline fdOf) (e : storage_el) (es : List storage_el)
    (t : timeval) (b : Bool) (he : e.snmpHandle_ ≠ 0) :
    (prepareLoop sel (e :: es) t b).failedAssert
      = (prepareLoop sel es (sel e.snmpHandle_ t b).timeout
          (sel e.snmpHandle_ t b).block).failedAssert ∧
    (prepareLoop sel (e :: es) t b).block
      = (prepareLoop sel es (sel e.snmpHandle_ t b).timeout (sel e.snmpHandle_ t b).block).block ∧
    (prepareLoop sel (e :: es) t b).timeout
      = (prepareLoop sel es (sel e.snmpHandle_ t b).timeout
          (sel e.snmpHandle_ t b).block).timeout := by
  have hi := hsel e.snmpHandle_ t b
  have h1 : (sel e.snmpHandle_ t b).retval = 1 := by rw [hi]
  have h2 : (sel e.snmpHandle_ t b).nfds - 1 ∈ (sel e.snmpHandle_ t b).readSet := by
    rw [hi]; simp
  have h3 : ¬ ∃ fd ∈ (sel e.snmpHandle_ t b).readSet, fd ≠ (sel e.snmpHandle_ t b).nfds - 1 := by
    rw [hi]; simp
  simp [prepareLoop, he, h1, h2, h3]

theorem prepareLoop_spec {sel : Nat → timeval → Bool → SelectInfo}
    {deadline : Nat → Option timeval} {fdOf : Nat → Int}
    (hsel : SelectInfoSpec sel deadline fdOf) (es : List storage_el) (t : timeval) (b : Bool) :
    (prepareLoop sel es t b).failedAssert = none ∧
    ((prepareLoop sel es t b).block = true ↔ b = true ∧ liveDeadlines deadline es = []) ∧
    ((prepareLoop sel es t b).block = false →
      (∀ d ∈ liveDeadlines deadline es,
        (prepareLoop sel es t b).timeout.toSeconds ≤ d.toSeconds) ∧
      (b = false → (prepareLoop sel es t b).timeout.toSeconds ≤ t.toSeconds) ∧
      ((prepareLoop sel es t b).timeout ∈ liveDeadlines deadline es ∨
        (b = false ∧ (prepareLoop sel es t b).timeout = t))) := by
  induction es generalizing t b with
  | nil =>
    refine ⟨rfl, ?_, ?_⟩
    · simp [prepareLoop, liveDeadlines]
    · intro hb
      have hb2 : b = false := hb
      refine ⟨fun d hd => ?_, fun _ => le_refl _, Or.inr ⟨hb2, rfl⟩⟩
      simp [liveDeadlines] at hd
  | cons e es ih =>
    by_cases he : e.snmpHandle_ = 0
    · have hl : liveDeadlines deadline (e :: es) = liveDeadlines deadline es := by
        simp [liveDeadlines, he]
      simp only [prepareLoop, he, if_true, hl]
      exact ih t b
    · have hi := hsel e.snmpHandle_ t b
      obtain ⟨hs1, hs2, hs3⟩ := prepareLoop_cons_live hsel e es t b he
      rw [hs1, hs2, hs3]
      cases hd : deadline e.snmpHandle_ with
      | none =>
        have hl : liveDeadlines deadline (e :: es) = liveDeadlines deadline es := by
          simp [liveDeadlines, he, hd]
        have ht : (sel e.snmpHandle_ t b).timeout = t := by rw [hi]; simp [hd]
        have hb : (sel e.snmpHandle_ t b).block = b := by rw [hi]; simp [hd]
        rw [ht, hb, hl]
        exact ih t b
      | some d =>
        have hl : liveDeadlines deadline (e :: es) = d :: liveDeadlines deadline es := by
          simp [liveDeadlines, he, hd]
        have hb : (sel e.snmpHandle_ t b).block = false := by rw [hi]; simp [hd]
        have ht : (sel e.snmpHandle_ t b).timeout
            = if b = true ∨ d.toSeconds < t.toSeconds then d else t := by rw [hi]; simp [hd]
        obtain ⟨ih1, ih2, ih3⟩ := ih (sel e.snmpHandle_ t b).timeout (sel e.snmpHandle_ t b).block
        rw [hb] at ih1 ih2 ih3
        have hblock : (prepareLoop sel es (sel e.snmpHandle_ t b).timeout false).block = false := by
          cases hc : (prepareLoop sel es (sel e.snmpHandle_ t b).timeout false).block with
          | false => rfl
          | true => exact absurd (ih2.mp hc).1 (by simp)
        rw [hb, hl]
        refine ⟨ih1, ?_, ?_⟩
        · simp [hblock]
        · intro _
          obtain ⟨h1, h2, h3⟩ := ih3 hblock
          have h2' := h2 rfl
          have hle_d : (sel e.snmpHandle_ t b).timeout.toSeconds ≤ d.toSeconds := by
            rw [ht]; split_ifs with hc
            · exact le_refl _
            · push_neg at hc; exact hc.2
          refine ⟨?_, ?_, ?_⟩
          · intro x hx
            simp only [List.mem_cons] at hx
            rcases hx with rfl | hx
            · exact le_trans h2' hle_d
            · exact h1 x hx
          · intro hbf
            refine le_trans h2' ?_
            rw [ht]; split_ifs with hc
            · rcases hc with hc | hc
              · rw [hbf] at hc; cases hc
              · exact le_of_lt hc
            · exact le_refl _
          · rcases h3 with h3 | ⟨-, h3⟩
            · exact Or.inl (List.mem_cons_of_mem _ h3)
            · rw [h3, ht]
              split_ifs with hc
              · exact Or.inl (List.mem_cons_self _ _)
              · push_neg at hc
                right
                refine ⟨?_, rfl⟩
                cases b with
                | false => rfl
                | true => exact absurd rfl hc.1

theorem flagFirst_eq_none {a : Nat} {st : List storage_el} :
    flagFirst a st = none ↔ ∀ e ∈ st, e.snmpHandle_ ≠ a := by
  induction st with
  | nil => simp [flagFirst]
  | cons e es ih =>
    by_cases he : e.snmpHandle_ = a
    · simp [flagFirst, he]
    · simp [flagFirst, he, ih]

theorem flagFirst_eq_some {a : Nat} {st st1 : List storage_el} (h : flagFirst a st = some st1) :
    ∃ pre e post, st = pre ++ e :: post ∧ e.snmpHandle_ = a ∧
      (∀ x ∈ pre, x.snmpHandle_ ≠ a) ∧ st1 = pre ++ { e with snmpHandle_ := 0 } :: post := by
  induction st generalizing st1 with
  | nil => simp [flagFirst] at h
  | cons e es ih =>
    by_cases he : e.snmpHandle_ = a
    · simp only [flagFirst, he, if_true, Option.some.injEq] at h
      exact ⟨[], e, es, rfl, he, by simp, by simp [← h]⟩
    · simp only [flagFirst, he, if_false, Option.map_eq_some'] at h
      obtain ⟨st2, h1, rfl⟩ := h
      obtain ⟨pre, x, post, h2, h3, h4, h5⟩ := ih h1
      refine ⟨e :: pre, x, post, by simp [h2], h3, ?_, by simp [h5]⟩
      intro y hy
      simp only [List.mem_cons] at hy
      rcases hy with rfl | hy
      · exact he
      · exact h4 y hy

theorem removeClient_fields {m m1 : SnmpSessionManager} {a : Nat}
    (h : m.removeClient a = some m1) :
    m1.prepareStarted = m.prepareStarted ∧ m1.checkStarted = m.checkStarted ∧
    m1.timeout_active_ = m.timeout_active_ ∧ flagFirst a m.storage_ = some m1.storage_ := by
  simp only [SnmpSessionManager.removeClient, Option.map_eq_some'] at h
  obtain ⟨st, h1, rfl⟩ := h
  exact ⟨rfl, rfl, rfl, h1⟩

theorem addClient_fields (m : SnmpSessionManager) (a : Nat) :
    (m.addClient a).storage_ = storage_el.ofHandle a :: m.storage_ ∧
    (m.addClient a).timeout_active_ = m.timeout_active_ ∧
    (m.storage_ = [] → (m.addClient a).prepareStarted = true ∧
      (m.addClient a).checkStarted = true) ∧
    (m.storage_ ≠ [] → (m.addClient a).prepareStarted = m.prepareStarted ∧
      (m.addClient a).checkStarted = m.checkStarted) := by
  unfold SnmpSessionManager.addClient
  cases hs : m.storage_ with
  | nil => simp [hs]
  | cons e es => simp [hs]

theorem ClientOp.apply_nonempty {op : ClientOp} {m m1 : SnmpSessionManager}
    (hne : m.storage_ ≠ []) (h : op.apply m = some m1) :
    m1.storage_ ≠ [] ∧ m1.storage_.length ≥ m.storage_.length ∧
    m1.prepareStarted = m.prepareStarted ∧
    m1.checkStarted = m.checkStarted ∧ m1.timeout_active_ = m.timeout_active_ ∧
    (∀ x ∈ m1.storage_, x.snmpHandle_ = 0 ∨ (∃ y ∈ m.storage_, x.snmpHandle_ = y.snmpHandle_) ∨
      op = .addClient x.snmpHandle_) := by
  cases op with
  | addClient a =>
    simp only [ClientOp.apply, Option.some.injEq] at h
    subst h
    obtain ⟨h1, h2, -, h4⟩ := addClient_fields m a
    refine ⟨by simp [h1], by simp [h1], (h4 hne).1, (h4 hne).2, h2, ?_⟩
    intro x hx
    rw [h1] at hx
    simp only [List.mem_cons] at hx
    rcases hx with rfl | hx
    · exact Or.inr (Or.inr rfl)
    · exact Or.inr (Or.inl ⟨x, hx, rfl⟩)
  | removeClient a =>
    simp only [ClientOp.apply] at h
    obtain ⟨h1, h2, h3, h4⟩ := removeClient_fields h
    obtain ⟨pre, e, post, h5, -, -, h6⟩ := flagFirst_eq_some h4
    refine ⟨by simp [h6], by simp [h5, h6], h1, h2, h3, ?_⟩
    intro x hx
    rw [h6] at hx
    simp only [List.mem_append, List.mem_cons] at hx
    rcases hx with hx | rfl | hx
    · exact Or.inr (Or.inl ⟨x, by simp [h5, hx], rfl⟩)
    · exact Or.inl rfl
    · exact Or.inr (Or.inl ⟨x, by simp [h5, hx], rfl⟩)

theorem applyOps_nonempty {ops : List ClientOp} {m m1 : SnmpSessionManager}
    (hne : m.storage_ ≠ []) (h : applyOps ops m = some m1) :
    m1.storage_ ≠ [] ∧ m1.storage_.length ≥ m.storage_.length ∧
    m1.prepareStarted = m.prepareStarted ∧
    m1.checkStarted = m.checkStarted ∧ m1.timeout_active_ = m.timeout_active_ ∧
    (∀ x ∈ m1.storage_, x.snmpHandle_ = 0 ∨ (∃ y ∈ m.storage_, x.snmpHandle_ = y.snmpHandle_) ∨
      .addClient x.snmpHandle_ ∈ ops) := by
  induction ops generalizing m with
  | nil =>
    simp only [applyOps, Option.some.injEq] at h
    subst h
    exact ⟨hne, le_refl _, rfl, rfl, rfl, fun x hx => Or.inr (Or.inl ⟨x, hx, rfl⟩)⟩
  | cons op ops ih =>
    simp only [applyOps] at h
    cases hop : op.apply m with
    | none => simp [hop] at h
    | some m2 =>
      simp only [hop] at h
      obtain ⟨a1, a2, a3, a4, a5, a6⟩ := ClientOp.apply_nonempty hne hop
      obtain ⟨b1, b2, b3, b4, b5, b6⟩ := ih a1 h
      refine ⟨b1, le_trans a2 b2, b3.trans a3, b4.trans a4, b5.trans a5, ?_⟩
      intro x hx
      rcases b6 x hx with h0 | ⟨y, hy, hxy⟩ | hadd
      · exact Or.inl h0
      · rcases a6 y hy with h0 | ⟨z, hz, hyz⟩ | hadd
        · exact Or.inl (hxy.trans h0)
        · exact Or.inr (Or.inl ⟨z, hz, hxy.trans hyz⟩)
        · exact Or.inr (Or.inr (by rw [hxy]; simp [hadd]))
      · exact Or.inr (Or.inr (List.mem_cons_of_mem _ hadd))

theorem handlerCallFor_handle (e : storage_el) (rs : List Int) :
    (handlerCallFor e rs).handle = e.snmpHandle_ := by
  unfold handlerCallFor
  split_ifs <;> rfl

theorem getElem?_lt_of_eq_some {α : Type} {l : List α} {i : Nat} {a : α}
    (h : l[i]? = some a) : i < l.length := by
  by_contra hc
  rw [List.getElem?_eq_none (by omega)] at h
  cases h

theorem visitEntry_invariant {σ : Type} (eng : Engine σ) (n : Nat)
    (I : σ → SnmpSessionManager → Prop) (E : Effects → Prop)
    (hE0 : E Effects.empty)
    (hmono : ∀ w m st, I w m →
      (∀ x ∈ st, ∃ y ∈ m.storage_, x.snmpHandle_ = y.snmpHandle_) →
      I w { m with storage_ := st })
    (hstep : ∀ (w : σ) (m : SnmpSessionManager) (c : HandlerCall),
      I w m → c.handle ≠ 0 → (∃ e ∈ m.storage_, e.snmpHandle_ = c.handle) →
      E (eng.call c w m).effects ∧
        (∀ m1, applyOps (eng.call c w m).ops m = some m1 → I (eng.call c w m).state m1) ∧
        (applyOps (eng.call c w m).ops m = none → I (eng.call c w m).state m))
    (k : Nat) (rs : List Int) (w : σ) (m : SnmpSessionManager) (hI : I w m) :
    I (visitEntry eng n k rs w m).state (visitEntry eng n k rs w m).manager ∧
    E (visitEntry eng n k rs w m).effects := by
  unfold visitEntry
  simp only
  cases hget : m.storage_[m.storage_.length - (k + 1)]? with
  | none => exact ⟨hI, hE0⟩
  | some e =>
    simp only
    have hemem : e ∈ m.storage_ := List.mem_iff_getElem?.mpr ⟨_, hget⟩
    have hi_lt := getElem?_lt_of_eq_some hget
    by_cases he : e.snmpHandle_ = 0
    · simp only [he, if_true]
      exact ⟨hmono w m _ hI (fun x hx => ⟨x, List.mem_of_mem_eraseIdx hx, rfl⟩), hE0⟩
    · simp only [he, if_false]
      have hI0 := hmono w m (m.storage_.set (m.storage_.length - (k + 1))
        ({ e with io_watcher_ := e.io_watcher_.clearPending } : storage_el)) hI
        (fun x hx => by
          rcases List.mem_or_eq_of_mem_set hx with hx | rfl
          · exact ⟨x, hx, rfl⟩
          · exact ⟨e, hemem, rfl⟩)
      obtain ⟨hEh, hI1, hI2⟩ := hstep w _ (handlerCallFor e rs) hI0
        (by rw [handlerCallFor_handle]; exact he)
        ⟨_, List.mem_set _ _ hi_lt _, by rw [handlerCallFor_handle]⟩
      split
      · rename_i hap
        exact ⟨hI2 hap, hEh⟩
      · rename_i m1 hap
        have hIm1 := hI1 m1 hap
        split
        · exact ⟨hIm1, hEh⟩
        · split
          · exact ⟨hIm1, hEh⟩
          · rename_i e1 hget1
            have he1mem : e1 ∈ m1.storage_ := List.mem_iff_getElem?.mpr ⟨_, hget1⟩
            split_ifs with h0
            · exact ⟨hmono _ m1 _ hIm1 (fun x hx => ⟨x, List.mem_of_mem_eraseIdx hx, rfl⟩), hEh⟩
            · refine ⟨hmono _ m1 _ hIm1 (fun x hx => ?_), hEh⟩
              rcases List.mem_or_eq_of_mem_set hx with hx | rfl
              · exact ⟨x, hx, rfl⟩
              · exact ⟨e1, he1mem, rfl⟩

theorem checkLoop_invariant {σ : Type} (eng : Engine σ) (n : Nat)
    (I : σ → SnmpSessionManager → Prop) (E : Effects → Prop)
    (hE0 : E Effects.empty) (hEapp : ∀ a b, E a → E b → E (a.append b))
    (hmono : ∀ w m st, I w m →
      (∀ x ∈ st, ∃ y ∈ m.storage_, x.snmpHandle_ = y.snmpHandle_) →
      I w { m with storage_ := st })
    (hstep : ∀ (w : σ) (m : SnmpSessionManager) (c : HandlerCall),
      I w m → c.handle ≠ 0 → (∃ e ∈ m.storage_, e.snmpHandle_ = c.handle) →
      E (eng.call c w m).effects ∧
        (∀ m1, applyOps (eng.call c w m).ops m = some m1 → I (eng.call c w m).state m1) ∧
        (applyOps (eng.call c w m).ops m = none → I (eng.call c w m).state m))
    (k : Nat) (rs : List Int) (w : σ) (m : SnmpSessionManager) (hI : I w m) :
    I (checkLoop eng n k rs w m).state (checkLoop eng n k rs w m).manager ∧
    E (checkLoop eng n k rs w m).effects := by
  induction k generalizing rs w m with
  | zero => exact ⟨hI, hE0⟩
  | succ k ih =>
    have hv := visitEntry_invariant eng n I E hE0 hmono hstep k rs w m hI
    unfold checkLoop
    simp only
    split
    · exact hv
    · have := ih (visitEntry eng n k rs w m).readSet _ _ hv.1
      exact ⟨this.1, hEapp _ _ hv.2 this.2⟩

theorem mem_liveDeadlines {deadline : Nat → Option timeval} {st : List storage_el} {d : timeval} :
    d ∈ liveDeadlines deadline st ↔
      ∃ e ∈ st, e.snmpHandle_ ≠ 0 ∧ deadline e.snmpHandle_ = some d := by
  simp only [liveDeadlines, List.mem_filterMap, List.mem_filter, decide_eq_true_eq]
  constructor
  · rintro ⟨e, ⟨h1, h2⟩, h3⟩
    exact ⟨e, h1, h2, h3⟩
  · rintro ⟨e, h1, h2, h3⟩
    exact ⟨e, ⟨h1, h2⟩, h3⟩

theorem prepare_cb_impl_fields (sel : Nat → timeval → Bool → SelectInfo) (t0 : timeval)
    (m : SnmpSessionManager) :
    (prepare_cb_impl sel t0 m).manager.storage_.map (fun e => e.snmpHandle_)
      = m.storage_.map (fun e => e.snmpHandle_) ∧
    (prepare_cb_impl sel t0 m).manager.prepareStarted = m.prepareStarted ∧
    (prepare_cb_impl sel t0 m).manager.checkStarted = m.checkStarted := by
  unfold prepare_cb_impl
  split_ifs with h0
  · exact ⟨rfl, rfl, rfl⟩
  · simp only
    split
    · exact ⟨prepareLoop_handles sel _ _ _, rfl, rfl⟩
    · split_ifs <;> exact ⟨prepareLoop_handles sel _ _ _, rfl, rfl⟩


theorem exampleSelectInfo_spec : SelectInfoSpec exampleSelectInfo exampleDeadline exampleFd :=
  fun _ _ _ => rfl

theorem visitEntry_erased {σ : Type} (eng : Engine σ) (n k : Nat) (rs : List Int) (w : σ)
    (m : SnmpSessionManager) :
    ∀ v ∈ (visitEntry eng n k rs w m).visit, ∀ x ∈ v.erased, x.snmpHandle_ = 0 := by
  unfold visitEntry
  simp only
  split
  · simp
  · rename_i e hget
    split_ifs with he
    · intro v hv x hx
      simp only [Option.mem_def, Option.some.injEq] at hv
      subst hv
      simp only [Option.mem_def, Option.some.injEq] at hx
      subst hx
      exact he
    · split
      · intro v hv x hx
        simp only [Option.mem_def, Option.some.injEq] at hv
        subst hv
        simp at hx
      · split
        · intro v hv x hx
          simp only [Option.mem_def, Option.some.injEq] at hv
          subst hv
          simp at hx
        · split
          · intro v hv x hx
            simp only [Option.mem_def, Option.some.injEq] at hv
            subst hv
            simp at hx
          · split_ifs with h0
            · intro v hv x hx
              simp only [Option.mem_def, Option.some.injEq] at hv
              subst hv
              simp only [Option.mem_def, Option.some.injEq] at hx
              subst hx
              exact h0
            · intro v hv x hx
              simp only [Option.mem_def, Option.some.injEq] at hv
              subst hv
              simp at hx

theorem checkLoop_erased {σ : Type} (eng : Engine σ) (n k : Nat) (rs : List Int) (w : σ)
    (m : SnmpSessionManager) :
    ∀ v ∈ (checkLoop eng n k rs w m).visits, ∀ x ∈ v.erased, x.snmpHandle_ = 0 := by
  induction k generalizing rs w m with
  | zero => simp [checkLoop]
  | succ k ih =>
    have hv := visitEntry_erased eng n k rs w m
    unfold checkLoop
    simp only
    split
    · intro v hmem
      exact hv v (by simpa using hmem)
    · intro v hmem
      simp only [List.mem_append, Option.mem_toList] at hmem
      rcases hmem with hmem | hmem
      · exact hv v hmem
      · exact ih _ _ _ v hmem

theorem check_cb_impl_visits {σ : Type} (eng : Engine σ) (w : σ) (m : SnmpSessionManager) :
    (check_cb_impl eng w m).visits
      = (checkLoop eng m.storage_.length m.storage_.length [] w
          (if m.timeout_active_ = true then { m with timeout_active_ := false } else m)).visits := by
  unfold check_cb_impl
  simp only
  have hlen : (if m.timeout_active_ = true then { m with timeout_active_ := false } else m).storage_
      = m.storage_ := by split_ifs <;> rfl
  rw [hlen]
  split
  · rfl
  · split_ifs <;> rfl

theorem checkLoop_hooks {σ : Type} (eng : Engine σ) (n k : Nat) (rs : List Int) (w : σ)
    (m : SnmpSessionManager) :
    (checkLoop eng n k rs w m).manager.prepareStarted = m.prepareStarted ∧
    (checkLoop eng n k rs w m).manager.checkStarted = m.checkStarted ∧
    (checkLoop eng n k rs w m).manager.timeout_active_ = m.timeout_active_ := by
  have h := checkLoop_invariant eng n
    (fun _ m1 => m1.prepareStarted = m.prepareStarted ∧ m1.checkStarted = m.checkStarted ∧
      m1.timeout_active_ = m.timeout_active_)
    (fun _ => True) trivial (fun _ _ _ _ => trivial)
    (fun _ _ _ hI _ => hI)
    (fun w1 m1 c hI _ hmem => by
      refine ⟨trivial, ?_, fun _ => hI⟩
      intro m2 hap
      obtain ⟨e, he, -⟩ := hmem
      obtain ⟨-, -, a3, a4, a5, -⟩ := applyOps_nonempty (List.ne_nil_of_mem he) hap
      exact ⟨a3.trans hI.1, a4.trans hI.2.1, a5.trans hI.2.2⟩)
    k rs w m ⟨rfl, rfl, rfl⟩
  exact h.1

theorem check_cb_impl_hooks {σ : Type} (eng : Engine σ) (w : σ) (m : SnmpSessionManager) :
    (check_cb_impl eng w m).manager.timeout_active_ = false ∧
    ((check_cb_impl eng w m).failedAssert = none →
      ((check_cb_impl eng w m).manager.storage_ = [] →
        (check_cb_impl eng w m).manager.prepareStarted = false ∧
        (check_cb_impl eng w m).manager.checkStarted = false) ∧
      ((check_cb_impl eng w m).manager.storage_ ≠ [] →
        (check_cb_impl eng w m).manager.prepareStarted = m.prepareStarted ∧
        (check_cb_impl eng w m).manager.checkStarted = m.checkStarted)) := by
  have hm0 : (if m.timeout_active_ = true then { m with timeout_active_ := false } else m)
      = { m with timeout_active_ := false } := by
    split_ifs with h
    · rfl
    · cases m
      simp only [Bool.not_eq_true] at h
      simp [h]
  obtain ⟨h1, h2, h3⟩ := checkLoop_hooks eng m.storage_.length m.storage_.length [] w
    { m with timeout_active_ := false }
  unfold check_cb_impl
  simp only [hm0]
  split
  · rename_i a hfa
    refine ⟨h3, ?_⟩
    intro hc
    rw [hfa] at hc
    cases hc
  · rename_i hfa
    split_ifs with he
    · refine ⟨h3, fun _ => ⟨fun _ => ⟨rfl, rfl⟩, fun hne => ?_⟩⟩
      simp only at hne
      exact absurd (List.isEmpty_iff.mp he) hne
    · refine ⟨h3, fun _ => ⟨fun hnil => ?_, fun _ => ⟨h1, h2⟩⟩⟩
      rw [hnil] at he
      simp at he

theorem prepareLoop_failedAssert (sel : Nat → timeval → Bool → SelectInfo)
    (es : List storage_el) (t : timeval) (b : Bool) (a : String)
    (h : (prepareLoop sel es t b).failedAssert = some a) :
    a = "retval == 1" ∨ a = "FD_ISSET((nfds - 1), &readSet)" ∨
      a = "!memcmp(&readSet, zero, sizeof(fd_set))" := by
  induction es generalizing t b with
  | nil => simp [prepareLoop] at h
  | cons e es ih =>
    by_cases h0 : e.snmpHandle_ = 0
    · simp only [prepareLoop, h0, if_true] at h
      exact ih _ _ h
    · simp only [prepareLoop, h0, if_false] at h
      by_cases h1 : (sel e.snmpHandle_ t b).retval ≠ 1
      · rw [if_pos h1] at h
        simp only [Option.some.injEq] at h
        exact Or.inl h.symm
      · rw [if_neg h1] at h
        by_cases h2 : (sel e.snmpHandle_ t b).nfds - 1 ∉ (sel e.snmpHandle_ t b).readSet
        · rw [if_pos h2] at h
          simp only [Option.some.injEq] at h
          exact Or.inr (Or.inl h.symm)
        · rw [if_neg h2] at h
          by_cases h3 : ∃ fd ∈ (sel e.snmpHandle_ t b).readSet,
              fd ≠ (sel e.snmpHandle_ t b).nfds - 1
          · rw [if_pos h3] at h
            simp only [Option.some.injEq] at h
            exact Or.inr (Or.inr h.symm)
          · rw [if_neg h3] at h
            exact ih _ _ h

theorem prepare_cb_nonempty (sel : Nat → timeval → Bool → SelectInfo) (t0 : timeval)
    (m : SnmpSessionManager) (hs : m.storage_ ≠ []) :
    (prepare_cb sel t0 m).failedAssert ≠ some "!data->selfPtr_->storage_.empty()" ∧
    (prepare_cb sel t0 m).failedAssert ≠ some "!this->storage_.empty()" := by
  have hempty : m.storage_.isEmpty = false := by
    cases hst : m.storage_ with
    | nil => exact absurd hst hs
    | cons a as => rfl
  have key : ∀ a, (prepare_cb sel t0 m).failedAssert = some a →
      a = "retval == 1" ∨ a = "FD_ISSET((nfds - 1), &readSet)" ∨
        a = "!memcmp(&readSet, zero, sizeof(fd_set))" := by
    intro a ha
    simp only [prepare_cb, hempty, Bool.false_eq_true, if_false, prepare_cb_impl] at ha
    cases hfa : (prepareLoop sel m.storage_ t0 true).failedAssert with
    | none =>
      rw [hfa] at ha
      simp only at ha
      split_ifs at ha
    | some a2 =>
      rw [hfa] at ha
      simp only [Option.some.injEq] at ha
      subst ha
      exact prepareLoop_failedAssert sel _ _ _ _ hfa
  constructor
  · intro hc
    rcases key _ hc with h | h | h <;> exact absurd h (by decide)
  · intro hc
    rcases key _ hc with h | h | h <;> exact absurd h (by decide)

/-! ## Lemmas on handlers that change the registry during the check pass -/

theorem FlagRel.refl (x : storage_el) : FlagRel x x := Or.inl rfl

theorem FlagRel.trans {x y z : storage_el} (h1 : FlagRel x y) (h2 : FlagRel y z) : FlagRel x z := by
  rcases h1 with rfl | rfl
  · exact h2
  · rcases h2 with rfl | rfl
    · exact Or.inr rfl
    · exact Or.inr rfl

theorem FlagRel.flag (x : storage_el) : FlagRel x { x with snmpHandle_ := 0 } := Or.inr rfl

theorem FlagRel.watcher {x y : storage_el} (h : FlagRel x y) : y.io_watcher_ = x.io_watcher_ := by
  rcases h with rfl | rfl <;> rfl

theorem FlagRel.handle {x y : storage_el} (h : FlagRel x y) :
    y.snmpHandle_ = x.snmpHandle_ ∨ y.snmpHandle_ = 0 := by
  rcases h with rfl | rfl
  · exact Or.inl rfl
  · exact Or.inr rfl

theorem FlagRel.eq_of_live {x y : storage_el} (h : FlagRel x y) (hy : y.snmpHandle_ ≠ 0) :
    y = x := by
  rcases h with rfl | rfl
  · rfl
  · exact absurd rfl hy

theorem forall₂_FlagRel_refl (l : List storage_el) : List.Forall₂ FlagRel l l :=
  List.forall₂_same.mpr (fun x _ => FlagRel.refl x)

theorem forall₂_FlagRel_trans {l1 l2 l3 : List storage_el}
    (h1 : List.Forall₂ FlagRel l1 l2) (h2 : List.Forall₂ FlagRel l2 l3) :
    List.Forall₂ FlagRel l1 l3 := by
  induction h1 generalizing l3 with
  | nil =>
    cases h2
    exact List.Forall₂.nil
  | cons hab _ ih =>
    cases h2 with
    | cons hbc h2 => exact List.Forall₂.cons (hab.trans hbc) (ih h2)

theorem forall₂_split {α β : Type} {R : α → β → Prop} {a : List α} {b : α} {c : List α}
    {l : List β} (h : List.Forall₂ R (a ++ b :: c) l) :
    ∃ a1 b1 c1, l = a1 ++ b1 :: c1 ∧ List.Forall₂ R a a1 ∧ R b b1 ∧ List.Forall₂ R c c1 := by
  induction a generalizing l with
  | nil =>
    simp only [List.nil_append] at h
    cases h with
    | cons hb hc => exact ⟨[], _, _, rfl, List.Forall₂.nil, hb, hc⟩
  | cons x a ih =>
    simp only [List.cons_append] at h
    cases h with
    | cons hx h =>
      obtain ⟨a1, b1, c1, rfl, h1, h2, h3⟩ := ih h
      exact ⟨_ :: a1, b1, c1, rfl, List.Forall₂.cons hx h1, h2, h3⟩

theorem forall₂_split_append {α β : Type} {R : α → β → Prop} {a c : List α}
    {l : List β} (h : List.Forall₂ R (a ++ c) l) :
    ∃ a1 c1, l = a1 ++ c1 ∧ List.Forall₂ R a a1 ∧ List.Forall₂ R c c1 := by
  induction a generalizing l with
  | nil => exact ⟨[], l, rfl, List.Forall₂.nil, h⟩
  | cons x a ih =>
    simp only [List.cons_append] at h
    cases h with
    | cons hx h =>
      obtain ⟨a1, c1, rfl, h1, h3⟩ := ih h
      exact ⟨_ :: a1, c1, rfl, List.Forall₂.cons hx h1, h3⟩

theorem flagFirst_rel {a : Nat} {st st1 : List storage_el} (h : flagFirst a st = some st1) :
    List.Forall₂ FlagRel st st1 := by
  obtain ⟨pre, e, post, rfl, -, -, rfl⟩ := flagFirst_eq_some h
  exact List.rel_append (forall₂_FlagRel_refl pre)
    (List.Forall₂.cons (FlagRel.flag e) (forall₂_FlagRel_refl post))

theorem findIdx?_flagFirst {a : Nat} {pre post : List storage_el} {e : storage_el}
    (he : e.snmpHandle_ = a) (hpre : ∀ x ∈ pre, x.snmpHandle_ ≠ a) :
    (pre ++ e :: post).findIdx? (fun x => decide (x.snmpHandle_ = a)) = some pre.length := by
  induction pre with
  | nil => simp [List.findIdx?_cons, he]
  | cons x pre ih =>
    have hx : x.snmpHandle_ ≠ a := hpre x (List.mem_cons_self _ _)
    have ih1 := ih (fun y hy => hpre y (List.mem_cons_of_mem _ hy))
    simp only [List.cons_append, List.findIdx?_cons, hx, decide_False, Bool.false_eq_true,
      if_false, List.findIdx?_succ, ih1, Option.map_some', List.length_cons, zero_add]

theorem addedEntries_addClient (a : Nat) (ops : List ClientOp) :
    addedEntries (.addClient a :: ops) = addedEntries ops ++ [storage_el.ofHandle a] := by
  simp [addedEntries, addHandles]

theorem addedEntries_removeClient (a : Nat) (ops : List ClientOp) :
    addedEntries (.removeClient a :: ops) = addedEntries ops := by
  simp [addedEntries, addHandles]

theorem applyOps_split {ops : List ClientOp} {m m1 : SnmpSessionManager}
    {front rest : List storage_el} {e : storage_el}
    (h : applyOps ops m = some m1) (hs : m.storage_ = front ++ e :: rest) :
    ∃ added front1 e1 rest1, m1.storage_ = added ++ front1 ++ e1 :: rest1 ∧
      List.Forall₂ FlagRel (addedEntries ops) added ∧ List.Forall₂ FlagRel front front1 ∧
      FlagRel e e1 ∧ List.Forall₂ FlagRel rest rest1 ∧
      ((∀ t ∈ flagTargets ops m, t = rest.length) →
        added = addedEntries ops ∧ front1 = front ∧ rest1 = rest) := by
  induction ops generalizing m front e rest with
  | nil =>
    simp only [applyOps, Option.some.injEq] at h
    subst h
    exact ⟨[], front, e, rest, by simp [hs], by simp [addedEntries, addHandles],
      forall₂_FlagRel_refl _, FlagRel.refl _, forall₂_FlagRel_refl _,
      fun _ => ⟨by simp [addedEntries, addHandles], rfl, rfl⟩⟩
  | cons op ops ih =>
    cases op with
    | addClient a =>
      simp only [applyOps, ClientOp.apply] at h
      have hst : (m.addClient a).storage_ = (storage_el.ofHandle a :: front) ++ e :: rest := by
        rw [(addClient_fields m a).1, hs]
        rfl
      obtain ⟨added, F, e1, rest1, h1, h2, h3, h4, h5, h6⟩ := ih h hst
      cases h3 with
      | cons hy h3 =>
        rename_i y front1
        refine ⟨added ++ [y], front1, e1, rest1, by simp [h1], ?_, h3, h4, h5, ?_⟩
        · rw [addedEntries_addClient]
          exact List.rel_append h2 (List.Forall₂.cons hy List.Forall₂.nil)
        · intro ht
          obtain ⟨g1, g2, g3⟩ := h6 ht
          simp only [List.cons.injEq] at g2
          rw [addedEntries_addClient, g1, g2.1]
          exact ⟨rfl, g2.2, g3⟩
    | removeClient a =>
      simp only [applyOps, ClientOp.apply] at h
      cases hr : m.removeClient a with
      | none => simp [hr] at h
      | some m2 =>
        simp only [hr] at h
        have hf := (removeClient_fields hr).2.2.2
        have hrel := flagFirst_rel hf
        rw [hs] at hrel
        obtain ⟨f2, e2, r2, hs2, k1, k2, k3⟩ := forall₂_split hrel
        obtain ⟨added, front1, e1, rest1, h1, h2, h3, h4, h5, h6⟩ := ih h hs2
        refine ⟨added, front1, e1, rest1, h1, ?_, forall₂_FlagRel_trans k1 h3, k2.trans h4,
          forall₂_FlagRel_trans k3 h5, ?_⟩
        · rw [addedEntries_removeClient]
          exact h2
        · intro ht
          obtain ⟨pre, x, post, p1, p2, p3, p4⟩ := flagFirst_eq_some hf
          have hidx := @findIdx?_flagFirst _ _ post _ p2 p3
          rw [← p1] at hidx
          have hft : flagTargets (.removeClient a :: ops) m
              = (m.storage_.length - 1 - pre.length) :: flagTargets ops m2 := by
            simp only [flagTargets, hidx, hr]
          rw [hft] at ht
          have t1 := ht _ (List.mem_cons_self _ _)
          have hpl : post.length = rest.length := by
            rw [p1] at t1
            simp only [List.length_append, List.length_cons] at t1
            omega
          have heq : front ++ e :: rest = pre ++ x :: post := hs.symm.trans p1
          have hfl : front.length = pre.length := by
            have := congrArg List.length heq
            simp only [List.length_append, List.length_cons] at this
            omega
          obtain ⟨q1, q2⟩ := List.append_inj heq hfl
          simp only [List.cons.injEq] at q2
          have heq2 : f2 ++ e2 :: r2 = front ++ ({ e with snmpHandle_ := 0 } : storage_el) :: rest := by
            rw [← hs2, p4, q1, q2.1, q2.2]
          obtain ⟨u1, u2⟩ := List.append_inj heq2 k1.length_eq.symm
          simp only [List.cons.injEq] at u2
          obtain ⟨g1, g2, g3⟩ := h6 (fun t ht2 => by
            rw [← k3.length_eq]
            exact ht t (List.mem_cons_of_mem _ ht2))
          rw [addedEntries_removeClient]
          exact ⟨g1, g2.trans u1, g3.trans u2.2⟩

theorem split_index {α : Type} {l front rest : List α} {e : α} {k : Nat}
    (hs : l = front ++ e :: rest) (hk : rest.length = k) :
    l.length - (k + 1) = front.length ∧ l[front.length]? = some e ∧
    (∀ x, l.set front.length x = front ++ x :: rest) ∧
    l.eraseIdx front.length = front ++ rest := by
  subst hs
  refine ⟨?_, ?_, ?_, ?_⟩
  · simp only [List.length_append, List.length_cons]
    omega
  · rw [List.getElem?_append_right (le_refl _)]
    simp
  · intro x
    simp
  · simp [List.eraseIdx_append_of_length_le]

theorem visitEntry_flagged {σ : Type} (eng : Engine σ) (n k : Nat) (rs : List Int) (w : σ)
    (m : SnmpSessionManager) (front rest : List storage_el) (e : storage_el)
    (hs : m.storage_ = front ++ e :: rest) (hk : rest.length = k) (he : e.snmpHandle_ = 0) :
    visitEntry eng n k rs w m =
      { manager := { m with storage_ := front ++ rest }, state := w, effects := Effects.empty,
        visit := some { position := n - (k + 1), behind := k, found := e, call := none,
                        ops := [], flagged := [], stopped := false, erased := some e },
        readSet := rs, failedAssert := none } := by
  obtain ⟨i1, i2, -, i4⟩ := split_index hs hk
  unfold visitEntry
  simp only [i1, i2, he, if_true, i4]

theorem visitEntry_live {σ : Type} (eng : Engine σ) (n k : Nat) (rs : List Int) (w : σ)
    (m : SnmpSessionManager) (front rest : List storage_el) (e : storage_el)
    (hs : m.storage_ = front ++ e :: rest) (hk : rest.length = k) (he : e.snmpHandle_ ≠ 0)
    (m0 : SnmpSessionManager) (H : HandlerResult σ)
    (hm0 : m0 = { m with storage_ :=
      front ++ ({ e with io_watcher_ := e.io_watcher_.clearPending } : storage_el) :: rest })
    (hH : H = eng.call (handlerCallFor e rs) w m0) :
    (applyOps H.ops m0 = none ∧
      visitEntry eng n k rs w m =
        { manager := m0, state := H.state, effects := H.effects,
          visit := some { position := n - (k + 1), behind := k, found := e,
                                  call := some (handlerCallFor e rs), ops := H.ops,
                                  flagged := flagTargets H.ops m0, stopped := false, erased := none },
          readSet := readSetAfter e rs, failedAssert := some "it != storage_.end()" }) ∨
    (∃ m1 a, applyOps H.ops m0 = some m1 ∧ H.failedAssert = some a ∧
      visitEntry eng n k rs w m =
        { manager := m1, state := H.state, effects := H.effects,
          visit := some { position := n - (k + 1), behind := k, found := e,
                                  call := some (handlerCallFor e rs), ops := H.ops,
                                  flagged := flagTargets H.ops m0, stopped := false, erased := none },
          readSet := readSetAfter e rs, failedAssert := some a }) ∨
    (∃ m1 added front1 e1 rest1, applyOps H.ops m0 = some m1 ∧ H.failedAssert = none ∧
      m1.storage_ = added ++ front1 ++ e1 :: rest1 ∧
      List.Forall₂ FlagRel (addedEntries H.ops) added ∧ List.Forall₂ FlagRel front front1 ∧
      FlagRel ({ e with io_watcher_ := e.io_watcher_.clearPending } : storage_el) e1 ∧
      List.Forall₂ FlagRel rest rest1 ∧
      ((∀ t ∈ flagTargets H.ops m0, t = k) →
        added = addedEntries H.ops ∧ front1 = front ∧ rest1 = rest) ∧
      visitEntry eng n k rs w m =
        { manager := { m1 with storage_ :=
            if e1.snmpHandle_ = 0 then added ++ front1 ++ rest1
            else added ++ front1 ++
              ({ e1 with io_watcher_ := e1.io_watcher_.stop } : storage_el) :: rest1 },
          state := H.state, effects := H.effects,
          visit := some { position := n - (k + 1), behind := k, found := e,
                                  call := some (handlerCallFor e rs), ops := H.ops,
                                  flagged := flagTargets H.ops m0, stopped := true,
                                  erased := if e1.snmpHandle_ = 0
                                    then some { e1 with io_watcher_ := e1.io_watcher_.stop } else none },
          readSet := readSetAfter e rs, failedAssert := none }) := by
  obtain ⟨i1, i2, i3, -⟩ := split_index hs hk
  have hm0s : m0.storage_ =
      front ++ ({ e with io_watcher_ := e.io_watcher_.clearPending } : storage_el) :: rest := by
    rw [hm0]
  generalize hv : visitEntry eng n k rs w m = V
  unfold visitEntry at hv
  simp only [i1, i2, he, if_false, i3] at hv
  rw [← hm0, ← hH] at hv
  cases hap : applyOps H.ops m0 with
  | none =>
    rw [hap] at hv
    simp only at hv
    subst hv
    exact Or.inl ⟨rfl, rfl⟩
  | some m1 =>
    rw [hap] at hv
    simp only at hv
    cases hfa : H.failedAssert with
    | some a =>
      rw [hfa] at hv
      simp only at hv
      subst hv
      exact Or.inr (Or.inl ⟨m1, a, rfl, rfl, rfl⟩)
    | none =>
      rw [hfa] at hv
      simp only at hv
      obtain ⟨added, front1, e1, rest1, h1, h2, h3, h4, h5, h6⟩ := applyOps_split hap hm0s
      have hk1 : rest1.length = k := h5.length_eq.symm.trans hk
      have h1' : m1.storage_ = (added ++ front1) ++ e1 :: rest1 := h1
      obtain ⟨j1, j2, j3, j4⟩ := split_index h1' hk1
      refine Or.inr (Or.inr ⟨m1, added, front1, e1, rest1, rfl, rfl, h1, h2, h3, h4, h5, ?_, ?_⟩)
      · intro ht
        exact h6 (fun t h => by rw [hk]; exact ht t h)
      · simp only [j1, j2] at hv
        by_cases h0 : e1.snmpHandle_ = 0
        · simp only [h0, if_true, j4] at hv
          subst hv
          simp only [h0, if_true]
        · simp only [h0, if_false, j3] at hv
          subst hv
          simp only [h0, if_false]

theorem forall₂_getElem? {α β : Type} {R : α → β → Prop} {l1 : List α} {l2 : List β}
    (h : List.Forall₂ R l1 l2) {i : Nat} {y : β} (hy : l2[i]? = some y) :
    ∃ x, l1[i]? = some x ∧ R x y := by
  induction h generalizing i with
  | nil => simp at hy
  | cons hab _ ih =>
    cases i with
    | zero =>
      simp only [List.getElem?_cons_zero, Option.some.injEq] at hy
      subst hy
      exact ⟨_, by simp, hab⟩
    | succ i =>
      simp only [List.getElem?_cons_succ] at hy
      obtain ⟨x, hx, hr⟩ := ih hy
      exact ⟨x, by simpa using hx, hr⟩

theorem addHandles_append (a b : List ClientOp) :
    addHandles (a ++ b) = addHandles a ++ addHandles b := by
  induction a with
  | nil => rfl
  | cons op a ih =>
    cases op with
    | addClient x => simp [addHandles, ih]
    | removeClient x => simp [addHandles, ih]

theorem addedEntries_append (a b : List ClientOp) :
    addedEntries (a ++ b) = addedEntries b ++ addedEntries a := by
  simp [addedEntries, addHandles_append]

theorem addedDuring_cons (v : Visit) (vs : List Visit) :
    addedDuring (v :: vs) = addedDuring vs ++ addedEntries v.ops := by
  simp [addedDuring, addedEntries_append]

theorem checkLoop_succ {σ : Type} (eng : Engine σ) (n k : Nat) (rs : List Int) (w : σ)
    (m : SnmpSessionManager) :
    checkLoop eng n (k + 1) rs w m =
      match (visitEntry eng n k rs w m).failedAssert with
      | some a =>
        { manager := (visitEntry eng n k rs w m).manager,
          state := (visitEntry eng n k rs w m).state,
          effects := (visitEntry eng n k rs w m).effects,
          visits := (visitEntry eng n k rs w m).visit.toList, failedAssert := some a }
      | none =>
        { checkLoop eng n k (visitEntry eng n k rs w m).readSet
            (visitEntry eng n k rs w m).state (visitEntry eng n k rs w m).manager with
          effects := (visitEntry eng n k rs w m).effects.append
            (checkLoop eng n k (visitEntry eng n k rs w m).readSet
              (visitEntry eng n k rs w m).state (visitEntry eng n k rs w m).manager).effects,
          visits := (visitEntry eng n k rs w m).visit.toList ++
            (checkLoop eng n k (visitEntry eng n k rs w m).readSet
              (visitEntry eng n k rs w m).state (visitEntry eng n k rs w m).manager).visits } := by
  rfl

theorem checkLoop_visits {σ : Type} (eng : Engine σ) (n k : Nat) (rs : List Int) (w : σ)
    (m : SnmpSessionManager) (front rest : List storage_el)
    (hs : m.storage_ = front ++ rest) (hk : rest.length = k) (hkn : k ≤ n) :
    (∀ i v, (checkLoop eng n k rs w m).visits[i]? = some v →
      v.position = n - k + i ∧ v.behind = k - 1 - i ∧
      ∃ x, rest[i]? = some x ∧ FlagRel x v.found) ∧
    ((checkLoop eng n k rs w m).failedAssert = none →
      (checkLoop eng n k rs w m).visits.length = k ∧
      ∃ added front1 kept, (checkLoop eng n k rs w m).manager.storage_ = added ++ front1 ++ kept ∧
        List.Forall₂ FlagRel (addedDuring (checkLoop eng n k rs w m).visits) added ∧
        List.Forall₂ FlagRel front front1 ∧
        List.Forall₂ KeptRel
          ((checkLoop eng n k rs w m).visits.filter (fun v => v.erased.isNone)) kept) ∧
    (∀ a, (checkLoop eng n k rs w m).failedAssert = some a →
      ∃ c w1 m1, (eng.call c w1 m1).failedAssert = some a ∨
        (a = "it != storage_.end()" ∧ applyOps (eng.call c w1 m1).ops m1 = none)) := by
  induction k generalizing rs w m front rest with
  | zero =>
    have hr : rest = [] := List.length_eq_zero.mp hk
    subst hr
    refine ⟨?_, ?_, ?_⟩
    · intro i v hv
      simp [checkLoop] at hv
    · intro _
      refine ⟨rfl, [], front, [], ?_, ?_, forall₂_FlagRel_refl _, ?_⟩
      · simpa [checkLoop] using hs
      · simp [checkLoop, addedDuring, addedEntries, addHandles]
      · simp [checkLoop]
    · intro a ha
      simp [checkLoop] at ha
  | succ k ih =>
    cases rest with
    | nil => simp at hk
    | cons e rest =>
      simp only [List.length_cons, Nat.add_right_cancel_iff] at hk
      have first : ∀ (vis : Visit) (vs : List Visit), vis.position = n - (k + 1) →
          vis.behind = k → vis.found = e →
          (∀ i v, vs[i]? = some v → v.position = n - k + i ∧ v.behind = k - 1 - i ∧
            ∃ x, rest[i]? = some x ∧ FlagRel x v.found) →
          ∀ i v, (vis :: vs)[i]? = some v →
            v.position = n - (k + 1) + i ∧ v.behind = k + 1 - 1 - i ∧
            ∃ x, (e :: rest)[i]? = some x ∧ FlagRel x v.found := by
        intro vis vs h1 h2 h3 hrest i v hv
        cases i with
        | zero =>
          simp only [List.getElem?_cons_zero, Option.some.injEq] at hv
          subst hv
          exact ⟨by simp [h1], by simp [h2], e, by simp, by rw [h3]; exact FlagRel.refl e⟩
        | succ i =>
          simp only [List.getElem?_cons_succ] at hv
          obtain ⟨a1, a2, x, a3, a4⟩ := hrest i v hv
          exact ⟨by omega, by omega, x, by simpa using a3, a4⟩
      by_cases he : e.snmpHandle_ = 0
      · have hv := visitEntry_flagged eng n k rs w m _ _ _ hs hk he
        have hcl := checkLoop_succ eng n k rs w m
        rw [hv] at hcl
        simp only [Option.toList_some, List.singleton_append] at hcl
        rw [hcl]
        obtain ⟨b1, b2, b3⟩ := ih rs w
          { m with storage_ := front ++ rest } front rest rfl hk (by omega)
        refine ⟨?_, ?_, b3⟩
        · exact first _ _ rfl rfl rfl b1
        · intro hfa
          obtain ⟨c1, added, front1, kept, c2, c3, c4, c5⟩ := b2 hfa
          refine ⟨by simp [c1], added, front1, kept, c2, ?_, c4, ?_⟩
          · rw [addedDuring_cons]
            simpa [addedEntries, addHandles] using c3
          · simpa [List.filter_cons] using c5
      · generalize hm0 : ({ m with storage_ :=
            front ++ ({ e with io_watcher_ := e.io_watcher_.clearPending } : storage_el)
              :: rest } : SnmpSessionManager) = m0
        generalize hH : eng.call (handlerCallFor e rs) w m0 = H
        rcases visitEntry_live eng n k rs w m _ _ _ hs hk he m0 H hm0.symm hH.symm with
          ⟨hap, hv⟩ | ⟨m1, a, hap, hfa, hv⟩ |
          ⟨m1, added, front1, e1, rest1, hap, hfa, h1, h2, h3, h4, h5, -, hv⟩
        · have hcl := checkLoop_succ eng n k rs w m
          rw [hv] at hcl
          simp only [Option.toList_some] at hcl
          rw [hcl]
          refine ⟨?_, ?_, ?_⟩
          · exact first _ [] rfl rfl rfl (by simp)
          · intro hc
            cases hc
          · intro a ha
            simp only [Option.some.injEq] at ha
            refine ⟨handlerCallFor e rs, w, m0, Or.inr ⟨ha.symm, ?_⟩⟩
            rw [hH]
            exact hap
        · have hcl := checkLoop_succ eng n k rs w m
          rw [hv] at hcl
          simp only [Option.toList_some] at hcl
          rw [hcl]
          refine ⟨?_, ?_, ?_⟩
          · exact first _ [] rfl rfl rfl (by simp)
          · intro hc
            cases hc
          · intro a2 ha
            simp only [Option.some.injEq] at ha
            subst ha
            refine ⟨handlerCallFor e rs, w, m0, Or.inl ?_⟩
            rw [hH]
            exact hfa
        · have hk1 : rest1.length = k := h5.length_eq.symm.trans hk
          have hcl := checkLoop_succ eng n k rs w m
          by_cases h0 : e1.snmpHandle_ = 0
          · simp only [h0, if_true] at hv
            rw [hv] at hcl
            simp only [Option.toList_some, List.singleton_append] at hcl
            rw [hcl]
            obtain ⟨b1, b2, b3⟩ := ih
              (readSetAfter e rs) H.state
              { m1 with storage_ := added ++ front1 ++ rest1 } (added ++ front1) rest1
              rfl hk1 (by omega)
            refine ⟨?_, ?_, b3⟩
            · apply first _ _ rfl rfl rfl
              intro i v hiv
              obtain ⟨a1, a2, x1, a3, a4⟩ := b1 i v hiv
              obtain ⟨x, a5, a6⟩ := forall₂_getElem? h5 a3
              exact ⟨a1, a2, x, a5, a6.trans a4⟩
            · intro hfa2
              obtain ⟨c1, added2, F, kept, c2, c3, c4, c5⟩ := b2 hfa2
              obtain ⟨added3, front3, rfl, d1, d2⟩ := forall₂_split_append c4
              refine ⟨by rw [List.length_cons, c1], added2 ++ added3, front3, kept, ?_, ?_,
                forall₂_FlagRel_trans h3 d2, ?_⟩
              · show (checkLoop eng n k (readSetAfter e rs) H.state
                  { m1 with storage_ := added ++ front1 ++ rest1 }).manager.storage_ = _
                rw [c2]
                simp
              · rw [addedDuring_cons]
                exact List.rel_append c3 (forall₂_FlagRel_trans h2 d1)
              · simpa [List.filter_cons] using c5
          · simp only [h0, if_false] at hv
            rw [hv] at hcl
            simp only [Option.toList_some, List.singleton_append] at hcl
            rw [hcl]
            obtain ⟨b1, b2, b3⟩ := ih
              (readSetAfter e rs) H.state
              { m1 with storage_ := added ++ front1 ++
                ({ e1 with io_watcher_ := e1.io_watcher_.stop } : storage_el) :: rest1 }
              (added ++ front1 ++
                [({ e1 with io_watcher_ := e1.io_watcher_.stop } : storage_el)]) rest1
              (by simp) hk1 (by omega)
            refine ⟨?_, ?_, b3⟩
            · apply first _ _ rfl rfl rfl
              intro i v hiv
              obtain ⟨a1, a2, x1, a3, a4⟩ := b1 i v hiv
              obtain ⟨x, a5, a6⟩ := forall₂_getElem? h5 a3
              exact ⟨a1, a2, x, a5, a6.trans a4⟩
            · intro hfa2
              obtain ⟨c1, added2, F, kept, c2, c3, c4, c5⟩ := b2 hfa2
              obtain ⟨F2, last, rfl, d0, d3⟩ := forall₂_split_append c4
              obtain ⟨added3, front3, rfl, d1, d2⟩ := forall₂_split_append d0
              cases d3 with
              | cons hy d3 =>
                cases d3
                rename_i y
                refine ⟨by rw [List.length_cons, c1], added2 ++ added3, front3, y :: kept, ?_, ?_,
                  forall₂_FlagRel_trans h3 d2, ?_⟩
                · show (checkLoop eng n k (readSetAfter e rs) H.state
                    { m1 with storage_ := added ++ front1 ++
                      ({ e1 with io_watcher_ := e1.io_watcher_.stop } : storage_el)
                        :: rest1 }).manager.storage_ = _
                  rw [c2]
                  simp
                · rw [addedDuring_cons]
                  exact List.rel_append c3 (forall₂_FlagRel_trans h2 d1)
                · have he1 := h4.eq_of_live h0
                  simp only [List.filter_cons, Option.isNone_none, if_true]
                  refine List.Forall₂.cons ?_ c5
                  unfold KeptRel
                  simp only
                  rw [he1] at hy
                  exact hy

theorem map_eq_range_of_getElem? {α : Type} (l : List α) (f : α → Nat)
    (h : ∀ i v, l[i]? = some v → f v = i) : l.map f = List.range l.length := by
  apply List.ext_getElem?
  intro i
  rw [List.getElem?_map]
  by_cases hi : i < l.length
  · rw [List.getElem?_range hi, List.getElem?_eq_getElem hi]
    simp only [Option.map_some', Option.some.injEq]
    exact h i _ (List.getElem?_eq_getElem hi)
  · rw [List.getElem?_eq_none (by omega), List.getElem?_eq_none (by simp; omega)]
    rfl

theorem check_cb_impl_loop {σ : Type} (eng : Engine σ) (w : σ) (m : SnmpSessionManager) :
    (check_cb_impl eng w m).visits
      = (checkLoop eng m.storage_.length m.storage_.length [] w
          { m with timeout_active_ := false }).visits ∧
    (check_cb_impl eng w m).failedAssert
      = (checkLoop eng m.storage_.length m.storage_.length [] w
          { m with timeout_active_ := false }).failedAssert ∧
    (check_cb_impl eng w m).manager.storage_
      = (checkLoop eng m.storage_.length m.storage_.length [] w
          { m with timeout_active_ := false }).manager.storage_ ∧
    (check_cb_impl eng w m).state
      = (checkLoop eng m.storage_.length m.storage_.length [] w
          { m with timeout_active_ := false }).state ∧
    (check_cb_impl eng w m).effects
      = (checkLoop eng m.storage_.length m.storage_.length [] w
          { m with timeout_active_ := false }).effects := by
  have hm0 : (if m.timeout_active_ = true then { m with timeout_active_ := false } else m)
      = { m with timeout_active_ := false } := by
    split_ifs with h
    · rfl
    · cases m
      simp only [Bool.not_eq_true] at h
      simp [h]
  unfold check_cb_impl
  simp only [hm0]
  split
  · exact ⟨rfl, rfl, rfl, rfl, rfl⟩
  · rename_i hfa
    split_ifs
    · exact ⟨rfl, rfl, rfl, rfl, rfl⟩
    · exact ⟨rfl, rfl, rfl, rfl, rfl⟩

theorem mem_FD_SET {fd x : Int} {set : List Int} : x ∈ FD_SET fd set ↔ x = fd ∨ x ∈ set := by
  unfold FD_SET
  split_ifs with h
  · constructor
    · exact Or.inr
    · rintro (rfl | h1)
      · exact h
      · exact h1
  · simp only [List.mem_append, List.mem_singleton]
    tauto

theorem mem_readSetOf {rs : List Int} {vs : List Visit} {x : Int} :
    x ∈ readSetOf rs vs ↔ x ∈ rs ∨ ∃ u ∈ vs, u.found.snmpHandle_ ≠ 0 ∧
      u.found.io_watcher_.readable = true ∧ u.found.io_watcher_.fd = x := by
  induction vs generalizing rs with
  | nil => simp [readSetOf]
  | cons v vs ih =>
    have hunf : readSetOf rs (v :: vs)
        = readSetOf (if v.found.snmpHandle_ = 0 then rs else readSetAfter v.found rs) vs := rfl
    rw [hunf, ih]
    by_cases h0 : v.found.snmpHandle_ = 0
    · simp only [h0, if_true, List.mem_cons, exists_eq_or_imp, ne_eq, not_true_eq_false,
        false_and, false_or]
    · by_cases hr : v.found.io_watcher_.readable = true
      · simp only [h0, if_false, readSetAfter, hr, if_true, mem_FD_SET, List.mem_cons,
          exists_eq_or_imp, ne_eq, not_false_eq_true, true_and]
        constructor
        · rintro ((rfl | h1) | h2)
          · exact Or.inr (Or.inl rfl)
          · exact Or.inl h1
          · exact Or.inr (Or.inr h2)
        · rintro (h1 | h2 | h3)
          · exact Or.inl (Or.inr h1)
          · exact Or.inl (Or.inl h2.symm)
          · exact Or.inr h3
      · simp only [h0, if_false, readSetAfter, hr, List.mem_cons, exists_eq_or_imp, ne_eq,
          not_false_eq_true, true_and, false_and, false_or, Bool.false_eq_true]

theorem checkLoop_calls {σ : Type} (eng : Engine σ) (n k : Nat) (rs : List Int) (w : σ)
    (m : SnmpSessionManager) (front rest : List storage_el)
    (hs : m.storage_ = front ++ rest) (hk : rest.length = k) :
    ∀ i v, (checkLoop eng n k rs w m).visits[i]? = some v →
      (v.found.snmpHandle_ = 0 →
        v.call = none ∧ v.ops = [] ∧ v.stopped = false ∧ v.erased = some v.found) ∧
      (v.found.snmpHandle_ ≠ 0 →
        v.call = some (handlerCallFor v.found
          (readSetOf rs ((checkLoop eng n k rs w m).visits.take i))) ∧
        (v.stopped = true ∨ ((checkLoop eng n k rs w m).failedAssert ≠ none ∧
          i + 1 = (checkLoop eng n k rs w m).visits.length)) ∧
        (∀ x, v.erased = some x →
          x = { snmpHandle_ := 0, io_watcher_ := v.found.io_watcher_.stop })) := by
  induction k generalizing rs w m front rest with
  | zero =>
    intro i v hv
    simp [checkLoop] at hv
  | succ k ih =>
    cases rest with
    | nil => simp at hk
    | cons e rest =>
      simp only [List.length_cons, Nat.add_right_cancel_iff] at hk
      have hcl := checkLoop_succ eng n k rs w m
      by_cases he : e.snmpHandle_ = 0
      · have hv := visitEntry_flagged eng n k rs w m _ _ _ hs hk he
        rw [hv] at hcl
        simp only [Option.toList_some, List.singleton_append] at hcl
        rw [hcl]
        have ih1 := ih rs w
          { m with storage_ := front ++ rest } front rest rfl hk
        intro i v hiv
        cases i with
        | zero =>
          simp only [List.getElem?_cons_zero, Option.some.injEq] at hiv
          subst hiv
          exact ⟨fun _ => ⟨rfl, rfl, rfl, rfl⟩, fun h => absurd he h⟩
        | succ i =>
          simp only [List.getElem?_cons_succ] at hiv
          obtain ⟨a1, a2⟩ := ih1 i v hiv
          refine ⟨a1, fun hlive => ?_⟩
          obtain ⟨b1, b2, b3⟩ := a2 hlive
          refine ⟨?_, ?_, b3⟩
          · rw [b1]
            simp [readSetOf, he]
          · rcases b2 with b2 | ⟨b2, b4⟩
            · exact Or.inl b2
            · exact Or.inr ⟨b2, by simp [b4]⟩
      · generalize hm0 : ({ m with storage_ :=
            front ++ ({ e with io_watcher_ := e.io_watcher_.clearPending } : storage_el)
              :: rest } : SnmpSessionManager) = m0
        generalize hH : eng.call (handlerCallFor e rs) w m0 = H
        rcases visitEntry_live eng n k rs w m _ _ _ hs hk he m0 H hm0.symm hH.symm with
          ⟨hap, hv⟩ | ⟨m1, a, hap, hfa, hv⟩ |
          ⟨m1, added, front1, e1, rest1, hap, hfa, h1, h2, h3, h4, h5, -, hv⟩
        · rw [hv] at hcl
          simp only [Option.toList_some] at hcl
          rw [hcl]
          intro i v hiv
          cases i with
          | zero =>
            simp only [List.getElem?_cons_zero, Option.some.injEq] at hiv
            subst hiv
            refine ⟨fun h => absurd h he, fun _ => ⟨by simp [readSetOf], Or.inr ⟨by simp, rfl⟩, ?_⟩⟩
            intro x hx
            cases hx
          | succ i => simp at hiv
        · rw [hv] at hcl
          simp only [Option.toList_some] at hcl
          rw [hcl]
          intro i v hiv
          cases i with
          | zero =>
            simp only [List.getElem?_cons_zero, Option.some.injEq] at hiv
            subst hiv
            refine ⟨fun h => absurd h he, fun _ => ⟨by simp [readSetOf], Or.inr ⟨by simp, rfl⟩, ?_⟩⟩
            intro x hx
            cases hx
          | succ i => simp at hiv
        · have hk1 : rest1.length = k := h5.length_eq.symm.trans hk
          have hwatch : e1.io_watcher_.stop = e.io_watcher_.stop := by
            rw [h4.watcher]
            rfl
          have tail : ∀ (mm : SnmpSessionManager) (ff : List storage_el) (vis : Visit),
              mm.storage_ = ff ++ rest1 → vis.found = e →
              vis.call = some (handlerCallFor e rs) → vis.stopped = true →
              (∀ x, vis.erased = some x →
                x = { snmpHandle_ := 0, io_watcher_ := e.io_watcher_.stop }) →
              ∀ i v, (vis :: (checkLoop eng n k (readSetAfter e rs) H.state mm).visits)[i]?
                  = some v →
                (v.found.snmpHandle_ = 0 →
                  v.call = none ∧ v.ops = [] ∧ v.stopped = false ∧ v.erased = some v.found) ∧
                (v.found.snmpHandle_ ≠ 0 →
                  v.call = some (handlerCallFor v.found (readSetOf rs
                    ((vis :: (checkLoop eng n k (readSetAfter e rs) H.state mm).visits).take
                      i))) ∧
                  (v.stopped = true ∨
                    ((checkLoop eng n k (readSetAfter e rs) H.state mm).failedAssert ≠ none ∧
                      i + 1 = (vis ::
                        (checkLoop eng n k (readSetAfter e rs) H.state mm).visits).length)) ∧
                  (∀ x, v.erased = some x →
                    x = { snmpHandle_ := 0, io_watcher_ := v.found.io_watcher_.stop })) := by
            intro mm ff vis hmm hf hc hst her i v hiv
            have ih1 := ih (readSetAfter e rs) H.state mm ff rest1 hmm hk1
            cases i with
            | zero =>
              simp only [List.getElem?_cons_zero, Option.some.injEq] at hiv
              subst hiv
              refine ⟨fun h => absurd (hf ▸ h) he, fun _ => ⟨?_, Or.inl hst, ?_⟩⟩
              · rw [hc, hf]
                simp [readSetOf]
              · rw [hf]
                exact her
            | succ i =>
              simp only [List.getElem?_cons_succ] at hiv
              obtain ⟨a1, a2⟩ := ih1 i v hiv
              refine ⟨a1, fun hlive => ?_⟩
              obtain ⟨b1, b2, b3⟩ := a2 hlive
              refine ⟨?_, ?_, b3⟩
              · rw [b1]
                simp [readSetOf, hf, he]
              · rcases b2 with b2 | ⟨b2, b4⟩
                · exact Or.inl b2
                · exact Or.inr ⟨b2, by simp [b4]⟩
          by_cases h0 : e1.snmpHandle_ = 0
          · simp only [h0, if_true] at hv
            rw [hv] at hcl
            simp only [Option.toList_some, List.singleton_append] at hcl
            rw [hcl]
            refine tail _ (added ++ front1) _ rfl rfl rfl rfl ?_
            intro x hx
            simp only [Option.some.injEq] at hx
            rw [← hx, hwatch]
          · simp only [h0, if_false] at hv
            rw [hv] at hcl
            simp only [Option.toList_some, List.singleton_append] at hcl
            rw [hcl]
            refine tail _ (added ++ front1 ++
              [({ e1 with io_watcher_ := e1.io_watcher_.stop } : storage_el)]) _ (by simp)
              rfl rfl rfl ?_
            intro x hx
            cases hx

theorem addedEntries_live {ops : List ClientOp} (h : ∀ a ∈ addHandles ops, a ≠ 0) :
    ∀ x ∈ addedEntries ops, x.snmpHandle_ ≠ 0 := by
  intro x hx
  simp only [addedEntries, List.mem_map, List.mem_reverse] at hx
  obtain ⟨a, ha, rfl⟩ := hx
  exact h a ha

theorem checkLoop_no_flagged {σ : Type} (eng : Engine σ) (n k : Nat) (rs : List Int) (w : σ)
    (m : SnmpSessionManager) (front rest : List storage_el)
    (hs : m.storage_ = front ++ rest) (hk : rest.length = k)
    (hfront : ∀ x ∈ front, x.snmpHandle_ ≠ 0)
    (hfa : (checkLoop eng n k rs w m).failedAssert = none)
    (hown : ∀ v ∈ (checkLoop eng n k rs w m).visits,
      (∀ t ∈ v.flagged, t = v.behind) ∧ (∀ a ∈ addHandles v.ops, a ≠ 0)) :
    ∀ x ∈ (checkLoop eng n k rs w m).manager.storage_, x.snmpHandle_ ≠ 0 := by
  induction k generalizing rs w m front rest with
  | zero =>
    have hr : rest = [] := List.length_eq_zero.mp hk
    subst hr
    intro x hx
    simp only [checkLoop, hs, List.append_nil] at hx
    exact hfront x hx
  | succ k ih =>
    cases rest with
    | nil => simp at hk
    | cons e rest =>
      simp only [List.length_cons, Nat.add_right_cancel_iff] at hk
      have hcl := checkLoop_succ eng n k rs w m
      by_cases he : e.snmpHandle_ = 0
      · have hv := visitEntry_flagged eng n k rs w m _ _ _ hs hk he
        rw [hv] at hcl
        simp only [Option.toList_some, List.singleton_append] at hcl
        rw [hcl] at hfa hown ⊢
        exact ih rs w { m with storage_ := front ++ rest } front rest rfl hk
          hfront hfa (fun v hv2 => hown v (List.mem_cons_of_mem _ hv2))
      · generalize hm0 : ({ m with storage_ :=
            front ++ ({ e with io_watcher_ := e.io_watcher_.clearPending } : storage_el)
              :: rest } : SnmpSessionManager) = m0
        generalize hH : eng.call (handlerCallFor e rs) w m0 = H
        rcases visitEntry_live eng n k rs w m _ _ _ hs hk he m0 H hm0.symm hH.symm with
          ⟨hap, hv⟩ | ⟨m1, a, hap, hfa1, hv⟩ |
          ⟨m1, added, front1, e1, rest1, hap, hfa1, h1, h2, h3, h4, h5, h6, hv⟩
        · rw [hv] at hcl
          simp only [Option.toList_some] at hcl
          rw [hcl] at hfa
          cases hfa
        · rw [hv] at hcl
          simp only [Option.toList_some] at hcl
          rw [hcl] at hfa
          cases hfa
        · have hk1 : rest1.length = k := h5.length_eq.symm.trans hk
          by_cases h0 : e1.snmpHandle_ = 0
          · simp only [h0, if_true] at hv
            rw [hv] at hcl
            simp only [Option.toList_some, List.singleton_append] at hcl
            rw [hcl] at hfa hown ⊢
            obtain ⟨o1, o2⟩ := hown _ (List.mem_cons_self _ _)
            obtain ⟨g1, g2, g3⟩ := h6 o1
            have hnf : ∀ x ∈ added ++ front1, x.snmpHandle_ ≠ 0 := by
              intro x hx
              rw [g1, g2] at hx
              rcases List.mem_append.mp hx with hx | hx
              · exact addedEntries_live o2 x hx
              · exact hfront x hx
            exact ih (readSetAfter e rs) H.state
              { m1 with storage_ := added ++ front1 ++ rest1 } (added ++ front1) rest1
              rfl hk1 hnf hfa
              (fun v hv2 => hown v (List.mem_cons_of_mem _ hv2))
          · simp only [h0, if_false] at hv
            rw [hv] at hcl
            simp only [Option.toList_some, List.singleton_append] at hcl
            rw [hcl] at hfa hown ⊢
            obtain ⟨o1, o2⟩ := hown _ (List.mem_cons_self _ _)
            obtain ⟨g1, g2, g3⟩ := h6 o1
            have hnf : ∀ x ∈ added ++ front1 ++
                [({ e1 with io_watcher_ := e1.io_watcher_.stop } : storage_el)],
                x.snmpHandle_ ≠ 0 := by
              intro x hx
              rw [g1, g2] at hx
              simp only [List.mem_append, List.mem_singleton] at hx
              rcases hx with (hx | hx) | hx
              · exact addedEntries_live o2 x hx
              · exact hfront x hx
              · rw [hx]
                exact h0
            exact ih (readSetAfter e rs) H.state
              { m1 with storage_ := added ++ front1 ++
                ({ e1 with io_watcher_ := e1.io_watcher_.stop } : storage_el) :: rest1 }
              (added ++ front1 ++
                [({ e1 with io_watcher_ := e1.io_watcher_.stop } : storage_el)]) rest1
              (by simp) hk1 hnf hfa
              (fun v hv2 => hown v (List.mem_cons_of_mem _ hv2))

/-! ## Lemmas on the private loop -/

theorem snmp_cb_proxy_sub (env : Env) (operation reqid : Int) (pdu : netsnmp_pdu)
    (s : SnmpSession) (m : SnmpSessionManager) (Q : List req_data)
    (hQ : ∀ k ∈ s.queue_, k ∈ Q) :
    (∀ c ∈ (snmp_cb_proxy env operation reqid pdu s m).effects.calls, c.magic ∈ Q) ∧
    (∀ k ∈ (snmp_cb_proxy env operation reqid pdu s m).session.queue_, k ∈ Q) := by
  rcases snmp_cb_proxy_cases env operation reqid pdu s m with
    ⟨-, h2, h3⟩ | ⟨i, kReq, h1, h2, h3⟩
  · rw [h2, h3]
    exact ⟨by simp, hQ⟩
  · constructor
    · rcases h3 with h3 | ⟨a0, a1, h3⟩
      · rw [h3]
        simp
      · rw [h3]
        intro c hc
        simp only [List.mem_singleton] at hc
        subst hc
        exact hQ _ (findRequest_mem h1)
    · rw [h2]
      intro k hk
      exact hQ k (List.mem_of_mem_eraseIdx hk)

theorem deliverCompletions_sub (env : Env) (cs : List Completion) (s : SnmpSession)
    (m : SnmpSessionManager) (Q : List req_data) (hQ : ∀ k ∈ s.queue_, k ∈ Q) :
    (∀ c ∈ (deliverCompletions env cs s m).effects.calls, c.magic ∈ Q) ∧
    (∀ k ∈ (deliverCompletions env cs s m).state.queue_, k ∈ Q) := by
  induction cs generalizing s m with
  | nil => exact ⟨by simp [deliverCompletions, Effects.empty], by simpa [deliverCompletions] using hQ⟩
  | cons c cs ih =>
    obtain ⟨h1, h2⟩ := snmp_cb_proxy_sub env c.operation c.reqid c.pdu s m Q hQ
    unfold deliverCompletions
    simp only
    split
    · exact ⟨h1, h2⟩
    · obtain ⟨h3, h4⟩ := ih (snmp_cb_proxy env c.operation c.reqid c.pdu s m).session
        (snmp_cb_proxy env c.operation c.reqid c.pdu s m).manager h2
      refine ⟨?_, h4⟩
      intro x hx
      simp only [Effects.calls_append, List.mem_append] at hx
      rcases hx with hx | hx
      · exact h1 x hx
      · exact h3 x hx

theorem sessionEngine_sub (L : LoopEnv) (tick : Nat) (c : HandlerCall) (s : SnmpSession)
    (m : SnmpSessionManager) (Q : List req_data) (hQ : ∀ k ∈ s.queue_, k ∈ Q) :
    (∀ x ∈ ((sessionEngine L tick).call c s m).effects.calls, x.magic ∈ Q) ∧
    (∀ k ∈ ((sessionEngine L tick).call c s m).state.queue_, k ∈ Q) := by
  cases c with
  | read handle readSet =>
    simp only [Engine.call, sessionEngine]
    split_ifs
    · exact deliverCompletions_sub _ _ _ _ Q hQ
    · exact ⟨by simp [Effects.empty], hQ⟩
  | timeout handle =>
    simp only [Engine.call, sessionEngine]
    split_ifs
    · exact deliverCompletions_sub _ _ _ _ Q hQ
    · exact ⟨by simp [Effects.empty], hQ⟩

theorem check_cb_sub (L : LoopEnv) (tick : Nat) (s : SnmpSession) (m : SnmpSessionManager)
    (Q : List req_data) (hQ : ∀ k ∈ s.queue_, k ∈ Q) :
    (∀ x ∈ (check_cb (sessionEngine L tick) s m).effects.calls, x.magic ∈ Q) ∧
    (∀ k ∈ (check_cb (sessionEngine L tick) s m).state.queue_, k ∈ Q) := by
  unfold check_cb
  split_ifs
  · exact ⟨by simp [Effects.empty], hQ⟩
  · obtain ⟨-, -, -, l4, l5⟩ := check_cb_impl_loop (sessionEngine L tick) s m
    rw [l4, l5]
    have h := checkLoop_invariant (sessionEngine L tick) m.storage_.length
      (fun s1 _ => ∀ k ∈ s1.queue_, k ∈ Q) (fun e => ∀ x ∈ e.calls, x.magic ∈ Q)
      (by simp [Effects.empty])
      (fun a b ha hb x hx => by
        simp only [Effects.calls_append, List.mem_append] at hx
        rcases hx with hx | hx
        · exact ha x hx
        · exact hb x hx)
      (fun _ _ _ hI _ => hI)
      (fun w1 m1 c hI _ _ =>
        ⟨(sessionEngine_sub L tick c w1 m1 Q hI).1,
          fun _ _ => (sessionEngine_sub L tick c w1 m1 Q hI).2,
          fun _ => (sessionEngine_sub L tick c w1 m1 Q hI).2⟩)
      m.storage_.length [] s { m with timeout_active_ := false } hQ
    exact ⟨h.2, h.1⟩

theorem ev_run_sub (L : LoopEnv) (fuel tick : Nat) (s : SnmpSession) (m : SnmpSessionManager)
    (Q : List req_data) (hQ : ∀ k ∈ s.queue_, k ∈ Q) :
    (∀ x ∈ (ev_run L fuel tick s m).effects.calls, x.magic ∈ Q) ∧
    (∀ k ∈ (ev_run L fuel tick s m).session.queue_, k ∈ Q) := by
  induction fuel generalizing tick s m with
  | zero => exact ⟨by simp [ev_run, Effects.empty], by simpa [ev_run] using hQ⟩
  | succ fuel ih =>
    unfold ev_run
    by_cases h0 : m.prepareStarted = false ∧ m.checkStarted = false
    · rw [if_pos h0]
      exact ⟨by simp [Effects.empty], hQ⟩
    · rw [if_neg h0]
      simp only
      generalize (if m.prepareStarted = true then
          prepare_cb L.snmp_sess_select_info L.timeout0 m
        else { manager := m, timer := none, failedAssert := none }) = p
      cases hpf : p.failedAssert with
      | some a => exact ⟨by simp [Effects.empty], hQ⟩
      | none =>
        simp only
        have hc : ∀ c : CheckResult SnmpSession,
            c = (if (pollEvents (L.ready tick) p.manager).checkStarted = true then
                check_cb (sessionEngine L tick) s (pollEvents (L.ready tick) p.manager)
              else { manager := pollEvents (L.ready tick) p.manager, state := s,
                     effects := Effects.empty, visits := [], failedAssert := none }) →
            (∀ x ∈ c.effects.calls, x.magic ∈ Q) ∧ (∀ k ∈ c.state.queue_, k ∈ Q) := by
          intro c hc
          subst hc
          split_ifs
          · exact check_cb_sub L tick s _ Q hQ
          · exact ⟨by simp [Effects.empty], hQ⟩
        generalize (if (pollEvents (L.ready tick) p.manager).checkStarted = true then
                check_cb (sessionEngine L tick) s (pollEvents (L.ready tick) p.manager)
              else { manager := pollEvents (L.ready tick) p.manager, state := s,
                     effects := Effects.empty, visits := [], failedAssert := none }) = c at hc ⊢
        obtain ⟨c1, c2⟩ := hc c rfl
        cases hcf : c.failedAssert with
        | some a => exact ⟨c1, c2⟩
        | none =>
          simp only
          obtain ⟨i1, i2⟩ := ih (tick + 1) c.state c.manager c2
          refine ⟨?_, i2⟩
          intro x hx
          simp only [Effects.calls_append, List.mem_append] at hx
          rcases hx with hx | hx
          · exact c1 x hx
          · exact i1 x hx

theorem sessionEngine_call (L : LoopEnv) (tick : Nat) (e : storage_el) (rs : List Int)
    (s : SnmpSession) (m : SnmpSessionManager) (he : e.snmpHandle_ = s.sessionHandle_)
    (cs : List Completion)
    (hcs : ∀ rs1, L.onRead tick s.sessionHandle_ rs1 s = cs ∧
      L.onTimeout tick s.sessionHandle_ s = cs) :
    (sessionEngine L tick).call (handlerCallFor e rs) s m = deliverCompletions L.env cs s m := by
  unfold handlerCallFor
  split_ifs
  · simp [Engine.call, sessionEngine, he, (hcs _).1]
  · simp [Engine.call, sessionEngine, he, (hcs []).2]

theorem checkLoop_single {σ : Type} (eng : Engine σ) (w : σ) (m : SnmpSessionManager) :
    checkLoop eng 1 1 [] w m =
      match (visitEntry eng 1 0 [] w m).failedAssert with
      | some a =>
        { manager := (visitEntry eng 1 0 [] w m).manager,
          state := (visitEntry eng 1 0 [] w m).state,
          effects := (visitEntry eng 1 0 [] w m).effects,
          visits := (visitEntry eng 1 0 [] w m).visit.toList, failedAssert := some a }
      | none =>
        { manager := (visitEntry eng 1 0 [] w m).manager,
          state := (visitEntry eng 1 0 [] w m).state,
          effects := (visitEntry eng 1 0 [] w m).effects.append Effects.empty,
          visits := (visitEntry eng 1 0 [] w m).visit.toList ++ [], failedAssert := none } := by
  rfl

theorem check_cb_impl_eq {σ : Type} (eng : Engine σ) (w : σ) (m : SnmpSessionManager)
    (r : CheckResult σ)
    (hr : checkLoop eng m.storage_.length m.storage_.length [] w
      { m with timeout_active_ := false } = r) :
    check_cb_impl eng w m =
      match r.failedAssert with
      | some _ => r
      | none =>
        if r.manager.storage_.isEmpty then
          { r with manager := { r.manager with prepareStarted := false, checkStarted := false } }
        else r := by
  have hm0 : (if m.timeout_active_ = true then { m with timeout_active_ := false } else m)
      = { m with timeout_active_ := false } := by
    split_ifs with h
    · rfl
    · cases m
      simp only [Bool.not_eq_true] at h
      simp [h]
  unfold check_cb_impl
  simp only [hm0]
  rw [hr]

theorem check_cb_single_idle (L : LoopEnv) (tick : Nat) (s : SnmpSession)
    (m : SnmpSessionManager) (e : storage_el)
    (hs : m.storage_ = [e]) (he : e.snmpHandle_ = s.sessionHandle_)
    (hh : s.sessionHandle_ ≠ 0)
    (hidle : ∀ rs, L.onRead tick s.sessionHandle_ rs s = [] ∧
      L.onTimeout tick s.sessionHandle_ s = []) :
    (check_cb (sessionEngine L tick) s m).failedAssert = none ∧
    (check_cb (sessionEngine L tick) s m).state = s ∧
    (check_cb (sessionEngine L tick) s m).effects = Effects.empty ∧
    (check_cb (sessionEngine L tick) s m).manager =
      { m with storage_ := [{ e with io_watcher_ := e.io_watcher_.stop }],
               timeout_active_ := false } := by
  have hne : e.snmpHandle_ ≠ 0 := by rw [he]; exact hh
  have hm0 : (if m.timeout_active_ = true then { m with timeout_active_ := false } else m)
      = { m with timeout_active_ := false } := by
    split_ifs with h
    · rfl
    · cases m
      simp only [Bool.not_eq_true] at h
      simp [h]
  have hcall : ∀ mm, (sessionEngine L tick).call (handlerCallFor e []) s mm
      = { ops := [], state := s, effects := Effects.empty, failedAssert := none } := by
    intro mm
    rw [sessionEngine_call L tick e [] s mm he [] hidle]
    rfl
  have hvis := visitEntry_live (sessionEngine L tick) 1 0 [] s
    { m with timeout_active_ := false } [] [] e
    (by simp [hs]) rfl hne _ _ rfl rfl
  rw [hcall] at hvis
  rcases hvis with ⟨hap, -⟩ | ⟨m1, a, -, hfa, -⟩ |
    ⟨m1, added, front1, e1, rest1, hap, -, h1, -, -, -, -, h6, hv⟩
  · simp [applyOps] at hap
  · cases hfa
  simp only [applyOps, Option.some.injEq] at hap
  subst hap
  obtain ⟨g1, g2, g3⟩ := h6 (by simp [flagTargets])
  subst g1 g2 g3
  simp only [addedEntries, addHandles, List.reverse_nil, List.map_nil, List.nil_append,
    List.cons.injEq, and_true] at h1
  subst h1
  simp only [hne, if_false, addedEntries, addHandles, List.reverse_nil, List.map_nil,
    List.nil_append] at hv
  have hcheck : check_cb (sessionEngine L tick) s m = check_cb_impl (sessionEngine L tick) s m := by
    simp [check_cb, hs]
  have hlen : m.storage_.length = 1 := by rw [hs]; rfl
  have hL := checkLoop_single (sessionEngine L tick) s { m with timeout_active_ := false }
  rw [hv] at hL
  simp only at hL
  rw [← hlen] at hL
  rw [hcheck, check_cb_impl_eq _ _ _ _ hL]
  simp only [List.isEmpty_cons, Bool.false_eq_true, if_false]
  exact ⟨trivial, trivial, rfl, rfl⟩

theorem check_cb_single_resolves (L : LoopEnv) (tick : Nat) (h : Nat) (rec : req_data)
    (m : SnmpSessionManager) (e : storage_el)
    (hs : m.storage_ = [e]) (he : e.snmpHandle_ = h) (hh : h ≠ 0)
    (hrec : rec.type_ ≠ .REQ_BULK)
    (hdelR : ∀ rs, ∃ c, L.onRead tick h rs { queue_ := [rec], sessionHandle_ := h } = [c] ∧
      c.reqid = rec.pdu_.reqid)
    (hdelT : ∃ c, L.onTimeout tick h { queue_ := [rec], sessionHandle_ := h } = [c] ∧
      c.reqid = rec.pdu_.reqid) :
    (check_cb (sessionEngine L tick) { queue_ := [rec], sessionHandle_ := h } m).failedAssert
      = none ∧
    (check_cb (sessionEngine L tick) { queue_ := [rec], sessionHandle_ := h } m).state
      = { queue_ := [], sessionHandle_ := h } ∧
    (check_cb (sessionEngine L tick) { queue_ := [rec], sessionHandle_ := h } m).manager
      = { storage_ := [], prepareStarted := false, checkStarted := false,
          timeout_active_ := false } ∧
    (∃ a0 a1,
      (check_cb (sessionEngine L tick) { queue_ := [rec], sessionHandle_ := h } m).effects.calls
        = [{ magic := rec, arg0 := a0, arg1 := a1 }]) := by
  generalize hsdef : ({ queue_ := [rec], sessionHandle_ := h } : SnmpSession) = s at *
  have hsq : s.queue_ = [rec] := by rw [← hsdef]
  have hsh : s.sessionHandle_ = h := by rw [← hsdef]
  generalize hm0 : ({ m with
      storage_ := [] ++ ({ e with io_watcher_ := e.io_watcher_.clearPending } : storage_el) :: [],
      timeout_active_ := false } : SnmpSessionManager) = m0
  have hm0s : m0.storage_ = [({ e with io_watcher_ := e.io_watcher_.clearPending } : storage_el)] := by
    rw [← hm0]
    rfl
  have hinv : EndpointInv s m0 := by
    refine ⟨by rw [hsh]; exact hh, ?_⟩
    simp [liveEntries, hm0s, hsq, he, hsh]
  obtain ⟨c, hc, hcall⟩ : ∃ c, c.reqid = rec.pdu_.reqid ∧
      (sessionEngine L tick).call (handlerCallFor e []) s m0
        = deliverCompletions L.env [c] s m0 := by
    unfold handlerCallFor
    split_ifs
    · obtain ⟨c, h1, h2⟩ := hdelR (FD_SET e.io_watcher_.fd [])
      exact ⟨c, h2, by simp [Engine.call, sessionEngine, he, hsh, h1]⟩
    · obtain ⟨c, h1, h2⟩ := hdelT
      exact ⟨c, h2, by simp [Engine.call, sessionEngine, he, hsh, h1]⟩
  have hfind : findRequest c.reqid s.queue_ = some (0, rec) := by
    rw [hsq, hc]
    exact findRequest_single rec
  obtain ⟨a0, a1, p1, -, p3, p4⟩ := snmp_cb_proxy_one_call L.env c.operation c.reqid c.pdu hinv
    hfind (by
      rw [hsq, slotAfterErase_single]
      exact hrec)
  obtain ⟨m1, q1, -, -, q4⟩ := snmp_cb_proxy_found L.env c.operation c.reqid c.pdu hinv hfind
  have hq4 := q4 (by rw [hsq]; rfl)
  rw [hsh] at hq4
  have hfind2 : findRequest c.reqid [rec] = some (0, rec) := by
    rw [← hsq]
    exact hfind
  have hsess : (snmp_cb_proxy L.env c.operation c.reqid c.pdu s m0).session
      = { queue_ := [], sessionHandle_ := h } := by
    rw [q1, (deliver_session _ _ _ _ _ _ _).1, ← hsdef]
    rfl
  have hm1 : m1 = { m0 with storage_ :=
      [({ snmpHandle_ := 0, io_watcher_ := e.io_watcher_.clearPending } : storage_el)] } := by
    have := hq4
    simp only [SnmpSessionManager.removeClient, hm0s, flagFirst, he, if_true,
      Option.map_some', Option.some.injEq] at this
    exact this.symm
  have hH : (sessionEngine L tick).call (handlerCallFor e []) s m0
      = { ops := [.removeClient h],
          state := { queue_ := [], sessionHandle_ := h },
          effects := (snmp_cb_proxy L.env c.operation c.reqid c.pdu s m0).effects.append
            Effects.empty,
          failedAssert := none } := by
    rw [hcall]
    simp only [deliverCompletions, p3, completionOps, hfind2, hsq, List.eraseIdx_cons_zero,
      List.length_nil, if_true, hsh, List.append_nil, hsess]
  have hne : e.snmpHandle_ ≠ 0 := by rw [he]; exact hh
  have hvis := visitEntry_live (sessionEngine L tick) 1 0 [] s
    { m with timeout_active_ := false } [] [] e
    (by simp [hs]) rfl hne m0 _ hm0.symm rfl
  rw [hH] at hvis
  have hap : applyOps [.removeClient h] m0 = some m1 := by
    simp only [applyOps, ClientOp.apply, hq4]
  rcases hvis with ⟨hap2, -⟩ | ⟨m2, a, -, hfa, -⟩ |
    ⟨m2, added, front1, e1, rest1, hap2, -, h1, -, -, -, -, h6, hv⟩
  · rw [hap] at hap2
    cases hap2
  · cases hfa
  simp only at hap2
  rw [hap] at hap2
  simp only [Option.some.injEq] at hap2
  subst hap2
  have hidx : List.findIdx? (fun x => decide (x.snmpHandle_ = h)) m0.storage_ = some 0 := by
    rw [hm0s]
    simp [List.findIdx?_cons, he]
  obtain ⟨g1, g2, g3⟩ := h6 (by
    intro t ht
    simp only [flagTargets, hidx, hq4] at ht
    simp only [hm0s, List.length_singleton, List.mem_singleton] at ht
    omega)
  subst g1 g2 g3
  rw [hm1] at h1
  simp only [addedEntries, addHandles, List.reverse_nil, List.map_nil, List.nil_append,
    List.cons.injEq, and_true] at h1
  subst h1
  simp only [if_true, addedEntries, addHandles, List.reverse_nil, List.map_nil,
    List.nil_append] at hv
  have hcheck : check_cb (sessionEngine L tick) s m = check_cb_impl (sessionEngine L tick) s m := by
    simp [check_cb, hs]
  have hlen : m.storage_.length = 1 := by rw [hs]; rfl
  have hL := checkLoop_single (sessionEngine L tick) s { m with timeout_active_ := false }
  rw [hv] at hL
  simp only at hL
  rw [← hlen] at hL
  rw [hcheck, check_cb_impl_eq _ _ _ _ hL]
  simp only [List.isEmpty_nil, if_true]
  refine ⟨trivial, trivial, ?_, a0, a1, ?_⟩
  · rw [hm1, ← hm0]
  · simp only [Effects.calls_append, p1, Effects.empty, List.append_nil]

theorem prepare_cb_single {sel : Nat → timeval → Bool → SelectInfo}
    {deadline : Nat → Option timeval} {fdOf : Nat → Int}
    (hsel : SelectInfoSpec sel deadline fdOf) (t0 : timeval) (m : SnmpSessionManager)
    (e : storage_el) (hs : m.storage_ = [e]) :
    (prepare_cb sel t0 m).failedAssert = none ∧
    (prepare_cb sel t0 m).manager.prepareStarted = m.prepareStarted ∧
    (prepare_cb sel t0 m).manager.checkStarted = m.checkStarted ∧
    ∃ e1, (prepare_cb sel t0 m).manager.storage_ = [e1] ∧ e1.snmpHandle_ = e.snmpHandle_ := by
  have hpc : prepare_cb sel t0 m = prepare_cb_impl sel t0 m := by
    simp [prepare_cb, hs]
  have hne : m.storage_ ≠ [] := by simp [hs]
  have hempty : m.storage_.isEmpty = false := by simp [hs]
  obtain ⟨f1, f2, f3⟩ := prepare_cb_impl_fields sel t0 m
  obtain ⟨l1, -, -⟩ := prepareLoop_spec hsel m.storage_ t0 true
  rw [hpc]
  refine ⟨?_, f2, f3, ?_⟩
  · unfold prepare_cb_impl
    simp only [hempty, Bool.false_eq_true, if_false, l1]
    split_ifs <;> rfl
  · rw [hs] at f1
    simp only [List.map_cons, List.map_nil] at f1
    cases hst : (prepare_cb_impl sel t0 m).manager.storage_ with
    | nil => simp [hst] at f1
    | cons e1 tl =>
      rw [hst] at f1
      simp only [List.map_cons, List.cons.injEq, List.map_eq_nil_iff] at f1
      obtain ⟨g1, g2⟩ := f1
      subst g2
      exact ⟨e1, rfl, g1⟩

theorem pollEvents_single (ready : List Int) (m : SnmpSessionManager) (e : storage_el)
    (hs : m.storage_ = [e]) :
    (pollEvents ready m).prepareStarted = m.prepareStarted ∧
    (pollEvents ready m).checkStarted = m.checkStarted ∧
    ∃ e1, (pollEvents ready m).storage_ = [e1] ∧ e1.snmpHandle_ = e.snmpHandle_ := by
  refine ⟨rfl, rfl, ?_⟩
  simp only [pollEvents, hs, List.map_cons, List.map_nil]
  split_ifs
  · exact ⟨_, rfl, rfl⟩
  · exact ⟨_, rfl, rfl⟩

theorem ev_run_stopped (L : LoopEnv) (fuel tick : Nat) (s : SnmpSession)
    (m : SnmpSessionManager) (hp : m.prepareStarted = false) (hc : m.checkStarted = false) :
    ev_run L fuel tick s m
      = { session := s, manager := m, effects := Effects.empty, failedAssert := none } := by
  cases fuel with
  | zero => rfl
  | succ fuel =>
    unfold ev_run
    rw [if_pos ⟨hp, hc⟩]

theorem ev_run_armed (L : LoopEnv) (fuel tick : Nat) (s : SnmpSession) (m : SnmpSessionManager)
    (hp : m.prepareStarted = true)
    (hpf : (prepare_cb L.snmp_sess_select_info L.timeout0 m).failedAssert = none)
    (hc : (pollEvents (L.ready tick)
      (prepare_cb L.snmp_sess_select_info L.timeout0 m).manager).checkStarted = true)
    (c : CheckResult SnmpSession)
    (hcdef : check_cb (sessionEngine L tick) s (pollEvents (L.ready tick)
      (prepare_cb L.snmp_sess_select_info L.timeout0 m).manager) = c)
    (hcf : c.failedAssert = none) :
    ev_run L (fuel + 1) tick s m =
      { session := (ev_run L fuel (tick + 1) c.state c.manager).session,
        manager := (ev_run L fuel (tick + 1) c.state c.manager).manager,
        effects := c.effects.append (ev_run L fuel (tick + 1) c.state c.manager).effects,
        failedAssert := (ev_run L fuel (tick + 1) c.state c.manager).failedAssert } := by
  have h0 : ¬ (m.prepareStarted = false ∧ m.checkStarted = false) := by
    rw [hp]
    simp
  conv => lhs; unfold ev_run
  rw [if_neg h0]
  simp only [hp, if_true, hpf, hc, hcdef, hcf]

theorem ev_run_resolves (L : LoopEnv) {deadline : Nat → Option timeval} {fdOf : Nat → Int}
    (hsel : SelectInfoSpec L.snmp_sess_select_info deadline fdOf)
    (h : Nat) (hh : h ≠ 0) (rec : req_data) (hrec : rec.type_ ≠ .REQ_BULK) (j : Nat) :
    ∀ (tick fuel : Nat) (m : SnmpSessionManager) (e : storage_el),
      (∀ t, tick ≤ t → t < tick + j →
        ∀ rs, L.onRead t h rs { queue_ := [rec], sessionHandle_ := h } = [] ∧
          L.onTimeout t h { queue_ := [rec], sessionHandle_ := h } = []) →
      (∀ rs, ∃ c, L.onRead (tick + j) h rs { queue_ := [rec], sessionHandle_ := h } = [c] ∧
        c.reqid = rec.pdu_.reqid) →
      (∃ c, L.onTimeout (tick + j) h { queue_ := [rec], sessionHandle_ := h } = [c] ∧
        c.reqid = rec.pdu_.reqid) →
      m.storage_ = [e] → e.snmpHandle_ = h → m.prepareStarted = true →
      m.checkStarted = true → j < fuel →
      (ev_run L fuel tick { queue_ := [rec], sessionHandle_ := h } m).failedAssert = none ∧
      (ev_run L fuel tick { queue_ := [rec], sessionHandle_ := h } m).session
        = { queue_ := [], sessionHandle_ := h } ∧
      (ev_run L fuel tick { queue_ := [rec], sessionHandle_ := h } m).manager
        = { storage_ := [], prepareStarted := false, checkStarted := false,
            timeout_active_ := false } ∧
      ∃ a0 a1, (ev_run L fuel tick { queue_ := [rec], sessionHandle_ := h } m).effects.calls
        = [{ magic := rec, arg0 := a0, arg1 := a1 }] := by
  induction j with
  | zero =>
    intro tick fuel m e _ hdelR hdelT hs he hp hcs hfuel
    obtain ⟨fuel, rfl⟩ : ∃ f, fuel = f + 1 := ⟨fuel - 1, by omega⟩
    obtain ⟨p1, p2, p3, e1, p4, p5⟩ := prepare_cb_single hsel L.timeout0 m e hs
    obtain ⟨q1, q2, e2, q3, q4⟩ := pollEvents_single (L.ready tick) _ e1 p4
    obtain ⟨r1, r2, r3, a0, a1, r4⟩ := check_cb_single_resolves L tick h rec _ e2 q3
      (q4.trans (p5.trans he)) hh hrec (by simpa using hdelR) (by simpa using hdelT)
    rw [ev_run_armed L fuel tick _ m hp p1 (by rw [q2, p3, hcs]) _ rfl r1]
    rw [r2, r3, ev_run_stopped L fuel (tick + 1) _ _ rfl rfl]
    refine ⟨rfl, rfl, rfl, a0, a1, ?_⟩
    simp only [Effects.calls_append, r4, Effects.empty, List.append_nil]
  | succ j ih =>
    intro tick fuel m e hidle hdelR hdelT hs he hp hcs hfuel
    obtain ⟨fuel, rfl⟩ : ∃ f, fuel = f + 1 := ⟨fuel - 1, by omega⟩
    obtain ⟨p1, p2, p3, e1, p4, p5⟩ := prepare_cb_single hsel L.timeout0 m e hs
    obtain ⟨q1, q2, e2, q3, q4⟩ := pollEvents_single (L.ready tick) _ e1 p4
    obtain ⟨r1, r2, r3, r4⟩ := check_cb_single_idle L tick
      { queue_ := [rec], sessionHandle_ := h } _ e2 q3
      (q4.trans (p5.trans he)) hh (hidle tick (le_refl _) (by omega))
    rw [ev_run_armed L fuel tick _ m hp p1 (by rw [q2, p3, hcs]) _ rfl r1]
    rw [r2, r3, r4]
    obtain ⟨i1, i2, i3, a0, a1, i4⟩ := ih (tick + 1) fuel
      { pollEvents (L.ready tick)
          (prepare_cb L.snmp_sess_select_info L.timeout0 m).manager with
        storage_ := [{ e2 with io_watcher_ := e2.io_watcher_.stop }],
        timeout_active_ := false }
      { e2 with io_watcher_ := e2.io_watcher_.stop }
      (fun t ht1 ht2 => hidle t (by omega) (by omega))
      (by
        have : tick + 1 + j = tick + (j + 1) := by omega
        rw [this]
        exact hdelR)
      (by
        have : tick + 1 + j = tick + (j + 1) := by omega
        rw [this]
        exact hdelT)
      rfl (q4.trans (p5.trans he)) (by rw [q1, p2, hp]) (by rw [q2, p3, hcs]) (by omega)
    refine ⟨i1, i2, i3, a0, a1, ?_⟩
    simp only [Effects.calls_append, Effects.empty, List.nil_append]
    exact i4

theorem performSync_resolves (renv : RequestEnv) (L : LoopEnv) (fuel : Nat) (aType : req_type)
    (cb : Nat) (inst : SnmpSession) (m : SnmpSessionManager) (pdu : netsnmp_pdu)
    {deadline : Nat → Option timeval} {fdOf : Nat → Int} (j : Nat)
    (hrun : renv.ev_run = ev_run L fuel 0)
    (hsel : SelectInfoSpec L.snmp_sess_select_info deadline fdOf)
    (hh : renv.clone_handle ≠ 0) (hsent : renv.sess_send renv.clone_handle pdu ≠ 0)
    (hty : aType ≠ .REQ_BULK)
    (hres : ResolvesAt L renv.clone_handle { pdu_ := pdu, type_ := aType, callback_ := cb } j)
    (hfuel : j < fuel) :
    (performSync renv aType pdu cb inst m).thrown = none ∧
    (performSync renv aType pdu cb inst m).aborted = none ∧
    (performSync renv aType pdu cb inst m).clone
      = some ({ queue_ := [], sessionHandle_ := renv.clone_handle },
              { storage_ := [], prepareStarted := false, checkStarted := false,
                timeout_active_ := false }) ∧
    ∃ a0 a1, (performSync renv aType pdu cb inst m).effects.calls
      = [{ magic := { pdu_ := pdu, type_ := aType, callback_ := cb }, arg0 := a0, arg1 := a1 }] := by
  obtain ⟨hidle, hdelR, hdelT⟩ := hres
  obtain ⟨r1, r2, r3, a0, a1, r4⟩ := ev_run_resolves L hsel renv.clone_handle hh
    { pdu_ := pdu, type_ := aType, callback_ := cb } hty j 0 fuel
    { storage_ := [storage_el.ofHandle renv.clone_handle], prepareStarted := true,
      checkStarted := true, timeout_active_ := false }
    (storage_el.ofHandle renv.clone_handle)
    (fun t _ ht => hidle t (by omega))
    (by simpa using hdelR) (by simpa using hdelT) rfl rfl rfl rfl hfuel
  have hP : PerformRequestImpl (renv.sess_send renv.clone_handle pdu) aType pdu cb
      (SnmpSession.fresh renv.clone_handle) SnmpSessionManager.fresh
      = { session := { queue_ := [{ pdu_ := pdu, type_ := aType, callback_ := cb }],
                       sessionHandle_ := renv.clone_handle },
          manager := { storage_ := [storage_el.ofHandle renv.clone_handle],
                       prepareStarted := true, checkStarted := true, timeout_active_ := false },
          thrown := none, sends := [(renv.clone_handle, pdu)] } := by
    simp [PerformRequestImpl, hsent, SnmpSession.fresh, SnmpSessionManager.fresh,
      SnmpSessionManager.addClient]
  unfold performSync
  simp only [hh, if_false, SnmpSession.fresh, hrun]
  simp only [SnmpSession.fresh] at hP
  rw [hP]
  simp only [r1, r2, r3, List.isEmpty_nil, if_true]
  exact ⟨trivial, trivial, trivial, a0, a1, r4⟩

theorem exampleLoop_resolves :
    ResolvesAt exampleLoop 9
      { pdu_ := { command := 0, reqid := 5, errstat := 0,
                  variables_ := [{ name := [1, 3], type := ASN_NULL, val := [] }] },
        type_ := .REQ_GET, callback_ := 200 }
      1 := by
  refine ⟨?_, fun _ => ⟨_, rfl, rfl⟩, ⟨_, rfl, rfl⟩⟩
  intro t ht rs
  have h0 : t = 0 := by omega
  subst h0
  exact ⟨rfl, rfl⟩

theorem completionOps_sound (env : Env) (operation reqid : Int) (pdu : netsnmp_pdu)
    (s : SnmpSession) (m : SnmpSessionManager) :
    applyOps (completionOps reqid s) m
        = some (snmp_cb_proxy env operation reqid pdu s m).manager ∨
    (applyOps (completionOps reqid s) m = none ∧
      (snmp_cb_proxy env operation reqid pdu s m).failedAssert
        = some "it != storage_.end()") := by
  unfold completionOps snmp_cb_proxy
  cases hf : findRequest reqid s.queue_ with
  | none => exact Or.inl rfl
  | some p =>
    obtain ⟨i, k⟩ := p
    simp only [eraseAndDeregister]
    by_cases h0 : (s.queue_.eraseIdx i).length = 0
    · simp only [h0, if_true, applyOps, ClientOp.apply]
      cases hr : m.removeClient s.sessionHandle_ with
      | none => exact Or.inr ⟨rfl, rfl⟩
      | some m1 =>
        left
        simp only [(deliver_session _ _ _ _ _ _ _).2]
    · simp only [h0, if_false, applyOps]
      left
      simp only [(deliver_session _ _ _ _ _ _ _).2]

/-! ## The claims on faults, the synchronous call and the reactor -/

/-- C11, the code at the failing input: the only pending request (id 5) times
out and its continuation throws. The record is removed and the Endpoint
deregistered, the continuation is called with `timeout`, but nothing is passed
to `node::FatalException`: the exception is left uncaught by `snmp_fail_cb`.
On the success path the same throwing continuation is reported. -/
theorem fail_cb_exception_not_reported :
    (snmp_cb_proxy throwingEnv NETSNMP_CALLBACK_OP_TIMED_OUT 5 (examplePdu 5)
        { queue_ := [exampleReq .REQ_GET 5 100], sessionHandle_ := 7 }
        (exampleManager 7)).effects
      = { calls := [{ magic := exampleReq .REQ_GET 5 100, arg0 := .symbol "timeout",
                      arg1 := .null }],
          fatal := [], uncaught := [100], disposed := [100] } ∧
    (snmp_cb_proxy throwingEnv NETSNMP_CALLBACK_OP_TIMED_OUT 5 (examplePdu 5)
        { queue_ := [exampleReq .REQ_GET 5 100], sessionHandle_ := 7 }
        (exampleManager 7)).session.queue_ = [] ∧
    liveEntries 7
      (snmp_cb_proxy throwingEnv NETSNMP_CALLBACK_OP_TIMED_OUT 5 (examplePdu 5)
        { queue_ := [exampleReq .REQ_GET 5 100], sessionHandle_ := 7 }
        (exampleManager 7)).manager = 0 ∧
    (snmp_cb_proxy throwingEnv NETSNMP_CALLBACK_OP_RECEIVED_MESSAGE 5 (examplePdu 5)
        { queue_ := [exampleReq .REQ_GET 5 100], sessionHandle_ := 7 }
        (exampleManager 7)).effects.fatal = [100] ∧
    (snmp_cb_proxy throwingEnv NETSNMP_CALLBACK_OP_RECEIVED_MESSAGE 5 (examplePdu 5)
        { queue_ := [exampleReq .REQ_GET 5 100], sessionHandle_ := 7 }
        (exampleManager 7)).effects.uncaught = [] := by
  refine ⟨rfl, rfl, rfl, rfl, rfl⟩

/-- C12: a synchronous request (`PerformRequest` with the sync flag `true`, a
well-formed OID argument and `EV_MULTIPLICITY`) on an Endpoint `inst` with any
queue of outstanding requests, whose private loop is `ev_run` run for any
number of iterations with any behaviour of libev and net-snmp, leaves `inst`
(so its queue) and the default manager (so its registry) exactly as they were;
every continuation invoked during the call is that of the record of the
synchronous request, so no continuation of an outstanding request of `inst` is
invoked; and when the clone is opened and the query is sent, the query is sent
on the handle of the clone only, and the private loop starts from the clone
with that one record in its queue and the private manager with the one entry of
the clone in its registry. Moreover, when `snmp_sess_select_info` follows
`SelectInfoSpec`, the request is a GET or GETNEXT and the engine resolves it in
an iteration the loop reaches (`ResolvesAt`), exactly one continuation call is
made during the whole call, that of the synchronous request. -/
theorem sync_request_frame (renv : RequestEnv) (L : LoopEnv) (fuel : Nat) (aType : req_type)
    (kOidArg : List V8Value) (cb : Nat) (more : List V8Value) (inst : SnmpSession)
    (m : SnmpSessionManager) (pdu : netsnmp_pdu)
    (hrun : renv.ev_run = ev_run L fuel 0) (hmult : renv.ev_multiplicity = true)
    (hq : buildQuery renv aType kOidArg = .ok pdu) :
    (PerformRequest renv aType (.array kOidArg :: .function cb :: .boolean true :: more)
      inst m).inst = inst ∧
    (PerformRequest renv aType (.array kOidArg :: .function cb :: .boolean true :: more)
      inst m).manager = m ∧
    (∀ c ∈ (PerformRequest renv aType
        (.array kOidArg :: .function cb :: .boolean true :: more) inst m).effects.calls,
      c.magic = { pdu_ := pdu, type_ := aType, callback_ := cb }) ∧
    (∀ k ∈ inst.queue_, k.callback_ ≠ cb →
      ∀ c ∈ (PerformRequest renv aType
        (.array kOidArg :: .function cb :: .boolean true :: more) inst m).effects.calls,
      c.magic.callback_ ≠ k.callback_) ∧
    (renv.clone_handle ≠ 0 → renv.sess_send renv.clone_handle pdu ≠ 0 →
      (PerformRequest renv aType (.array kOidArg :: .function cb :: .boolean true :: more)
        inst m).sends = [(renv.clone_handle, pdu)] ∧
      (PerformRequest renv aType (.array kOidArg :: .function cb :: .boolean true :: more)
        inst m).clone
        = some
          ((ev_run L fuel 0
              { queue_ := [{ pdu_ := pdu, type_ := aType, callback_ := cb }],
                sessionHandle_ := renv.clone_handle }
              { storage_ := [storage_el.ofHandle renv.clone_handle], prepareStarted := true,
                checkStarted := true, timeout_active_ := false }).session,
           (ev_run L fuel 0
              { queue_ := [{ pdu_ := pdu, type_ := aType, callback_ := cb }],
                sessionHandle_ := renv.clone_handle }
              { storage_ := [storage_el.ofHandle renv.clone_handle], prepareStarted := true,
                checkStarted := true, timeout_active_ := false }).manager)) ∧
    (∀ (deadline : Nat → Option timeval) (fdOf : Nat → Int) (j : Nat),
      SelectInfoSpec L.snmp_sess_select_info deadline fdOf →
      renv.clone_handle ≠ 0 → renv.sess_send renv.clone_handle pdu ≠ 0 →
      aType ≠ .REQ_BULK →
      ResolvesAt L renv.clone_handle { pdu_ := pdu, type_ := aType, callback_ := cb } j →
      j < fuel →
      ∃ a0 a1, (PerformRequest renv aType
          (.array kOidArg :: .function cb :: .boolean true :: more) inst m).effects.calls
        = [{ magic := { pdu_ := pdu, type_ := aType, callback_ := cb },
             arg0 := a0, arg1 := a1 }]) := by
  have hP : PerformRequest renv aType
      (.array kOidArg :: .function cb :: .boolean true :: more) inst m
      = performSync renv aType pdu cb inst m := by
    simp [PerformRequest, performChecked, hq, hmult]
  rw [hP]
  have hcalls : ∀ c ∈ (performSync renv aType pdu cb inst m).effects.calls,
      c.magic = { pdu_ := pdu, type_ := aType, callback_ := cb } := by
    unfold performSync
    split_ifs with h0
    · simp [Effects.empty]
    · simp only [hrun]
      intro c hc
      have hsub := (ev_run_sub L fuel 0 _ _ [{ pdu_ := pdu, type_ := aType, callback_ := cb }]
        (by
          unfold PerformRequestImpl SnmpSession.fresh
          split_ifs <;> simp) ).1 c hc
      simpa using hsub
  refine ⟨?_, ?_, hcalls, ?_, ?_, ?_⟩
  · unfold performSync
    split_ifs <;> rfl
  · unfold performSync
    split_ifs <;> rfl
  · intro k _ hk c hc
    rw [hcalls c hc]
    exact fun h => hk h.symm
  · intro h0 hsent
    simp [performSync, h0, hrun, PerformRequestImpl, hsent, SnmpSession.fresh,
      SnmpSessionManager.fresh, SnmpSessionManager.addClient]
  · intro deadline fdOf j hsel h0 hsent hty hres hfuel
    exact (performSync_resolves renv L fuel aType cb inst m pdu j hrun hsel h0 hsent hty hres
      hfuel).2.2.2

/-- Witness for C12: a synchronous GET on a session with one outstanding
request (continuation 100), with the private loop `exampleLoop` run for at most
five iterations: the session and the default manager are as before, and the
only continuation invoked is that of the synchronous request (200). -/
theorem sync_request_frame_witness :
    (exampleSyncEnv 5).ev_run = ev_run exampleLoop 5 0 ∧
    buildQuery (exampleSyncEnv 5) .REQ_GET [.number 1, .number 3]
      = .ok { command := 0, reqid := 5, errstat := 0,
              variables_ := [{ name := [1, 3], type := ASN_NULL, val := [] }] } ∧
    (PerformRequest (exampleSyncEnv 5) .REQ_GET
      [.array [.number 1, .number 3], .function 200, .boolean true]
      { queue_ := [exampleReq .REQ_GET 7 100], sessionHandle_ := 7 } (exampleManager 7)).inst
      = { queue_ := [exampleReq .REQ_GET 7 100], sessionHandle_ := 7 } ∧
    (PerformRequest (exampleSyncEnv 5) .REQ_GET
      [.array [.number 1, .number 3], .function 200, .boolean true]
      { queue_ := [exampleReq .REQ_GET 7 100], sessionHandle_ := 7 } (exampleManager 7)).manager
      = exampleManager 7 ∧
    (PerformRequest (exampleSyncEnv 5) .REQ_GET
      [.array [.number 1, .number 3], .function 200, .boolean true]
      { queue_ := [exampleReq .REQ_GET 7 100], sessionHandle_ := 7 }
      (exampleManager 7)).effects.calls.map (fun c => c.magic.callback_) = [200] ∧
    ∃ a0 a1, (PerformRequest (exampleSyncEnv 5) .REQ_GET
      [.array [.number 1, .number 3], .function 200, .boolean true]
      { queue_ := [exampleReq .REQ_GET 7 100], sessionHandle_ := 7 }
      (exampleManager 7)).effects.calls
      = [{ magic := { pdu_ := { command := 0, reqid := 5, errstat := 0,
                                variables_ := [{ name := [1, 3], type := ASN_NULL, val := [] }] },
                      type_ := .REQ_GET, callback_ := 200 },
           arg0 := a0, arg1 := a1 }] :=
  ⟨rfl, rfl,
    (sync_request_frame (exampleSyncEnv 5) exampleLoop 5 .REQ_GET [.number 1, .number 3] 200 []
      { queue_ := [exampleReq .REQ_GET 7 100], sessionHandle_ := 7 } (exampleManager 7)
      { command := 0, reqid := 5, errstat := 0,
        variables_ := [{ name := [1, 3], type := ASN_NULL, val := [] }] } rfl rfl rfl).1,
    (sync_request_frame (exampleSyncEnv 5) exampleLoop 5 .REQ_GET [.number 1, .number 3] 200 []
      { queue_ := [exampleReq .REQ_GET 7 100], sessionHandle_ := 7 } (exampleManager 7)
      { command := 0, reqid := 5, errstat := 0,
        variables_ := [{ name := [1, 3], type := ASN_NULL, val := [] }] } rfl rfl rfl).2.1,
    by decide,
    (sync_request_frame (exampleSyncEnv 5) exampleLoop 5 .REQ_GET [.number 1, .number 3] 200 []
      { queue_ := [exampleReq .REQ_GET 7 100], sessionHandle_ := 7 } (exampleManager 7)
      { command := 0, reqid := 5, errstat := 0,
        variables_ := [{ name := [1, 3], type := ASN_NULL, val := [] }] }
      rfl rfl rfl).2.2.2.2.2 exampleDeadline exampleFd
      1 exampleSelectInfo_spec (by decide) (by decide) (by decide) exampleLoop_resolves
      (by decide)⟩

/-- C13: entries leave the registry of a bridge only in the post-poll phase.
`removeClient` keeps the length and the order of the registry: it sets to NULL
the handle of the first entry whose handle equals its argument and changes
nothing else, and it fails its assertion exactly when no entry has that handle.
`addClient` only pushes one entry to the front. `prepare_cb_impl` keeps every
entry and its handle (it touches watchers only). `check_cb_impl` erases only
entries whose handle is NULL at the moment of the erase, and after a pass that
ran to its end the registry consists of the entries registered during the pass
followed by the visited entries that were not erased. -/
theorem entries_leave_only_in_check {σ : Type} (eng : Engine σ) (w : σ) (t0 : timeval)
    (m : SnmpSessionManager) (aSnmp : Nat) :
    (∀ m1, m.removeClient aSnmp = some m1 →
      ∃ pre e post, m.storage_ = pre ++ e :: post ∧ e.snmpHandle_ = aSnmp ∧
        (∀ x ∈ pre, x.snmpHandle_ ≠ aSnmp) ∧
        m1.storage_ = pre ++ { e with snmpHandle_ := 0 } :: post) ∧
    (m.removeClient aSnmp = none ↔ ∀ e ∈ m.storage_, e.snmpHandle_ ≠ aSnmp) ∧
    (m.addClient aSnmp).storage_ = storage_el.ofHandle aSnmp :: m.storage_ ∧
    (prepare_cb_impl eng.snmp_sess_select_info t0 m).manager.storage_.map
        (fun e => e.snmpHandle_) = m.storage_.map (fun e => e.snmpHandle_) ∧
    (∀ v ∈ (check_cb_impl eng w m).visits, ∀ x ∈ v.erased, x.snmpHandle_ = 0) ∧
    ((check_cb_impl eng w m).failedAssert = none →
      ∃ added kept, (check_cb_impl eng w m).manager.storage_ = added ++ kept ∧
        List.Forall₂ FlagRel (addedDuring (check_cb_impl eng w m).visits) added ∧
        List.Forall₂ KeptRel
          ((check_cb_impl eng w m).visits.filter (fun v => v.erased.isNone)) kept) := by
  refine ⟨?_, ?_, (addClient_fields m aSnmp).1, (prepare_cb_impl_fields _ t0 m).1, ?_, ?_⟩
  · intro m1 h
    exact flagFirst_eq_some (removeClient_fields h).2.2.2
  · constructor
    · intro h
      apply flagFirst_eq_none.mp
      cases hf : flagFirst aSnmp m.storage_ with
      | none => rfl
      | some st => simp [SnmpSessionManager.removeClient, hf] at h
    · intro h
      simp [SnmpSessionManager.removeClient, flagFirst_eq_none.mpr h]
  · rw [check_cb_impl_visits]
    exact checkLoop_erased eng _ _ _ _ _
  · obtain ⟨l1, l2, l3, -, -⟩ := check_cb_impl_loop eng w m
    obtain ⟨-, h2, -⟩ := checkLoop_visits eng m.storage_.length m.storage_.length [] w
      { m with timeout_active_ := false } [] m.storage_ rfl rfl (le_refl _)
    rw [l1, l2, l3]
    intro hfa
    obtain ⟨-, added, front1, kept, b2, b3, b4, b5⟩ := h2 hfa
    cases b4
    exact ⟨added, kept, by simpa using b2, b3, b5⟩

/-- Witness for C13: on `exampleBridge`, `removeClient` of session 8 flags the
third entry and changes nothing else, `removeClient` of the unregistered
session 5 fails its assertion, and every entry the check pass erases has a NULL
handle. -/
theorem entries_leave_only_in_check_witness :
    exampleBridge.removeClient 8
      = some { exampleBridge with
          storage_ := [exampleEntry 7 17 1, exampleEntry 0 15 0, exampleEntry 0 18 1,
                       exampleEntry 9 19 0] } ∧
    (∃ pre e post, exampleBridge.storage_ = pre ++ e :: post ∧ e.snmpHandle_ = 8 ∧
      (∀ x ∈ pre, x.snmpHandle_ ≠ 8) ∧
      [exampleEntry 7 17 1, exampleEntry 0 15 0, exampleEntry 0 18 1, exampleEntry 9 19 0]
        = pre ++ { e with snmpHandle_ := 0 } :: post) ∧
    exampleBridge.removeClient 5 = none ∧
    (check_cb_impl exampleEngine () exampleBridge).failedAssert = none ∧
    (check_cb_impl exampleEngine () exampleBridge).visits.map (fun v => v.erased)
      = [some { snmpHandle_ := 0, io_watcher_ := { fd := 17, active := false, pending := 0 } },
         some { snmpHandle_ := 0, io_watcher_ := { fd := 15, active := true, pending := 0 } },
         some { snmpHandle_ := 0, io_watcher_ := { fd := 18, active := false, pending := 0 } },
         none] :=
  ⟨by decide,
    (entries_leave_only_in_check exampleEngine () ⟨0, 0⟩ exampleBridge 8).1
      { exampleBridge with
        storage_ := [exampleEntry 7 17 1, exampleEntry 0 15 0, exampleEntry 0 18 1,
                     exampleEntry 9 19 0] } (by decide),
    (entries_leave_only_in_check exampleEngine () ⟨0, 0⟩ exampleBridge 5).2.1.mpr (by decide),
    by decide, by decide⟩

/-- C14: assume `snmp_sess_select_info` follows `SelectInfoSpec` (it lowers the
running timeout to the deadline of the session when `block` is still set or the
deadline is earlier, and then clears `block`) and the registry is non-empty.
Then `prepare_cb_impl` fails no assertion; it starts the shared timer if and
only if some live (non-flagged) entry reports a deadline; the delay it starts
the timer with is, as the exact value `tv_sec + tv_usec / 1000000`, the deadline
of a live entry and is not later than the deadline of any live entry, so it is
the minimum of the deadlines of the live entries; flagged entries are not
consulted, and `timeout_.active_` is set exactly when the timer is started. -/
theorem prepare_arms_nearest_deadline (sel : Nat → timeval → Bool → SelectInfo)
    (deadline : Nat → Option timeval) (fdOf : Nat → Int) (t0 : timeval)
    (m : SnmpSessionManager)
    (hsel : SelectInfoSpec sel deadline fdOf) (hne : m.storage_ ≠ []) :
    (prepare_cb_impl sel t0 m).failedAssert = none ∧
    ((prepare_cb_impl sel t0 m).timer ≠ none ↔
      ∃ e ∈ m.storage_, e.snmpHandle_ ≠ 0 ∧ ∃ d, deadline e.snmpHandle_ = some d) ∧
    (∀ delay : ℚ, (prepare_cb_impl sel t0 m).timer = some delay →
      (∃ e ∈ m.storage_, e.snmpHandle_ ≠ 0 ∧
        ∃ d, deadline e.snmpHandle_ = some d ∧ delay = d.tv_sec + d.tv_usec / 1000000) ∧
      (∀ e ∈ m.storage_, e.snmpHandle_ ≠ 0 → ∀ d, deadline e.snmpHandle_ = some d →
        delay ≤ d.tv_sec + d.tv_usec / 1000000) ∧
      (prepare_cb_impl sel t0 m).manager.timeout_active_ = true) ∧
    ((prepare_cb_impl sel t0 m).timer = none →
      (prepare_cb_impl sel t0 m).manager.timeout_active_ = m.timeout_active_) := by
  obtain ⟨h1, h2, h3⟩ := prepareLoop_spec hsel m.storage_ t0 true
  have hempty : m.storage_.isEmpty = false := by
    cases hs : m.storage_ with
    | nil => exact absurd hs hne
    | cons a as => rfl
  cases hb : (prepareLoop sel m.storage_ t0 true).block with
  | true =>
    have hnone := (h2.mp hb).2
    have hres : prepare_cb_impl sel t0 m =
        { manager := { m with storage_ := (prepareLoop sel m.storage_ t0 true).storage },
          timer := none, failedAssert := none } := by
      simp [prepare_cb_impl, hempty, h1, hb]
    rw [hres]
    refine ⟨rfl, ?_, ?_, fun _ => rfl⟩
    · simp only [ne_eq, not_true_eq_false, false_iff, not_exists, not_and]
      intro e he hlive d hd
      have : d ∈ liveDeadlines deadline m.storage_ := mem_liveDeadlines.mpr ⟨e, he, hlive, hd⟩
      rw [hnone] at this
      exact absurd this (List.not_mem_nil _)
    · intro delay hdelay
      cases hdelay
  | false =>
    obtain ⟨h4, -, h6⟩ := h3 hb
    have hmem : (prepareLoop sel m.storage_ t0 true).timeout ∈ liveDeadlines deadline m.storage_ := by
      rcases h6 with h6 | ⟨h6, -⟩
      · exact h6
      · cases h6
    have hres : prepare_cb_impl sel t0 m =
        { manager := { m with storage_ := (prepareLoop sel m.storage_ t0 true).storage,
                              timeout_active_ := true },
          timer := some (prepareLoop sel m.storage_ t0 true).timeout.toSeconds,
          failedAssert := none } := by
      simp [prepare_cb_impl, hempty, h1, hb]
    rw [hres]
    obtain ⟨e, he, hlive, hd⟩ := mem_liveDeadlines.mp hmem
    refine ⟨rfl, ?_, ?_, ?_⟩
    · simp only [ne_eq, reduceCtorEq, not_false_eq_true, true_iff]
      exact ⟨e, he, hlive, _, hd⟩
    · intro delay hdelay
      simp only [Option.some.injEq] at hdelay
      subst hdelay
      refine ⟨⟨e, he, hlive, _, hd, rfl⟩, ?_, rfl⟩
      intro e2 he2 hlive2 d2 hd2
      exact h4 d2 (mem_liveDeadlines.mpr ⟨e2, he2, hlive2, hd2⟩)
    · intro hc
      cases hc

/-- Witness for C14: on `exampleBridge` (deadlines 2.5 s for session 7 and
1.25 s for session 8, one flagged entry, session 9 without deadline) the timer
is started with the delay 5/4. -/
theorem prepare_arms_nearest_deadline_witness :
    SelectInfoSpec exampleSelectInfo exampleDeadline exampleFd ∧
    exampleBridge.storage_ ≠ [] ∧
    (prepare_cb_impl exampleSelectInfo { tv_sec := 0, tv_usec := 0 } exampleBridge).failedAssert
      = none ∧
    ((prepare_cb_impl exampleSelectInfo { tv_sec := 0, tv_usec := 0 } exampleBridge).timer ≠ none ↔
      ∃ e ∈ exampleBridge.storage_, e.snmpHandle_ ≠ 0 ∧
        ∃ d, exampleDeadline e.snmpHandle_ = some d) ∧
    (prepare_cb_impl exampleSelectInfo { tv_sec := 0, tv_usec := 0 } exampleBridge).timer
      = some (5 / 4) :=
  ⟨exampleSelectInfo_spec, by decide,
    (prepare_arms_nearest_deadline exampleSelectInfo exampleDeadline exampleFd
      { tv_sec := 0, tv_usec := 0 } exampleBridge exampleSelectInfo_spec (by decide)).1,
    (prepare_arms_nearest_deadline exampleSelectInfo exampleDeadline exampleFd
      { tv_sec := 0, tv_usec := 0 } exampleBridge exampleSelectInfo_spec (by decide)).2.1,
    by
      simp [prepare_cb_impl, prepareLoop, exampleBridge, exampleEntry, exampleSelectInfo,
        exampleDeadline, exampleFd, timeval.toSeconds]
      norm_num⟩

/-- C15, the code at the counterexample: on `exampleBridge` the entries have
the descriptors 17, 15, 18 and 19, and sessions 7 and 8 are readable. The read
handler of session 8 is called with the read set that holds the descriptors 17
and 18: the set is cleared once before the loop, so it still holds the
descriptor of session 7, found readable earlier in the pass. -/
theorem read_set_keeps_earlier_descriptors :
    exampleBridge.storage_.map (fun e => (e.snmpHandle_, e.io_watcher_.fd))
      = [(7, 17), (0, 15), (8, 18), (9, 19)] ∧
    (check_cb_impl exampleEngine () exampleBridge).visits.map (fun v => v.call)
      = [some (.read 7 [17]), none, some (.read 8 [17, 18]), some (.timeout 9)] := by
  decide

/-- C15, amended: in `check_cb_impl` the `i`-th iteration is for the entry at
position `i` of the registry the pass began with, as it is when the pass
reaches it (`found`). If it is flagged then, it is erased and no handler is
called for it. If it is live then, exactly one handler call is made for it: when
a read event is pending on its watcher, `snmp_sess_read` with its handle and a
read set that holds its descriptor and the descriptors of the live entries
found readable earlier in the same pass, and no other descriptor; otherwise
`snmp_sess_timeout` with its handle. Unless the pass stops at an assertion in
that iteration, the watcher is stopped afterwards: an entry erased after its
handler has a NULL handle and the stopped watcher, and when the pass runs to
its end every entry is reached and the visited entries that stay in the
registry carry their stopped watchers (`KeptRel`). -/
theorem check_pass_handler_calls {σ : Type} (eng : Engine σ) (w : σ) (m : SnmpSessionManager) :
    (∀ i v, (check_cb_impl eng w m).visits[i]? = some v →
      (∃ x, m.storage_[i]? = some x ∧ FlagRel x v.found) ∧
      (v.found.snmpHandle_ = 0 →
        v.call = none ∧ v.ops = [] ∧ v.stopped = false ∧ v.erased = some v.found) ∧
      (v.found.snmpHandle_ ≠ 0 →
        (v.found.io_watcher_.readable = true →
          ∃ set, v.call = some (.read v.found.snmpHandle_ set) ∧
            ∀ fd, fd ∈ set ↔ fd = v.found.io_watcher_.fd ∨
              ∃ u ∈ (check_cb_impl eng w m).visits.take i, u.found.snmpHandle_ ≠ 0 ∧
                u.found.io_watcher_.readable = true ∧ u.found.io_watcher_.fd = fd) ∧
        (v.found.io_watcher_.readable = false →
          v.call = some (.timeout v.found.snmpHandle_)) ∧
        (v.stopped = true ∨ ((check_cb_impl eng w m).failedAssert ≠ none ∧
          i + 1 = (check_cb_impl eng w m).visits.length)) ∧
        (∀ x, v.erased = some x →
          x = { snmpHandle_ := 0, io_watcher_ := v.found.io_watcher_.stop }))) ∧
    ((check_cb_impl eng w m).failedAssert = none →
      (check_cb_impl eng w m).visits.length = m.storage_.length ∧
      ∃ added kept, (check_cb_impl eng w m).manager.storage_ = added ++ kept ∧
        List.Forall₂ KeptRel
          ((check_cb_impl eng w m).visits.filter (fun v => v.erased.isNone)) kept) := by
  obtain ⟨l1, l2, l3, -, -⟩ := check_cb_impl_loop eng w m
  obtain ⟨h1, h2, -⟩ := checkLoop_visits eng m.storage_.length m.storage_.length [] w
    { m with timeout_active_ := false } [] m.storage_ rfl rfl (le_refl _)
  have hc := checkLoop_calls eng m.storage_.length m.storage_.length [] w
    { m with timeout_active_ := false } [] m.storage_ rfl rfl
  rw [l1, l2, l3]
  constructor
  · intro i v hv
    obtain ⟨-, -, a3⟩ := h1 i v hv
    obtain ⟨c1, c2⟩ := hc i v hv
    refine ⟨a3, c1, fun hlive => ?_⟩
    obtain ⟨d1, d2, d3⟩ := c2 hlive
    refine ⟨?_, ?_, d2, d3⟩
    · intro hr
      refine ⟨FD_SET v.found.io_watcher_.fd (readSetOf []
        ((checkLoop eng m.storage_.length m.storage_.length [] w
          { m with timeout_active_ := false }).visits.take i)), ?_, ?_⟩
      · rw [d1]
        simp only [handlerCallFor, hr, if_true]
      · intro fd
        rw [mem_FD_SET, mem_readSetOf]
        simp only [List.not_mem_nil, false_or]
    · intro hr
      rw [d1]
      simp only [handlerCallFor, hr, Bool.false_eq_true, if_false]
  · intro hfa
    obtain ⟨b1, added, front1, kept, b2, -, b4, b5⟩ := h2 hfa
    cases b4
    exact ⟨b1, added, kept, by simpa using b2, b5⟩

/-- Witness for C15: the third iteration on `exampleBridge` is for session 8,
whose watcher has a pending read event; the read handler is called once with
the descriptors 17 and 18 in the read set, and the entry, which the handler
flags, is erased with its watcher stopped. -/
theorem check_pass_handler_calls_witness :
    ∃ v, (check_cb_impl exampleEngine () exampleBridge).visits[2]? = some v ∧
      v.found = exampleEntry 8 18 1 ∧
      (∃ x, exampleBridge.storage_[2]? = some x ∧ FlagRel x v.found) ∧
      v.call = some (.read 8 [17, 18]) ∧
      (∀ x, v.erased = some x →
        x = { snmpHandle_ := 0, io_watcher_ := v.found.io_watcher_.stop }) :=
  ⟨_, rfl, rfl,
    ((check_pass_handler_calls exampleEngine () exampleBridge).1 2 _ rfl).1,
    rfl,
    (((check_pass_handler_calls exampleEngine () exampleBridge).1 2 _ rfl).2.2
      (by decide)).2.2.2⟩

/-- C16: the post-poll pass is not disturbed by handlers that deregister or
register sessions while it runs. For every engine, every outside state and
every registry: the `i`-th iteration of `check_cb_impl` is for the entry that
stood at position `i` when the pass began, found as it was then or flagged
since (`FlagRel`); the pass stops early only when a handler it called stopped
at an assertion or a `removeClient` called by a handler failed its assertion;
and when the pass runs to its end its iterations are for the positions
`0, 1, ..., n - 1` in this order (each entry once, in registry order, none
twice and so none after its erasure), and the registry afterwards consists of
the entries the handlers registered during the pass (newest first, possibly
flagged since), none of which was visited, followed by the visited entries
that were not erased, in their order. -/
theorem check_pass_undisturbed {σ : Type} (eng : Engine σ) (w : σ) (m : SnmpSessionManager) :
    (∀ i v, (check_cb_impl eng w m).visits[i]? = some v →
      v.position = i ∧ v.behind = m.storage_.length - 1 - i ∧
      ∃ x, m.storage_[i]? = some x ∧ FlagRel x v.found) ∧
    ((check_cb_impl eng w m).failedAssert = none →
      (check_cb_impl eng w m).visits.map (fun v => v.position) = List.range m.storage_.length ∧
      ∃ added kept, (check_cb_impl eng w m).manager.storage_ = added ++ kept ∧
        List.Forall₂ FlagRel (addedDuring (check_cb_impl eng w m).visits) added ∧
        List.Forall₂ KeptRel
          ((check_cb_impl eng w m).visits.filter (fun v => v.erased.isNone)) kept) ∧
    (∀ a, (check_cb_impl eng w m).failedAssert = some a →
      ∃ c w1 m1, (eng.call c w1 m1).failedAssert = some a ∨
        (a = "it != storage_.end()" ∧ applyOps (eng.call c w1 m1).ops m1 = none)) := by
  obtain ⟨l1, l2, l3, -, -⟩ := check_cb_impl_loop eng w m
  obtain ⟨h1, h2, h3⟩ := checkLoop_visits eng m.storage_.length m.storage_.length [] w
    { m with timeout_active_ := false } [] m.storage_ rfl rfl (le_refl _)
  rw [l1, l2, l3]
  have hpos : ∀ i v, (checkLoop eng m.storage_.length m.storage_.length [] w
      { m with timeout_active_ := false }).visits[i]? = some v →
      v.position = i ∧ v.behind = m.storage_.length - 1 - i ∧
      ∃ x, m.storage_[i]? = some x ∧ FlagRel x v.found := by
    intro i v hv
    obtain ⟨a1, a2, a3⟩ := h1 i v hv
    exact ⟨by omega, a2, a3⟩
  refine ⟨hpos, ?_, h3⟩
  intro hfa
  obtain ⟨b1, added, front1, kept, b2, b3, b4, b5⟩ := h2 hfa
  cases b4
  refine ⟨?_, added, kept, by simpa using b2, b3, b5⟩
  have hr := map_eq_range_of_getElem? _ (fun v : Visit => v.position)
    (fun i v hv => (hpos i v hv).1)
  rw [b1] at hr
  exact hr

/-- Witness for C16: on `exampleBridge` the read handler of session 7 (engine
`exampleMeddler`) flags the last entry, which the pass has not reached yet, and
itself, and registers session 107; the handler of session 8 registers session
108. The pass runs to its end, visits the four positions in order, and leaves
the two new entries followed by the entry of session 8. -/
theorem check_pass_undisturbed_witness :
    (check_cb_impl exampleMeddler () exampleBridge).failedAssert = none ∧
    (check_cb_impl exampleMeddler () exampleBridge).visits.map (fun v => v.position)
      = List.range exampleBridge.storage_.length ∧
    (check_cb_impl exampleMeddler () exampleBridge).visits.map (fun v => v.call)
      = [some (.read 7 [17]), none, some (.read 8 [17, 18]), none] ∧
    (check_cb_impl exampleMeddler () exampleBridge).manager.storage_
      = [storage_el.ofHandle 108, storage_el.ofHandle 107,
         { snmpHandle_ := 8, io_watcher_ := { fd := 18, active := false, pending := 0 } }] :=
  ⟨by decide,
    ((check_pass_undisturbed exampleMeddler () exampleBridge).2.1 (by decide)).1,
    by decide, by decide⟩

/-- C17: the prepare and check hooks of a bridge are armed exactly when its
registry, counting flagged entries, is non-empty. `addClient` arms both hooks
when the registry was empty and leaves them alone otherwise; `removeClient`
and `prepare_cb_impl` change neither the hooks nor the number of entries; at
the end of `check_cb_impl` the shared timer is inactive and, when the pass ran
to its end, the hooks are disarmed if the registry is empty and unchanged if
it is not. So each of the four methods keeps `HooksInv`, and when `prepare_cb`
runs with its hook armed under `HooksInv`, neither of the two
non-empty-registry assertions of the pre-poll phase fails. -/
theorem hooks_armed_iff_registered {σ : Type} (eng : Engine σ) (w : σ) (t0 : timeval)
    (m : SnmpSessionManager) (aSnmp : Nat) :
    ((m.storage_ = [] → (m.addClient aSnmp).prepareStarted = true ∧
        (m.addClient aSnmp).checkStarted = true) ∧
      (m.storage_ ≠ [] → (m.addClient aSnmp).prepareStarted = m.prepareStarted ∧
        (m.addClient aSnmp).checkStarted = m.checkStarted)) ∧
    (∀ m1, m.removeClient aSnmp = some m1 →
      m1.prepareStarted = m.prepareStarted ∧ m1.checkStarted = m.checkStarted ∧
      m1.storage_.length = m.storage_.length) ∧
    ((prepare_cb_impl eng.snmp_sess_select_info t0 m).manager.prepareStarted = m.prepareStarted ∧
      (prepare_cb_impl eng.snmp_sess_select_info t0 m).manager.checkStarted = m.checkStarted ∧
      (prepare_cb_impl eng.snmp_sess_select_info t0 m).manager.storage_.length
        = m.storage_.length) ∧
    ((check_cb_impl eng w m).manager.timeout_active_ = false ∧
      ((check_cb_impl eng w m).failedAssert = none →
        ((check_cb_impl eng w m).manager.storage_ = [] →
          (check_cb_impl eng w m).manager.prepareStarted = false ∧
          (check_cb_impl eng w m).manager.checkStarted = false) ∧
        ((check_cb_impl eng w m).manager.storage_ ≠ [] →
          (check_cb_impl eng w m).manager.prepareStarted = m.prepareStarted ∧
          (check_cb_impl eng w m).manager.checkStarted = m.checkStarted))) ∧
    (HooksInv m →
      HooksInv (m.addClient aSnmp) ∧
      (∀ m1, m.removeClient aSnmp = some m1 → HooksInv m1) ∧
      HooksInv (prepare_cb_impl eng.snmp_sess_select_info t0 m).manager ∧
      ((check_cb_impl eng w m).failedAssert = none → HooksInv (check_cb_impl eng w m).manager) ∧
      (m.prepareStarted = true →
        (prepare_cb eng.snmp_sess_select_info t0 m).failedAssert
          ≠ some "!data->selfPtr_->storage_.empty()" ∧
        (prepare_cb eng.snmp_sess_select_info t0 m).failedAssert
          ≠ some "!this->storage_.empty()")) := by
  obtain ⟨a1, a2, a3, a4⟩ := addClient_fields m aSnmp
  obtain ⟨p1, p2, p3⟩ := prepare_cb_impl_fields eng.snmp_sess_select_info t0 m
  have plen : (prepare_cb_impl eng.snmp_sess_select_info t0 m).manager.storage_.length
      = m.storage_.length := by
    have := congrArg List.length p1
    simpa using this
  have hc := check_cb_impl_hooks eng w m
  have hrem : ∀ m1, m.removeClient aSnmp = some m1 →
      m1.prepareStarted = m.prepareStarted ∧ m1.checkStarted = m.checkStarted ∧
      m1.storage_.length = m.storage_.length := by
    intro m1 h
    obtain ⟨r1, r2, -, r4⟩ := removeClient_fields h
    obtain ⟨pre, e, post, h5, -, -, h6⟩ := flagFirst_eq_some r4
    exact ⟨r1, r2, by simp [h5, h6]⟩
  refine ⟨⟨a3, a4⟩, hrem, ⟨p2, p3, plen⟩, hc, ?_⟩
  intro hinv
  obtain ⟨i1, i2⟩ := hinv
  have hne_of_len : ∀ {l1 l2 : List storage_el}, l1.length = l2.length → (l1 ≠ [] ↔ l2 ≠ []) := by
    intro l1 l2 hl
    cases l1 <;> cases l2 <;> simp at hl ⊢
  refine ⟨?_, ?_, ?_, ?_, ?_⟩
  · by_cases hs : m.storage_ = []
    · constructor <;> simp [a1, (a3 hs).1, (a3 hs).2]
    · have hp : m.prepareStarted = true := i1.mpr hs
      have hq : m.checkStarted = true := i2.mpr hs
      constructor <;> simp [a1, (a4 hs).1, (a4 hs).2, hp, hq]
  · intro m1 h
    obtain ⟨r1, r2, r3⟩ := hrem m1 h
    exact ⟨by rw [r1, i1]; exact (hne_of_len r3).symm, by rw [r2, i2]; exact (hne_of_len r3).symm⟩
  · exact ⟨by rw [p2, i1]; exact (hne_of_len plen).symm,
      by rw [p3, i2]; exact (hne_of_len plen).symm⟩
  · intro hfa
    obtain ⟨c1, c2⟩ := hc.2 hfa
    by_cases hs : (check_cb_impl eng w m).manager.storage_ = []
    · obtain ⟨d1, d2⟩ := c1 hs
      constructor <;> simp [hs, d1, d2]
    · obtain ⟨d1, d2⟩ := c2 hs
      have hm : m.storage_ ≠ [] := by
        intro hnil
        apply hs
        have : check_cb_impl eng w m = check_cb_impl eng w m := rfl
        unfold check_cb_impl
        simp only
        have hst : (if m.timeout_active_ = true then { m with timeout_active_ := false }
            else m).storage_ = [] := by split_ifs <;> exact hnil
        rw [hst]
        simp only [List.length_nil, checkLoop, hst, List.isEmpty_nil, if_true]
      have hp : m.prepareStarted = true := i1.mpr hm
      have hq : m.checkStarted = true := i2.mpr hm
      constructor <;> simp [hs, d1, d2, hp, hq]
  · intro hp
    have hs : m.storage_ ≠ [] := i1.mp hp
    exact prepare_cb_nonempty _ t0 m hs

/-- Witness for C17: `exampleBridge` satisfies `HooksInv`; registering a
session, a pre-poll phase and a complete post-poll pass keep it, and a fresh
bridge arms both hooks on its first registration. -/
theorem hooks_armed_iff_registered_witness :
    HooksInv exampleBridge ∧
    (check_cb_impl exampleEngine () exampleBridge).failedAssert = none ∧
    HooksInv (exampleBridge.addClient 5) ∧
    HooksInv (prepare_cb_impl exampleEngine.snmp_sess_select_info ⟨0, 0⟩ exampleBridge).manager ∧
    HooksInv (check_cb_impl exampleEngine () exampleBridge).manager ∧
    (check_cb_impl exampleEngine () exampleBridge).manager.timeout_active_ = false ∧
    (SnmpSessionManager.fresh.addClient 5).prepareStarted = true ∧
    (SnmpSessionManager.fresh.addClient 5).checkStarted = true :=
  ⟨by decide, by decide,
    ((hooks_armed_iff_registered exampleEngine () ⟨0, 0⟩ exampleBridge 5).2.2.2.2
      (by decide)).1,
    ((hooks_armed_iff_registered exampleEngine () ⟨0, 0⟩ exampleBridge 5).2.2.2.2
      (by decide)).2.2.1,
    ((hooks_armed_iff_registered exampleEngine () ⟨0, 0⟩ exampleBridge 5).2.2.2.2
      (by decide)).2.2.2.1 (by decide),
    (hooks_armed_iff_registered exampleEngine () ⟨0, 0⟩ exampleBridge 5).2.2.2.1.1,
    ((hooks_armed_iff_registered exampleEngine () ⟨0, 0⟩ SnmpSessionManager.fresh 5).1.1 rfl).1,
    ((hooks_armed_iff_registered exampleEngine () ⟨0, 0⟩ SnmpSessionManager.fresh 5).1.1 rfl).2⟩

/-- C18, the code at the failing input: the queue holds GET 5, GET 6 and
GETBULK 7 and the reply to 6 arrives with error status zero. After the erase
the iterator refers to the record of request 7, so the kind inspected is
GETBULK: the GET request 6 is removed, its continuation is not invoked and the
assertion on the request kind fails. With GETNEXT 6 between GET 5 and GET 7 the
kind inspected is that of request 7 as well. -/
theorem erased_iterator_reads_neighbour :
    slotAfterErase exampleEnv
        [exampleReq .REQ_GET 5 100, exampleReq .REQ_GET 6 101, exampleReq .REQ_BULK 7 102]
        1 (exampleReq .REQ_GET 6 101)
      = exampleReq .REQ_BULK 7 102 ∧
    (snmp_cb_proxy exampleEnv NETSNMP_CALLBACK_OP_RECEIVED_MESSAGE 6 (exampleReply 6 0)
        { queue_ := [exampleReq .REQ_GET 5 100, exampleReq .REQ_GET 6 101,
                     exampleReq .REQ_BULK 7 102], sessionHandle_ := 7 }
        (exampleManager 7)).effects.calls = [] ∧
    (snmp_cb_proxy exampleEnv NETSNMP_CALLBACK_OP_RECEIVED_MESSAGE 6 (exampleReply 6 0)
        { queue_ := [exampleReq .REQ_GET 5 100, exampleReq .REQ_GET 6 101,
                     exampleReq .REQ_BULK 7 102], sessionHandle_ := 7 }
        (exampleManager 7)).failedAssert
      = some "internal error: inconsistent req_data record" ∧
    (snmp_cb_proxy exampleEnv NETSNMP_CALLBACK_OP_RECEIVED_MESSAGE 6 (exampleReply 6 0)
        { queue_ := [exampleReq .REQ_GET 5 100, exampleReq .REQ_GET 6 101,
                     exampleReq .REQ_BULK 7 102], sessionHandle_ := 7 }
        (exampleManager 7)).session.queue_
      = [exampleReq .REQ_GET 5 100, exampleReq .REQ_BULK 7 102] ∧
    slotAfterErase exampleEnv
        [exampleReq .REQ_GET 5 100, exampleReq .REQ_NEXT 6 101, exampleReq .REQ_GET 7 102]
        1 (exampleReq .REQ_NEXT 6 101)
      = exampleReq .REQ_GET 7 102 := by
  refine ⟨rfl, rfl, rfl, rfl, rfl⟩

/-- C19: no flagged entry survives a post-poll pass in which every handler
flags only the entry the pass is processing. First, for every engine and every
registry: when `check_cb_impl` runs to its end, every `removeClient` made by a
handler hit the entry being processed (`flagged` holds only `behind`) and the
handlers registered only non-NULL handles, the registry afterwards holds no
entry with a NULL handle. Second, the private bridge of a synchronous request:
with the one entry of the session in the registry and the one GET or GETNEXT
record in the queue, a pass in which the engine delivers the completion of that
record ends with an empty queue, an empty registry, both hooks stopped and the
timer inactive, so the assertion of the destructor holds. Third, the whole
synchronous call: when the engine resolves the request in an iteration the loop
reaches, `performSync` deletes a clone with an empty queue and a private
manager with an empty registry and stopped hooks, and no assertion fails. -/
theorem no_flagged_entry_after_check {σ : Type} (eng : Engine σ) (w : σ)
    (m : SnmpSessionManager) (L : LoopEnv) (tick h : Nat) (rec : req_data)
    (mp : SnmpSessionManager) (e : storage_el)
    (renv : RequestEnv) (fuel : Nat) (aType : req_type) (cb : Nat) (inst : SnmpSession)
    (md : SnmpSessionManager) (pdu : netsnmp_pdu) (deadline : Nat → Option timeval)
    (fdOf : Nat → Int) (j : Nat) :
    ((check_cb_impl eng w m).failedAssert = none →
      (∀ v ∈ (check_cb_impl eng w m).visits,
        (∀ t ∈ v.flagged, t = v.behind) ∧ (∀ a ∈ addHandles v.ops, a ≠ 0)) →
      ∀ x ∈ (check_cb_impl eng w m).manager.storage_, x.snmpHandle_ ≠ 0) ∧
    (mp.storage_ = [e] → e.snmpHandle_ = h → h ≠ 0 → rec.type_ ≠ .REQ_BULK →
      (∀ rs, ∃ c, L.onRead tick h rs { queue_ := [rec], sessionHandle_ := h } = [c] ∧
        c.reqid = rec.pdu_.reqid) →
      (∃ c, L.onTimeout tick h { queue_ := [rec], sessionHandle_ := h } = [c] ∧
        c.reqid = rec.pdu_.reqid) →
      (check_cb (sessionEngine L tick) { queue_ := [rec], sessionHandle_ := h } mp).failedAssert
        = none ∧
      (check_cb (sessionEngine L tick) { queue_ := [rec], sessionHandle_ := h } mp).state.queue_
        = [] ∧
      (check_cb (sessionEngine L tick) { queue_ := [rec], sessionHandle_ := h } mp).manager
        = { storage_ := [], prepareStarted := false, checkStarted := false,
            timeout_active_ := false } ∧
      (check_cb (sessionEngine L tick)
        { queue_ := [rec], sessionHandle_ := h } mp).manager.destroy = none) ∧
    (renv.ev_run = ev_run L fuel 0 → SelectInfoSpec L.snmp_sess_select_info deadline fdOf →
      renv.clone_handle ≠ 0 → renv.sess_send renv.clone_handle pdu ≠ 0 →
      aType ≠ .REQ_BULK →
      ResolvesAt L renv.clone_handle { pdu_ := pdu, type_ := aType, callback_ := cb } j →
      j < fuel →
      (performSync renv aType pdu cb inst md).aborted = none ∧
      (performSync renv aType pdu cb inst md).clone
        = some ({ queue_ := [], sessionHandle_ := renv.clone_handle },
                { storage_ := [], prepareStarted := false, checkStarted := false,
                  timeout_active_ := false })) := by
  refine ⟨?_, ?_, ?_⟩
  · intro hfa hown
    obtain ⟨l1, l2, l3, -, -⟩ := check_cb_impl_loop eng w m
    rw [l3]
    rw [l2] at hfa
    rw [l1] at hown
    exact checkLoop_no_flagged eng m.storage_.length m.storage_.length [] w
      { m with timeout_active_ := false } [] m.storage_ rfl rfl
      (by simp) hfa hown
  · intro hs he hh hrec hdelR hdelT
    obtain ⟨r1, r2, r3, -⟩ := check_cb_single_resolves L tick h rec mp e hs he hh hrec hdelR
      hdelT
    refine ⟨r1, by rw [r2], r3, by rw [r3]; rfl⟩
  · intro hrun hsel h0 hsent hty hres hfuel
    obtain ⟨-, p2, p3, -⟩ := performSync_resolves renv L fuel aType cb inst md pdu j hrun hsel
      h0 hsent hty hres hfuel
    exact ⟨p2, p3⟩

/-- Witness for C19: on `exampleBridge` every handler of `exampleEngine` flags
its own entry only, and the pass leaves no flagged entry; a private bridge with
the one entry of session 9, whose request 5 is answered in the pass, ends
empty with stopped hooks; and the synchronous call with `exampleLoop`, which
answers in its second iteration, fails no assertion. -/
theorem no_flagged_entry_after_check_witness :
    (check_cb_impl exampleEngine () exampleBridge).failedAssert = none ∧
    (∀ v ∈ (check_cb_impl exampleEngine () exampleBridge).visits,
      (∀ t ∈ v.flagged, t = v.behind) ∧ (∀ a ∈ addHandles v.ops, a ≠ 0)) ∧
    (∀ x ∈ (check_cb_impl exampleEngine () exampleBridge).manager.storage_,
      x.snmpHandle_ ≠ 0) ∧
    (check_cb (sessionEngine exampleLoop 1)
        { queue_ := [exampleReq .REQ_GET 5 200], sessionHandle_ := 9 }
        { storage_ := [exampleEntry 9 19 1], prepareStarted := true, checkStarted := true,
          timeout_active_ := false }).manager
      = { storage_ := [], prepareStarted := false, checkStarted := false,
          timeout_active_ := false } ∧
    (performSync (exampleSyncEnv 5) .REQ_GET
        { command := 0, reqid := 5, errstat := 0,
          variables_ := [{ name := [1, 3], type := ASN_NULL, val := [] }] } 200
        { queue_ := [exampleReq .REQ_GET 7 100], sessionHandle_ := 7 }
        (exampleManager 7)).aborted = none :=
  ⟨by decide, by decide,
    (no_flagged_entry_after_check exampleEngine () exampleBridge exampleLoop 1 9
      (exampleReq .REQ_GET 5 200)
      { storage_ := [exampleEntry 9 19 1], prepareStarted := true, checkStarted := true,
        timeout_active_ := false }
      (exampleEntry 9 19 1)
      (exampleSyncEnv 5) 5 .REQ_GET 200
      { queue_ := [exampleReq .REQ_GET 7 100], sessionHandle_ := 7 } (exampleManager 7)
      { command := 0, reqid := 5, errstat := 0,
        variables_ := [{ name := [1, 3], type := ASN_NULL, val := [] }] }
      exampleDeadline exampleFd 1).1 (by decide) (by decide),
    ((no_flagged_entry_after_check exampleEngine () exampleBridge exampleLoop 1 9
      (exampleReq .REQ_GET 5 200)
      { storage_ := [exampleEntry 9 19 1], prepareStarted := true, checkStarted := true,
        timeout_active_ := false }
      (exampleEntry 9 19 1)
      (exampleSyncEnv 5) 5 .REQ_GET 200
      { queue_ := [exampleReq .REQ_GET 7 100], sessionHandle_ := 7 } (exampleManager 7)
      { command := 0, reqid := 5, errstat := 0,
        variables_ := [{ name := [1, 3], type := ASN_NULL, val := [] }] }
      exampleDeadline exampleFd 1).2.1 rfl rfl (by decide) (by decide)
        (fun _ => ⟨_, rfl, rfl⟩) ⟨_, rfl, rfl⟩).2.2.1,
    ((no_flagged_entry_after_check exampleEngine () exampleBridge exampleLoop 1 9
      (exampleReq .REQ_GET 5 200)
      { storage_ := [exampleEntry 9 19 1], prepareStarted := true, checkStarted := true,
        timeout_active_ := false }
      (exampleEntry 9 19 1)
      (exampleSyncEnv 5) 5 .REQ_GET 200
      { queue_ := [exampleReq .REQ_GET 7 100], sessionHandle_ := 7 } (exampleManager 7)
      { command := 0, reqid := 5, errstat := 0,
        variables_ := [{ name := [1, 3], type := ASN_NULL, val := [] }] }
      exampleDeadline exampleFd 1).2.2 rfl exampleSelectInfo_spec (by decide) (by decide)
        (by decide) exampleLoop_resolves (by decide)).1⟩

end NodeSnmp
